import Mathlib

/-!
A shallow embedding of `mxSlimCurve.c`, the batch curve-fit entry point.

The C function `mexFunction` of `mxSlimCurve.c` validates its MATLAB inputs,
then runs, for every transient of the batch, the rapid (RLD) engine followed
by the iterative (LMA) engine, and stores the results in up to four output
tables.

Conventions of the embedding

* A C `int` is an `Int`; array dimensions are assumed to fit an `int`.
* A C `float` or `double` value is an `Fp`: a finite value is carried as the
  exact rational it denotes, together with the two infinities and NaN.  The
  sign of zero is not tracked.  An operation rounds its exact result to the
  precision of its C type (round to nearest, ties to even).
* A read that yields no defined value is `none`.  Reading the data of an
  array that is not of class `double` as `double`s gives a number that is
  not known: the value stays `none` and the call goes on.  A read through
  the pointer `sigma_ptr`, which is never set, or outside the sigma array is
  undefined behaviour: the call ends there with the status `undefined`, and
  nothing is said of what follows.
* The two engines and the host's `mxArray` accessors are not part of
  `mxSlimCurve.c`; the engines are parameters of the embedding.
-/

namespace SlimCurve

/-! ## Floating point values -/

/-- A value of C type `float` or `double`. -/
inductive Fp where
  | fin (q : ℚ)
  | inf (neg : Bool)
  | nan
deriving DecidableEq, Repr

/-- The rational `2 ^ e` for an integer exponent. -/
def pow2 (e : Int) : ℚ :=
  if 0 ≤ e then ((2 ^ e.toNat : Nat) : ℚ) else 1 / ((2 ^ (-e).toNat : Nat) : ℚ)

/-- Number of halvings that bring `n` below 2, at most `fuel` of them. -/
def log2Fuel : Nat → Nat → Nat
  | 0, _ => 0
  | fuel + 1, n => if n < 2 then 0 else log2Fuel fuel (n / 2) + 1

/-- The binary logarithm of a natural number, rounded down. -/
def natLog2 (n : Nat) : Nat := log2Fuel n n

/-- The exponent `e` with `2 ^ e ≤ |q| < 2 ^ (e + 1)`, for `q ≠ 0`. -/
def ilog2 (q : ℚ) : Int :=
  let e : Int := (natLog2 q.num.natAbs : Int) - (natLog2 q.den : Int)
  if pow2 e ≤ |q| then e else e - 1

/-- Round a non-negative rational to the nearest integer, ties to even. -/
def roundHalfEven (q : ℚ) : Int :=
  let f := Int.floor q
  let r := q - f
  if r < 1 / 2 then f
  else if 1 / 2 < r then f + 1
  else if f % 2 = 0 then f else f + 1

/-- Round a rational to the binary format with `p` significant bits, least
normal exponent `emin` and greatest exponent `emax`. -/
def roundBin (p : Nat) (emin emax : Int) (q : ℚ) : Fp :=
  if q = 0 then .fin 0
  else
    let e := max (ilog2 q) emin
    let quantum := pow2 (e - (p : Int) + 1)
    let m := roundHalfEven (|q| / quantum)
    let r : ℚ := (m : ℚ) * quantum
    if pow2 (emax + 1) ≤ r then .inf (decide (q < 0))
    else .fin (if q < 0 then -r else r)

/-- Rounding to IEEE 754 binary32, the C `float`. -/
def roundF32 (q : ℚ) : Fp := roundBin 24 (-126) 127 q

/-- Rounding to IEEE 754 binary64, the C `double`. -/
def roundF64 (q : ℚ) : Fp := roundBin 53 (-1022) 1023 q

namespace Fp

/-- The conversion `(float) d` of a `double`. -/
def toFloat : Fp → Fp
  | .fin q => roundF32 q
  | v => v

/-- The conversion `(double) f` of a `float`: every `float` is a `double`. -/
def toDouble (v : Fp) : Fp := v

/-- The conversion of an `int` to `float`. -/
def ofIntF32 (i : Int) : Fp := roundF32 (i : ℚ)

/-- The conversion of an `int` to `double`. -/
def ofIntF64 (i : Int) : Fp := roundF64 (i : ℚ)

/-- The `float` product `x * y`. -/
def mulF32 : Fp → Fp → Fp
  | .fin x, .fin y => roundF32 (x * y)
  | .nan, _ => .nan
  | _, .nan => .nan
  | .inf s, .fin y => if y = 0 then .nan else .inf (xor s (decide (y < 0)))
  | .fin x, .inf s => if x = 0 then .nan else .inf (xor s (decide (x < 0)))
  | .inf s, .inf t => .inf (xor s t)

/-- The `double` quotient `x / y`. -/
def divF64 : Fp → Fp → Fp
  | .fin x, .fin y =>
      if y = 0 then (if x = 0 then .nan else .inf (decide (x < 0)))
      else roundF64 (x / y)
  | .nan, _ => .nan
  | _, .nan => .nan
  | .inf s, .fin y => .inf (xor s (decide (y < 0)))
  | .fin _, .inf _ => .fin 0
  | .inf _, .inf _ => .nan

/-- The comparison `x < y`, false when either side is NaN. -/
def lt : Fp → Fp → Bool
  | .fin x, .fin y => decide (x < y)
  | .fin _, .inf s => !s
  | .inf s, .fin _ => s
  | .inf s, .inf t => s && !t
  | _, _ => false

/-- The comparison `x >= y`, false when either side is NaN. -/
def ge : Fp → Fp → Bool
  | .nan, _ => false
  | _, .nan => false
  | x, y => !(lt x y)

/-- The conversion `(int) d`: truncation toward zero.  The C standard leaves
the conversion undefined when the truncated value does not fit an `int`. -/
def toInt : Fp → Option Int
  | .fin q =>
      let t := Int.tdiv q.num (q.den : Int)
      if -2147483648 ≤ t ∧ t ≤ 2147483647 then some t else none
  | _ => none

end Fp

/-- A `float` literal such as `0.75f`. -/
def litF (q : ℚ) : Fp := roundF32 q

/-- A `double` literal such as `0.5`. -/
def litD (q : ℚ) : Fp := roundF64 q

/-! ## The host's arrays (`mex.h`) -/

/-- The class of a MATLAB array, as `mxGetClassName` reports it. -/
inductive MxClass where
  | double | single | int8 | uint8 | int16 | uint16 | int32 | uint32
  | int64 | uint64 | logical | char | cell | struct
deriving DecidableEq, Repr

/-- A MATLAB array as `mexFunction` sees it through the accessors it calls:
its class, its `mxGetM` by `mxGetN` shape and its elements in column-major
order, each as the `double` that `mxGetScalar` would return. -/
structure MxArray where
  cls : MxClass
  m : Nat
  n : Nat
  pr : List Fp
deriving DecidableEq, Repr

/-- The host keeps as many elements as the shape says. -/
def MxArray.WellFormed (a : MxArray) : Prop := a.pr.length = a.m * a.n

instance (a : MxArray) : Decidable a.WellFormed :=
  inferInstanceAs (Decidable (a.pr.length = a.m * a.n))

def mxGetM (a : MxArray) : Nat := a.m

def mxGetN (a : MxArray) : Nat := a.n

def mxGetNumberOfElements (a : MxArray) : Nat := a.m * a.n

def mxIsDouble (a : MxArray) : Bool := decide (a.cls = MxClass.double)

def mxGetClassName (a : MxArray) : MxClass := a.cls

/-- The first element as a `double`; indeterminate for an empty array. -/
def mxGetScalar (a : MxArray) : Option Fp := a.pr.head?

/-- The pointer to the `double` data; for an array of another class the
memory behind it does not hold `double`s, so what a read yields is
indeterminate (`none`). -/
def mxGetPr (a : MxArray) : Option (List Fp) :=
  if mxIsDouble a then some a.pr else none

/-- The read `ptr[idx]`: `none`, no defined value, through a pointer that
points to no array of `double`s or outside the array. -/
def readAt (ptr : Option (List Fp)) (idx : Nat) : Option Fp :=
  match ptr with
  | none => none
  | some d => d[idx]?

/-- The copy loop `for (i = 0; i < count; i++) dst[i] = (float) ptr[base + i]`
started at `i = count - k`: the `k` values stored, or `none` as soon as one of
the reads has no defined value. -/
def feedFrom (ptr : Option (List Fp)) (base : Nat) : Nat → Option (List Fp)
  | 0 => some []
  | k + 1 =>
      match readAt ptr base with
      | none => none
      | some v =>
          match feedFrom ptr (base + 1) k with
          | none => none
          | some rest => some (v.toFloat :: rest)

/-- The loop `for (i = 0; i < size; i++) dst[i] = (float) ptr[i + size * col]`
that loads column `col` into a `float` buffer of `size` elements. -/
def feed (ptr : Option (List Fp)) (size col : Nat) : Option (List Fp) :=
  feedFrom ptr (size * col) size

/-! ## Validation of the inputs (`mxSlimCurve.c`, lines 34 to 355) -/

/-- The texts `mexFunction` prints, with the values it puts into them. -/
inductive Msg where
  | needFourInputs
  | transientTooShort (transient_size : Nat)
  | transientTooLong (transient_size : Nat)
  | transientEmpty (transient_nr : Nat)
  | transientNotDouble (cls : MxClass)
  | promptTooShort (prompt_size : Nat)
  | promptCount (prompt_nr : Nat)
  | promptNotDouble (cls : MxClass)
  | xIncCount (x_inc_nr : Nat)
  | xIncNotDouble (cls : MxClass)
  | fitStartNotScalar (count : Nat)
  | fitStartRange (hi fit_start : Int)
  | fitTypeNotScalar (count : Nat)
  | fitTypeRange (fit_type : Int)
  | noiseModelNotScalar (count : Nat)
  | noiseModelRange (noise_model : Int)
  | chiSqTargetNotScalar (count : Nat)
  | chiSqTargetRange (chi_sq_target : Fp)
  | chiSqDeltaNotScalar (count : Nat)
  | chiSqDeltaRange (chi_sq_delta : Fp)
  | fitEndNotScalar (count : Nat)
  | fitEndRange (lo hi fit_end : Int)
  | sigmaCount (sigma_nr : Nat)
  | sigmaSize (sigma_size : Nat)
  | sigmaNotDouble (cls : MxClass)
deriving DecidableEq, Repr

/-- Why the validation stopped: a check printed its text and returned, or
the program left the behaviour the C standard defines (it used an element of
`prhs` the caller did not pass, read the scalar of an empty array, or
converted to `int` a number that does not fit). -/
inductive Halt where
  | rejected (msg : Msg)
  | undefined
deriving DecidableEq, Repr

instance {ε α : Type} [DecidableEq ε] [DecidableEq α] : DecidableEq (Except ε α)
  | .ok a, .ok b =>
      if h : a = b then isTrue (by rw [h]) else isFalse (by intro h2; cases h2; exact h rfl)
  | .error a, .error b =>
      if h : a = b then isTrue (by rw [h]) else isFalse (by intro h2; cases h2; exact h rfl)
  | .ok _, .error _ => isFalse (by intro h; cases h)
  | .error _, .ok _ => isFalse (by intro h; cases h)

/-- The element `prhs[k]`. -/
def arg (prhs : List MxArray) (k : Nat) : Except Halt MxArray :=
  match prhs[k]? with
  | some a => .ok a
  | none => .error .undefined

/-- The statement `(int) mxGetScalar(a)`. -/
def scalarInt (a : MxArray) : Except Halt Int :=
  match mxGetScalar a with
  | none => .error .undefined
  | some d =>
      match d.toInt with
      | none => .error .undefined
      | some i => .ok i

/-- The statement `(float) mxGetScalar(a)`. -/
def scalarFloat (a : MxArray) : Except Halt Fp :=
  match mxGetScalar a with
  | none => .error .undefined
  | some d => .ok d.toFloat

/-- A check followed by `mexPrintf(...); return;`. -/
def rejectIf (c : Bool) (msg : Msg) : Except Halt Unit :=
  if c then .error (.rejected msg) else .ok ()

/-- Lines 46 to 80: `transient_values`. -/
def parseTransient (prhs : List MxArray) : Except Halt (Nat × Nat × Option (List Fp)) := do
  let a ← arg prhs 0
  let transient_size := mxGetM a
  let transient_nr := mxGetN a
  rejectIf (decide (transient_size < 2)) (.transientTooShort transient_size)
  rejectIf (decide (transient_size > 2048)) (.transientTooLong transient_size)
  rejectIf (decide (transient_nr < 1)) (.transientEmpty transient_nr)
  rejectIf (!mxIsDouble a) (.transientNotDouble (mxGetClassName a))
  pure (transient_size, transient_nr, mxGetPr a)

/-- Lines 82 to 115: `prompt_values`, and the first prompt copied into the
`float` buffer `prompt_values`. -/
def parsePrompt (prhs : List MxArray) (transient_nr : Nat) :
    Except Halt (Nat × Nat × Option (List Fp) × Option (List Fp)) := do
  let a ← arg prhs 1
  let prompt_size := mxGetM a
  let prompt_nr := mxGetN a
  rejectIf (decide (prompt_size < 2)) (.promptTooShort prompt_size)
  rejectIf (decide (prompt_nr ≠ 1) && decide (prompt_nr ≠ transient_nr))
    (.promptCount prompt_nr)
  rejectIf (!mxIsDouble a) (.promptNotDouble (mxGetClassName a))
  let prompt_ptr := mxGetPr a
  pure (prompt_size, prompt_nr, prompt_ptr, feed prompt_ptr prompt_size 0)

/-- Lines 117 to 141: `x_inc`.  The class test of line 134 looks at
`transient_values`, as the source does. -/
def parseXInc (prhs : List MxArray) (transient_nr : Nat) :
    Except Halt (Nat × Option (List Fp) × Option Fp) := do
  let a ← arg prhs 2
  let x_inc_nr := mxGetNumberOfElements a
  rejectIf (decide (x_inc_nr ≠ 1) && decide (x_inc_nr ≠ transient_nr))
    (.xIncCount x_inc_nr)
  let t ← arg prhs 0
  rejectIf (!mxIsDouble t) (.xIncNotDouble (mxGetClassName a))
  let x_inc_ptr := mxGetPr a
  pure (x_inc_nr, x_inc_ptr, (readAt x_inc_ptr 0).map Fp.toFloat)

/-- Lines 143 to 164: `fit_start`. -/
def parseFitStart (prhs : List MxArray) (transient_size : Nat) : Except Halt Int := do
  let a ← arg prhs 3
  rejectIf (decide (mxGetNumberOfElements a ≠ 1))
    (.fitStartNotScalar (mxGetNumberOfElements a))
  let fit_start ← scalarInt a
  rejectIf (decide (fit_start < 0) || decide (fit_start > (transient_size : Int) - 2))
    (.fitStartRange ((transient_size : Int) - 2) fit_start)
  pure fit_start

/-- Lines 171 to 196: `fit_type`, 1 unless a fifth input is given. -/
def parseFitType (prhs : List MxArray) : Except Halt Int :=
  if prhs.length > 4 then do
    let a ← arg prhs 4
    rejectIf (decide (mxGetNumberOfElements a ≠ 1))
      (.fitTypeNotScalar (mxGetNumberOfElements a))
    let fit_type ← scalarInt a
    rejectIf (decide (fit_type < 1) || decide (fit_type > 4)) (.fitTypeRange fit_type)
    pure fit_type
  else pure 1

/-- Lines 198 to 225: `noise_model`, 4 unless a sixth input is given. -/
def parseNoiseModel (prhs : List MxArray) : Except Halt Int :=
  if prhs.length > 5 then do
    let a ← arg prhs 5
    rejectIf (decide (mxGetNumberOfElements a ≠ 1))
      (.noiseModelNotScalar (mxGetNumberOfElements a))
    let noise_model ← scalarInt a
    rejectIf (decide (noise_model < 1) || decide (noise_model > 6))
      (.noiseModelRange noise_model)
    pure noise_model
  else pure 4

/-- Lines 227 to 249: `chi_sq_target`, the `float` of `1.1` unless a seventh
input is given. -/
def parseChiSqTarget (prhs : List MxArray) : Except Halt Fp :=
  if prhs.length > 6 then do
    let a ← arg prhs 6
    rejectIf (decide (mxGetNumberOfElements a ≠ 1))
      (.chiSqTargetNotScalar (mxGetNumberOfElements a))
    let chi_sq_target ← scalarFloat a
    rejectIf (Fp.lt chi_sq_target (Fp.ofIntF32 1)) (.chiSqTargetRange chi_sq_target)
    pure chi_sq_target
  else pure (litD (11 / 10)).toFloat

/-- Lines 251 to 276: `chi_sq_delta`, the `float` of `0.001` unless an eighth
input is given. -/
def parseChiSqDelta (prhs : List MxArray) : Except Halt Fp :=
  if prhs.length > 7 then do
    let a ← arg prhs 7
    rejectIf (decide (mxGetNumberOfElements a ≠ 1))
      (.chiSqDeltaNotScalar (mxGetNumberOfElements a))
    let chi_sq_delta ← scalarFloat a
    rejectIf (Fp.lt chi_sq_delta (Fp.ofIntF32 0) ||
        Fp.ge chi_sq_delta.toDouble (litD (1 / 2)))
      (.chiSqDeltaRange chi_sq_delta)
    pure chi_sq_delta
  else pure (litD (1 / 1000)).toFloat

/-- Lines 278 to 303: `fit_end`, `transient_size - 1` unless a ninth input is
given. -/
def parseFitEnd (prhs : List MxArray) (transient_size : Nat) (fit_start : Int) :
    Except Halt Int :=
  if prhs.length > 8 then do
    let a ← arg prhs 8
    rejectIf (decide (mxGetNumberOfElements a ≠ 1))
      (.fitEndNotScalar (mxGetNumberOfElements a))
    let fit_end ← scalarInt a
    rejectIf (decide (fit_end ≤ fit_start) || decide (fit_end ≥ (transient_size : Int)))
      (.fitEndRange (fit_start + 1) ((transient_size : Int) - 1) fit_end)
    pure fit_end
  else pure ((transient_size : Int) - 1)

/-- Lines 306 to 355: `sigma_values`.  Without a tenth input the buffer
`sigma_values` has no element; with one that passes the checks of lines 316
to 345, its first `sigma_size` elements are copied into the buffer through
the pointer declared inside the block of line 348.  The returned triple is
`sigma_size`, `sigma_nr` and the buffer; the buffer is `none` when that copy
reads outside the array (a sigma with rows and no column), which is
undefined: `mexFunction` ends the call there. -/
def parseSigma (prhs : List MxArray) (transient_size transient_nr : Nat) :
    Except Halt (Nat × Nat × Option (List Fp)) :=
  if prhs.length > 9 then do
    let a ← arg prhs 9
    let sigma_nr := mxGetN a
    let sigma_size := mxGetM a
    rejectIf (decide (sigma_nr ≠ 0) && decide (sigma_nr ≠ 1) &&
        decide (sigma_nr ≠ transient_nr)) (.sigmaCount sigma_nr)
    rejectIf (decide (sigma_size ≠ 0) && decide (sigma_size ≠ transient_size))
      (.sigmaSize sigma_size)
    rejectIf (!mxIsDouble a) (.sigmaNotDouble (mxGetClassName a))
    pure (sigma_size, sigma_nr, feed (mxGetPr a) sigma_size 0)
  else pure (0, 0, some [])

/-- The local variables of `mexFunction` when the fits start (line 357). -/
structure Checked where
  transient_size : Nat
  transient_nr : Nat
  transient_ptr : Option (List Fp)
  prompt_size : Nat
  prompt_nr : Nat
  prompt_ptr : Option (List Fp)
  prompt_values : Option (List Fp)
  x_inc_nr : Nat
  x_inc_ptr : Option (List Fp)
  x_inc : Option Fp
  fit_start : Int
  fit_type : Int
  noise_model : Int
  chi_sq_target : Fp
  chi_sq_delta : Fp
  fit_end : Int
  sigma_size : Nat
  sigma_nr : Nat
  sigma_values : Option (List Fp)
deriving DecidableEq, Repr

/-- Lines 46 to 355 in the order of the source: every check that fails
returns at once. -/
def parse (prhs : List MxArray) : Except Halt Checked := do
  let (transient_size, transient_nr, transient_ptr) ← parseTransient prhs
  let (prompt_size, prompt_nr, prompt_ptr, prompt_values) ← parsePrompt prhs transient_nr
  let (x_inc_nr, x_inc_ptr, x_inc) ← parseXInc prhs transient_nr
  let fit_start ← parseFitStart prhs transient_size
  let fit_type ← parseFitType prhs
  let noise_model ← parseNoiseModel prhs
  let chi_sq_target ← parseChiSqTarget prhs
  let chi_sq_delta ← parseChiSqDelta prhs
  let fit_end ← parseFitEnd prhs transient_size fit_start
  let (sigma_size, sigma_nr, sigma_values) ← parseSigma prhs transient_size transient_nr
  pure { transient_size, transient_nr, transient_ptr, prompt_size, prompt_nr, prompt_ptr,
         prompt_values, x_inc_nr, x_inc_ptr, x_inc, fit_start, fit_type, noise_model,
         chi_sq_target, chi_sq_delta, fit_end, sigma_size, sigma_nr, sigma_values }

/-! ## The two engines (`Ecf.h`) -/

/-- The fit functions `mexFunction` can hand to the iterative engine. -/
inductive FitFunc where
  | GCI_multiexp_tau
  | GCI_stretchedexp
deriving DecidableEq, Repr

/-- A matrix obtained from `GCI_ecf_matrix(nrows, ncols)`: its dimensions,
and which allocation it is (the transient it was made for and its place among
the three of that transient). -/
structure EcfMatrix where
  nrows : Int
  ncols : Int
  fits : Nat
  place : Nat
deriving DecidableEq, Repr

/-- The arguments of `GCI_triple_integral_fitting_engine` that carry a value
into the call, in the order of the call; `z`, `a` and `tau` are the values
behind the three pointers when the call is made. -/
structure RldArgs where
  xincr : Option Fp
  y : Option (List Fp)
  fit_start : Int
  fit_end : Int
  instr : Option (List Fp)
  ninstr : Nat
  noise : Int
  sig : Option (List Fp)
  z : Fp
  a : Fp
  tau : Fp
  chisq_target : Fp
deriving DecidableEq, Repr

/-- What `GCI_triple_integral_fitting_engine` leaves behind: its return value,
the three estimates, the content of `fitted` and `residuals` at each index,
and the chi-square. -/
structure RldOut where
  ret : Int
  z : Fp
  a : Fp
  tau : Fp
  fitted : Nat → Fp
  residuals : Nat → Fp
  chisq : Fp

/-- The arguments of `GCI_marquardt_fitting_engine` that carry a value into
the call, in the order of the call. -/
structure LmaArgs where
  xincr : Option Fp
  y : Option (List Fp)
  ndata : Nat
  fit_start : Int
  fit_end : Int
  instr : Option (List Fp)
  ninstr : Nat
  noise : Int
  sig : Option (List Fp)
  param : Option (List Fp)
  paramfree : List Int
  nparam : Nat
  restrain : Int
  fitfunc : Option FitFunc
  covar : EcfMatrix
  alpha : EcfMatrix
  erraxes : EcfMatrix
  chisq_target : Fp
  chisq_delta : Fp
  chisq_percent : Int
deriving DecidableEq, Repr

/-- What `GCI_marquardt_fitting_engine` leaves behind: its return value, the
content of `params`, `fitted` and `residuals` at each index, and the
chi-square. -/
structure LmaOut where
  ret : Int
  param : Nat → Fp
  fitted : Nat → Fp
  residuals : Nat → Fp
  chisq : Fp

/-- The two engines, which `mxSlimCurve.c` only calls. -/
structure Engines where
  rld : RldArgs → RldOut
  lma : LmaArgs → LmaOut

/-! ## The fits (`mxSlimCurve.c`, lines 357 to 666) -/

/-- A matrix made by `mxCreateDoubleMatrix(rows, cols, mxREAL)`, its elements
in column-major order. -/
structure Table where
  rows : Nat
  cols : Nat
  data : List Fp
deriving DecidableEq, Repr

/-- The result of `mxCreateDoubleMatrix`: every element is zero. -/
def mxCreateDoubleMatrix (rows cols : Nat) : Table :=
  { rows := rows, cols := cols, data := List.replicate (rows * cols) (.fin 0) }

/-- One output of `mexFunction`: the element of `plhs` (`none` while nothing
was created), the counter that runs through it (`LMA_param_in` and the like),
and the indices stored so far, oldest first. -/
structure Out where
  tab : Option Table
  next : Nat
  writes : List Nat
deriving DecidableEq, Repr

/-- An output before anything is created. -/
def Out.unset : Out := { tab := none, next := 0, writes := [] }

/-- An output right after its matrix is created. -/
def Out.create (rows cols : Nat) : Out :=
  { tab := some (mxCreateDoubleMatrix rows cols), next := 0, writes := [] }

/-- The pair of statements `out[in] = v; in++;`. -/
def Out.put (o : Out) (v : Fp) : Out :=
  { tab := o.tab.map (fun t => { t with data := t.data.set o.next v }),
    next := o.next + 1,
    writes := o.writes ++ [o.next] }

/-- A loop of `out[in] = v; in++;` over the values `vs`. -/
def Out.putAll (o : Out) (vs : List Fp) : Out := vs.foldl Out.put o

/-- What happens during a call, in order. -/
inductive Event where
  | print (msg : Msg)
  | create (k rows cols : Nat)
  | alloc (mat : EcfMatrix)
  | rld (args : RldArgs)
  | lma (args : LmaArgs)
  | free (mat : EcfMatrix)
deriving DecidableEq, Repr

/-- The first `switch` (lines 384 to 411): the number of parameters of the
model, left unset when no case applies. -/
def nParam (fit_type : Int) : Option Nat :=
  if fit_type = 1 then some 3
  else if fit_type = 2 then some 5
  else if fit_type = 3 then some 7
  else if fit_type = 4 then some 4
  else none

/-- The first `switch` (lines 384 to 411): `fitfunc`, `NULL` unless the
stretched exponential is chosen. -/
def fitfuncBefore (fit_type : Int) : Option FitFunc :=
  if fit_type = 4 then some .GCI_stretchedexp else none

/-- The second `switch` (lines 557 to 596): the content of `params` after it,
given the rapid estimate; `old` is the content before, kept when no case
applies. -/
def initParams (fit_type : Int) (z a tau : Fp) (old : Option (List Fp)) :
    Option (List Fp) :=
  if fit_type = 1 then some [z, a, tau]
  else if fit_type = 2 then
    some [z, Fp.mulF32 (litF (3 / 4)) a, tau, Fp.mulF32 (litF (1 / 4)) a,
      Fp.mulF32 (litF (6666667 / 10000000)) tau]
  else if fit_type = 3 then
    some [z, Fp.mulF32 (litF (3 / 4)) a, tau, Fp.mulF32 (litF (1666667 / 10000000)) a,
      Fp.mulF32 (litF (6666667 / 10000000)) tau, Fp.mulF32 (litF (1666667 / 10000000)) a,
      Fp.mulF32 (litF (3333333 / 10000000)) tau]
  else if fit_type = 4 then some [z, a, tau, litF (3 / 2)]
  else old

/-- The loop of lines 599 to 603 after `k` rounds: the content of
`param_free` and the value of `n_param_free`. -/
def markFree : Nat → List Int × Int
  | 0 => ([], 0)
  | k + 1 => ((markFree k).1 ++ [1], (markFree k).2 + 1)

/-- How a call ends: `mexFunction` returns, or it leaves the behaviour the C
standard defines, after which nothing can be said of it. -/
inductive Status where
  | returned
  | undefined
deriving DecidableEq, Repr

/-- The pointer `sigma_ptr` of line 347.  Nothing is ever assigned to it: the
`sigma_ptr` that line 350 sets is a second variable, declared inside the block
of line 348, and the loop of lines 478 to 482 is outside that block.  It
points to no array (`none`): a read through it is undefined, and `fitStep`
ends the call there. -/
def sigma_ptr : Option (List Fp) := none

/-- The variables that live from one transient to the next, and whether the
call is still within the behaviour the C standard defines. -/
structure Frame where
  status : Status
  prompt_values : Option (List Fp)
  sigma_values : Option (List Fp)
  x_inc : Option Fp
  params : Option (List Fp)
  fitfunc : Option FitFunc
  LMA_param : Out
  RLD_param : Out
  LMA_fit : Out
  RLD_fit : Out
  log : List Event

/-- The body of the loop over the transients (lines 455 to 657) for the
transient `fits`.  For a transient after the first, when the sigma has more
than one column, the loop of lines 478 to 482 reads `sigma_size` elements
through `sigma_ptr`, which points to no array: with at least one element to
read the behaviour is undefined, the call ends there, before the matrices of
this transient are allocated and before either engine is called for it.
Nothing happens any more in a call that has ended. -/
def fitStep (E : Engines) (c : Checked) (nlhs : Int) (n_param : Nat)
    (f : Frame) (fits : Nat) : Frame :=
  if f.status = .undefined ∨
      (fits > 0 ∧ c.sigma_nr > 1 ∧ feed sigma_ptr c.sigma_size fits = none) then
    { f with status := .undefined }
  else
  let transient_values := feed c.transient_ptr c.transient_size fits
  let prompt_values :=
    if fits > 0 ∧ c.prompt_nr > 1 then feed c.prompt_ptr c.prompt_size fits
    else f.prompt_values
  let sigma_values :=
    if fits > 0 ∧ c.sigma_nr > 1 then feed sigma_ptr c.sigma_size fits
    else f.sigma_values
  let x_inc :=
    if fits > 0 ∧ c.x_inc_nr > 1 then (readAt c.x_inc_ptr fits).map Fp.toFloat
    else f.x_inc
  let restrain : Int := 0
  let chi_sq_percent : Int := 95
  let n_data : Int := c.fit_end
  let covar : EcfMatrix := { nrows := n_data, ncols := n_data, fits := fits, place := 0 }
  let alpha : EcfMatrix := { nrows := n_data, ncols := n_data, fits := fits, place := 1 }
  let err_axes : EcfMatrix := { nrows := n_data, ncols := n_data, fits := fits, place := 2 }
  let chi_sq_adjust : Int := c.fit_end - c.fit_start - 3
  let rldArgs : RldArgs :=
    { xincr := x_inc, y := transient_values, fit_start := c.fit_start,
      fit_end := c.fit_end, instr := prompt_values, ninstr := c.prompt_size,
      noise := c.noise_model, sig := sigma_values,
      z := litF 0, a := litF 1000, tau := litF 2,
      chisq_target := Fp.mulF32 c.chi_sq_target (Fp.ofIntF32 chi_sq_adjust) }
  let r := E.rld rldArgs
  let RLD_param :=
    if nlhs > 1 then
      ((f.RLD_param.put r.z.toDouble).put r.a.toDouble).put r.tau.toDouble
    else f.RLD_param
  let RLD_fit :=
    if nlhs > 3 then
      f.RLD_fit.putAll ((List.range c.transient_size).map (fun i => (r.fitted i).toDouble))
    else f.RLD_fit
  let fitfunc : Option FitFunc := some .GCI_multiexp_tau
  let params := initParams c.fit_type r.z r.a r.tau f.params
  let param_free := (markFree n_param).1
  let n_param_free := (markFree n_param).2
  let chi_sq_adjust : Int := c.fit_end - c.fit_start - n_param_free
  let lmaArgs : LmaArgs :=
    { xincr := x_inc, y := transient_values, ndata := c.transient_size,
      fit_start := c.fit_start, fit_end := c.fit_end, instr := prompt_values,
      ninstr := c.prompt_size, noise := c.noise_model, sig := sigma_values,
      param := params, paramfree := param_free, nparam := n_param,
      restrain := restrain, fitfunc := fitfunc,
      covar := covar, alpha := alpha, erraxes := err_axes,
      chisq_target := Fp.mulF32 c.chi_sq_target (Fp.ofIntF32 chi_sq_adjust),
      chisq_delta := c.chi_sq_delta, chisq_percent := chi_sq_percent }
  let l := E.lma lmaArgs
  let LMA_param :=
    (f.LMA_param.putAll ((List.range n_param).map (fun i => (l.param i).toDouble))).put
      (Fp.divF64 l.chisq.toDouble (Fp.ofIntF64 chi_sq_adjust))
  let LMA_fit :=
    if nlhs > 2 then
      f.LMA_fit.putAll ((List.range c.transient_size).map (fun i => (l.fitted i).toDouble))
    else f.LMA_fit
  { status := .returned,
    prompt_values := prompt_values, sigma_values := sigma_values, x_inc := x_inc,
    params := some ((List.range n_param).map l.param), fitfunc := fitfunc,
    LMA_param := LMA_param, RLD_param := RLD_param, LMA_fit := LMA_fit, RLD_fit := RLD_fit,
    log := f.log ++ [.alloc covar, .alloc alpha, .alloc err_axes, .rld rldArgs,
      .lma lmaArgs, .free covar, .free alpha, .free err_axes] }

/-- What a call of `mexFunction` does: how it ends, what happened in order,
and the four outputs `plhs[0]` to `plhs[3]`. -/
structure Run where
  status : Status
  log : List Event
  LMA_param : Out
  RLD_param : Out
  LMA_fit : Out
  RLD_fit : Out

/-- Lines 38 to 44: with fewer than four inputs the text is printed; the
block has no `return`. -/
def inputCountLog (prhs : List MxArray) : List Event :=
  if prhs.length < 4 then [.print .needFourInputs] else []

/-- A call that ends before any output is created. -/
def Run.stopped (status : Status) (log : List Event) : Run :=
  { status := status, log := log, LMA_param := Out.unset, RLD_param := Out.unset,
    LMA_fit := Out.unset, RLD_fit := Out.unset }

/-- Lines 415 to 451: the outputs are created, `plhs[0]` always and the
others by `nlhs`; the frame is the state in which the loop starts. -/
def startFrame (c : Checked) (nlhs : Int) (n_param : Nat) (log : List Event) : Frame :=
  { status := .returned,
    prompt_values := c.prompt_values, sigma_values := c.sigma_values, x_inc := c.x_inc,
    params := none, fitfunc := fitfuncBefore c.fit_type,
    LMA_param := Out.create (n_param + 1) c.transient_nr,
    RLD_param := if nlhs > 1 then Out.create 3 c.transient_nr else Out.unset,
    LMA_fit := if nlhs > 2 then Out.create c.transient_size c.transient_nr else Out.unset,
    RLD_fit := if nlhs > 3 then Out.create c.transient_size c.transient_nr else Out.unset,
    log := log ++ [.create 0 (n_param + 1) c.transient_nr]
      ++ (if nlhs > 1 then [.create 1 3 c.transient_nr] else [])
      ++ (if nlhs > 2 then [.create 2 c.transient_size c.transient_nr] else [])
      ++ (if nlhs > 3 then [.create 3 c.transient_size c.transient_nr] else []) }

/-- The loop `for (fits = 0; fits < transient_nr; fits++)` of line 454. -/
def fitLoop (E : Engines) (c : Checked) (nlhs : Int) (n_param : Nat) (f : Frame) : Frame :=
  (List.range c.transient_nr).foldl (fitStep E c nlhs n_param) f

/-- The entry point `mexFunction(nlhs, plhs, nrhs, prhs)`; `nrhs` is the
length of `prhs`.  When the checks have passed and the load of lines 351 to
354 has read outside the sigma (`sigma_values` is `none`), the behaviour is
undefined and the call ends before any output is created.  Otherwise the
call ends as the loop over the transients does. -/
def mexFunction (E : Engines) (nlhs : Int) (prhs : List MxArray) : Run :=
  match parse prhs with
  | .error (.rejected msg) => Run.stopped .returned (inputCountLog prhs ++ [.print msg])
  | .error .undefined => Run.stopped .undefined (inputCountLog prhs)
  | .ok c =>
      if c.sigma_values = none then Run.stopped .undefined (inputCountLog prhs)
      else
      match nParam c.fit_type with
      | none => Run.stopped .undefined (inputCountLog prhs)
      | some n_param =>
          let f := fitLoop E c nlhs n_param (startFrame c nlhs n_param (inputCountLog prhs))
          { status := f.status, log := f.log, LMA_param := f.LMA_param,
            RLD_param := f.RLD_param, LMA_fit := f.LMA_fit, RLD_fit := f.RLD_fit }

/-! ## What one transient is fitted with -/

/-- The content of `prompt_values` during the fit of transient `i`. -/
def promptAt (c : Checked) (i : Nat) : Option (List Fp) :=
  if i > 0 ∧ c.prompt_nr > 1 then feed c.prompt_ptr c.prompt_size i else c.prompt_values

/-- The content of `sigma_values` during the fit of transient `i`. -/
def sigmaAt (c : Checked) (i : Nat) : Option (List Fp) :=
  if i > 0 ∧ c.sigma_nr > 1 then feed sigma_ptr c.sigma_size i else c.sigma_values

/-- The value of `x_inc` during the fit of transient `i`. -/
def xIncAt (c : Checked) (i : Nat) : Option Fp :=
  if i > 0 ∧ c.x_inc_nr > 1 then (readAt c.x_inc_ptr i).map Fp.toFloat else c.x_inc

/-- The three scratch matrices of transient `i`. -/
def matrixAt (c : Checked) (i place : Nat) : EcfMatrix :=
  { nrows := c.fit_end, ncols := c.fit_end, fits := i, place := place }

/-- The arguments of the rapid engine for transient `i`. -/
def rldArgsAt (c : Checked) (i : Nat) : RldArgs :=
  { xincr := xIncAt c i, y := feed c.transient_ptr c.transient_size i,
    fit_start := c.fit_start, fit_end := c.fit_end, instr := promptAt c i,
    ninstr := c.prompt_size, noise := c.noise_model, sig := sigmaAt c i,
    z := litF 0, a := litF 1000, tau := litF 2,
    chisq_target := Fp.mulF32 c.chi_sq_target (Fp.ofIntF32 (c.fit_end - c.fit_start - 3)) }

/-- The rapid estimate of transient `i`. -/
def rldAt (E : Engines) (c : Checked) (i : Nat) : RldOut := E.rld (rldArgsAt c i)

/-- The arguments of the iterative engine for transient `i`. -/
def lmaArgsAt (E : Engines) (c : Checked) (n_param i : Nat) : LmaArgs :=
  { xincr := xIncAt c i, y := feed c.transient_ptr c.transient_size i,
    ndata := c.transient_size, fit_start := c.fit_start, fit_end := c.fit_end,
    instr := promptAt c i, ninstr := c.prompt_size, noise := c.noise_model,
    sig := sigmaAt c i,
    param := initParams c.fit_type (rldAt E c i).z (rldAt E c i).a (rldAt E c i).tau none,
    paramfree := (markFree n_param).1, nparam := n_param, restrain := 0,
    fitfunc := some .GCI_multiexp_tau,
    covar := matrixAt c i 0, alpha := matrixAt c i 1, erraxes := matrixAt c i 2,
    chisq_target :=
      Fp.mulF32 c.chi_sq_target (Fp.ofIntF32 (c.fit_end - c.fit_start - (markFree n_param).2)),
    chisq_delta := c.chi_sq_delta, chisq_percent := 95 }

/-- The refined fit of transient `i`. -/
def lmaAt (E : Engines) (c : Checked) (n_param i : Nat) : LmaOut :=
  E.lma (lmaArgsAt E c n_param i)

/-- The events of the fit of transient `i`, in order. -/
def iterLog (E : Engines) (c : Checked) (n_param i : Nat) : List Event :=
  [.alloc (matrixAt c i 0), .alloc (matrixAt c i 1), .alloc (matrixAt c i 2),
   .rld (rldArgsAt c i), .lma (lmaArgsAt E c n_param i),
   .free (matrixAt c i 0), .free (matrixAt c i 1), .free (matrixAt c i 2)]

/-- The values stored in `plhs[0]` for transient `i`. -/
def lmaColumn (E : Engines) (c : Checked) (n_param i : Nat) : List Fp :=
  (List.range n_param).map (fun j => ((lmaAt E c n_param i).param j).toDouble) ++
    [Fp.divF64 (lmaAt E c n_param i).chisq.toDouble
      (Fp.ofIntF64 (c.fit_end - c.fit_start - (markFree n_param).2))]

/-- The values stored in `plhs[1]` for transient `i`. -/
def rldColumn (E : Engines) (c : Checked) (i : Nat) : List Fp :=
  [(rldAt E c i).z.toDouble, (rldAt E c i).a.toDouble, (rldAt E c i).tau.toDouble]

/-- The values stored in `plhs[2]` for transient `i`. -/
def lmaFitColumn (E : Engines) (c : Checked) (n_param i : Nat) : List Fp :=
  (List.range c.transient_size).map (fun j => ((lmaAt E c n_param i).fitted j).toDouble)

/-- The values stored in `plhs[3]` for transient `i`. -/
def rldFitColumn (E : Engines) (c : Checked) (i : Nat) : List Fp :=
  (List.range c.transient_size).map (fun j => ((rldAt E c i).fitted j).toDouble)

/-- The output holds the values `vals` in its first places, in the order they
were stored at the indices 0, 1, 2, ..., and zero in the places after them. -/
def Out.Holds (o : Out) (rows cols : Nat) (vals : List Fp) : Prop :=
  o.tab = some { rows := rows, cols := cols,
                 data := vals ++ List.replicate (rows * cols - vals.length) (.fin 0) } ∧
  o.next = vals.length ∧ o.writes = List.range vals.length

/-- The state of an output that is created only when `requested`. -/
def Out.HoldsIf (requested : Prop) (o : Out) (rows cols : Nat) (vals : List Fp) : Prop :=
  (requested → o.Holds rows cols vals) ∧ (¬ requested → o = Out.unset)

/-- The state of the loop after the first `k` transients, the log having
been `log0` when the loop started. -/
structure LoopInv (E : Engines) (c : Checked) (nlhs : Int) (n_param : Nat)
    (log0 : List Event) (k : Nat) (f : Frame) : Prop where
  status : f.status = .returned
  prompt : f.prompt_values =
    if k > 1 ∧ c.prompt_nr > 1 then feed c.prompt_ptr c.prompt_size (k - 1) else c.prompt_values
  sigma : f.sigma_values =
    if k > 1 ∧ c.sigma_nr > 1 then feed sigma_ptr c.sigma_size (k - 1) else c.sigma_values
  xinc : f.x_inc =
    if k > 1 ∧ c.x_inc_nr > 1 then (readAt c.x_inc_ptr (k - 1)).map Fp.toFloat else c.x_inc
  log : f.log = log0 ++ (List.range k).flatMap (iterLog E c n_param)
  lmaParam : f.LMA_param.Holds (n_param + 1) c.transient_nr
    ((List.range k).flatMap (lmaColumn E c n_param))
  rldParam : Out.HoldsIf (nlhs > 1) f.RLD_param 3 c.transient_nr
    ((List.range k).flatMap (rldColumn E c))
  lmaFit : Out.HoldsIf (nlhs > 2) f.LMA_fit c.transient_size c.transient_nr
    ((List.range k).flatMap (lmaFitColumn E c n_param))
  rldFit : Out.HoldsIf (nlhs > 3) f.RLD_fit c.transient_size c.transient_nr
    ((List.range k).flatMap (rldFitColumn E c))

/-! ## Reading a call -/

/-- The calls of the rapid engine, in order. -/
def rldCalls (log : List Event) : List RldArgs :=
  log.filterMap (fun e => match e with
    | .rld args => some args
    | _ => none)

/-- The calls of the iterative engine, in order. -/
def lmaCalls (log : List Event) : List LmaArgs :=
  log.filterMap (fun e => match e with
    | .lma args => some args
    | _ => none)

/-- The texts printed, in order. -/
def printed (log : List Event) : List Msg :=
  log.filterMap (fun e => match e with
    | .print msg => some msg
    | _ => none)

/-- The outputs created, in order: the index into `plhs` and the shape. -/
def created (log : List Event) : List (Nat × Nat × Nat) :=
  log.filterMap (fun e => match e with
    | .create k rows cols => some (k, rows, cols)
    | _ => none)

/-- Column `i` of an array: the elements at `r + m * i` for the rows `r`. -/
def MxArray.column (a : MxArray) (i : Nat) : List Fp :=
  (List.range a.m).map (fun r => a.pr.getD (r + a.m * i) (.fin 0))

/-- The reads of the sigma stay inside an array: the load of lines 351 to
354 did (the buffer is not `none`), and the reload of lines 478 to 482, made
through `sigma_ptr` for the transients after the first when the sigma has
more than one column, has no element to read.  For the arrays of the host
this is a sigma that is absent, has no row, or has one column (see
`sigmaDefined_iff`). -/
def SigmaDefined (c : Checked) : Prop :=
  c.sigma_values ≠ none ∧ (c.sigma_nr > 1 → c.sigma_size = 0)

instance (c : Checked) : Decidable (SigmaDefined c) :=
  inferInstanceAs (Decidable (_ ∧ _))

/-- A valid call on which the code stays within the behaviour the C standard
defines: the validation accepts it with the local variables `c`, the host's
arrays hold as many elements as their shape says, the time increment is of
class `double`, as line 133 asks, and the reads of the sigma stay inside an
array.  A batch with one sigma column for each of several transients is left
out: the call is undefined from its second transient on (see
`sigma_batch_undefined`). -/
def Valid (prhs : List MxArray) (c : Checked) : Prop :=
  parse prhs = .ok c ∧ (∀ a ∈ prhs, a.WellFormed) ∧
    prhs[2]?.map MxArray.cls = some MxClass.double ∧ SigmaDefined c

/-- The call for transient `i` of a batch alone: `transient_values` is
column `i`, `x_inc` is the one time increment of that transient, and every
other input is the one of the batch. -/
def singleCall (prhs : List MxArray) (i : Nat) : List MxArray :=
  match prhs with
  | t :: pr :: x :: rest =>
      { t with n := 1, pr := t.column i } :: pr ::
        { x with m := 1, n := 1,
                 pr := [x.pr.getD (if x.m * x.n = 1 then 0 else i) (.fin 0)] } :: rest
  | _ => prhs

/-- The local variables after the validation of `singleCall prhs i`, from
those of the batch `c`, its `transient_values` `a0` and its `x_inc` `a2`. -/
def Checked.single (c : Checked) (a0 a2 : MxArray) (i : Nat) : Checked :=
  { c with
    transient_nr := 1
    transient_ptr := some (a0.column i)
    x_inc_nr := 1
    x_inc_ptr := some [a2.pr.getD (if a2.m * a2.n = 1 then 0 else i) (.fin 0)]
    x_inc := some (a2.pr.getD (if a2.m * a2.n = 1 then 0 else i) (.fin 0)).toFloat }

/-! ## Example calls -/

/-- An array of class `double` with the given shape and elements. -/
def dbl (m n : Nat) (pr : List ℚ) : MxArray :=
  { cls := .double, m := m, n := n, pr := pr.map Fp.fin }

/-- Engines that return fixed numbers: the rapid engine the estimate
`(0, 1000, 2)` and the fitted curve `j`, the iterative engine the
parameters `10 + j` and the fitted curve `100 + j`. -/
def exampleEngines : Engines where
  rld := fun _ =>
    { ret := 0, z := .fin 0, a := .fin 1000, tau := .fin 2, fitted := fun j => .fin j,
      residuals := fun _ => .fin 0, chisq := .fin 7 }
  lma := fun _ =>
    { ret := 0, param := fun j => .fin (10 + j), fitted := fun j => .fin (100 + j),
      residuals := fun _ => .fin 0, chisq := .fin 9 }

/-- Two transients of eight points, one prompt of two points, one time
increment, `fit_start = 0` and the double exponential model. -/
def callDouble : List MxArray :=
  [dbl 8 2 [9, 8, 7, 6, 5, 4, 3, 2, 19, 18, 17, 16, 15, 14, 13, 12], dbl 2 1 [1, 0],
   dbl 1 1 [1 / 4], dbl 1 1 [0], dbl 1 1 [2]]

/-- The local variables after the validation of `callDouble`. -/
def checkedDouble : Checked :=
  { transient_size := 8, transient_nr := 2,
    transient_ptr := some ([9, 8, 7, 6, 5, 4, 3, 2, 19, 18, 17, 16, 15, 14, 13, 12].map Fp.fin),
    prompt_size := 2, prompt_nr := 1, prompt_ptr := some [.fin 1, .fin 0],
    prompt_values := some [.fin 1, .fin 0],
    x_inc_nr := 1, x_inc_ptr := some [.fin (1 / 4)], x_inc := some (.fin (1 / 4)),
    fit_start := 0, fit_type := 2, noise_model := 4,
    chi_sq_target := .fin (9227469 / 8388608), chi_sq_delta := .fin (8589935 / 8589934592),
    fit_end := 7, sigma_size := 0, sigma_nr := 0, sigma_values := some [] }

/-- One transient of two points, one prompt, one time increment and
`fit_start = 0`: the single exponential is fitted on the window from 0 to 1,
so `fit_end - fit_start - p` is `-2`. -/
def callTiny : List MxArray :=
  [dbl 2 1 [5, 3], dbl 2 1 [1, 0], dbl 1 1 [1 / 4], dbl 1 1 [0]]

/-- One transient of four points with `fit_start = 0`: the single exponential
is fitted on the window from 0 to 3, so `fit_end - fit_start - p` is `0`. -/
def callFour : List MxArray :=
  [dbl 4 1 [9, 7, 5, 3], dbl 2 1 [1, 0], dbl 1 1 [1 / 4], dbl 1 1 [0]]

/-- The local variables after the validation of `callTiny`. -/
def checkedTiny : Checked :=
  { transient_size := 2, transient_nr := 1, transient_ptr := some [.fin 5, .fin 3],
    prompt_size := 2, prompt_nr := 1, prompt_ptr := some [.fin 1, .fin 0],
    prompt_values := some [.fin 1, .fin 0],
    x_inc_nr := 1, x_inc_ptr := some [.fin (1 / 4)], x_inc := some (.fin (1 / 4)),
    fit_start := 0, fit_type := 1, noise_model := 4,
    chi_sq_target := .fin (9227469 / 8388608), chi_sq_delta := .fin (8589935 / 8589934592),
    fit_end := 1, sigma_size := 0, sigma_nr := 0, sigma_values := some [] }

/-- A call whose transient has 2049 points. -/
def callTooLong : List MxArray :=
  [{ cls := .double, m := 2049, n := 1, pr := List.replicate 2049 (.fin 1) },
   dbl 2 1 [1, 0], dbl 1 1 [1 / 4], dbl 1 1 [0]]

/-- A call with three inputs, the first of them a transient of one point. -/
def callThree : List MxArray :=
  [dbl 1 1 [5], dbl 2 1 [1, 0], dbl 1 1 [1 / 4]]

/-- A call with three inputs that are all as asked. -/
def callThreeGood : List MxArray :=
  [dbl 8 1 [9, 8, 7, 6, 5, 4, 3, 2], dbl 2 1 [1, 0], dbl 1 1 [1 / 4]]

/-- Two transients of four points, each with its own prompt of two points
and its own time increment, `fit_start = 0`. -/
def callBroad : List MxArray :=
  [dbl 4 2 [9, 7, 5, 3, 19, 17, 15, 13], dbl 2 2 [1, 0, 2, 1], dbl 1 2 [1 / 4, 1 / 2],
   dbl 1 1 [0]]

/-- The local variables after the validation of `callBroad`. -/
def checkedBroad : Checked :=
  { transient_size := 4, transient_nr := 2,
    transient_ptr := some ([9, 7, 5, 3, 19, 17, 15, 13].map Fp.fin),
    prompt_size := 2, prompt_nr := 2, prompt_ptr := some [.fin 1, .fin 0, .fin 2, .fin 1],
    prompt_values := some [.fin 1, .fin 0],
    x_inc_nr := 2, x_inc_ptr := some [.fin (1 / 4), .fin (1 / 2)],
    x_inc := some (.fin (1 / 4)),
    fit_start := 0, fit_type := 1, noise_model := 4,
    chi_sq_target := .fin (9227469 / 8388608), chi_sq_delta := .fin (8589935 / 8589934592),
    fit_end := 3, sigma_size := 0, sigma_nr := 0, sigma_values := some [] }

/-- Two transients of four points with one prompt and one time increment,
all ten inputs given: the single exponential, the noise model 1, the targets
2 and 1/4, the window from 0 to 3, and a sigma of two columns, `1, 1, 1, 1`
for the first transient and `2, 2, 2, 2` for the second. -/
def callSigma : List MxArray :=
  [dbl 4 2 [9, 7, 5, 3, 19, 17, 15, 13], dbl 2 1 [1, 0], dbl 1 1 [1 / 4], dbl 1 1 [0],
   dbl 1 1 [1], dbl 1 1 [1], dbl 1 1 [2], dbl 1 1 [1 / 4], dbl 1 1 [3],
   dbl 4 2 [1, 1, 1, 1, 2, 2, 2, 2]]

/-- The call for the second transient of `callSigma` alone: its column of
the transients and its column of the sigma, everything else as it is. -/
def callSigmaSecond : List MxArray :=
  [dbl 4 1 [19, 17, 15, 13], dbl 2 1 [1, 0], dbl 1 1 [1 / 4], dbl 1 1 [0],
   dbl 1 1 [1], dbl 1 1 [1], dbl 1 1 [2], dbl 1 1 [1 / 4], dbl 1 1 [3],
   dbl 4 1 [2, 2, 2, 2]]

/-- Five transients of two points with all ten inputs given and a sigma of
one column, `3, 4`. -/
def callSigmaShared : List MxArray :=
  [dbl 2 5 [9, 7, 8, 6, 7, 5, 6, 4, 5, 3], dbl 2 1 [1, 0], dbl 1 1 [1 / 4], dbl 1 1 [0],
   dbl 1 1 [1], dbl 1 1 [1], dbl 1 1 [2], dbl 1 1 [1 / 4], dbl 1 1 [1],
   dbl 2 1 [3, 4]]

/-- Engines whose rapid estimate tells the sigma it was given: `z` is the
first element of the sigma curve, NaN when the curve has no element. -/
def sigmaEngines : Engines where
  rld := fun args =>
    { ret := 0,
      z := match args.sig with
        | some (s :: _) => s
        | _ => .nan,
      a := .fin 1000, tau := .fin 2, fitted := fun j => .fin j,
      residuals := fun _ => .fin 0, chisq := .fin 7 }
  lma := fun _ =>
    { ret := 0, param := fun j => .fin (10 + j), fitted := fun j => .fin (100 + j),
      residuals := fun _ => .fin 0, chisq := .fin 9 }

/-! ## The checks one by one -/

/-- The check block `k` of the validation, in the order of the source (1 the
transients, 2 the prompts, 3 the time increment, 4 `fit_start`, 5 `fit_type`,
6 `noise_model`, 7 `chi_sq_target`, 8 `chi_sq_delta`, 9 `fit_end`, 10 the
sigma), passes and leaves the values the local variables have in `c`. -/
def StageOk (prhs : List MxArray) (c : Checked) (k : Nat) : Prop :=
  match k with
  | 1 => parseTransient prhs = .ok (c.transient_size, c.transient_nr, c.transient_ptr)
  | 2 => parsePrompt prhs c.transient_nr =
      .ok (c.prompt_size, c.prompt_nr, c.prompt_ptr, c.prompt_values)
  | 3 => parseXInc prhs c.transient_nr = .ok (c.x_inc_nr, c.x_inc_ptr, c.x_inc)
  | 4 => parseFitStart prhs c.transient_size = .ok c.fit_start
  | 5 => parseFitType prhs = .ok c.fit_type
  | 6 => parseNoiseModel prhs = .ok c.noise_model
  | 7 => parseChiSqTarget prhs = .ok c.chi_sq_target
  | 8 => parseChiSqDelta prhs = .ok c.chi_sq_delta
  | 9 => parseFitEnd prhs c.transient_size c.fit_start = .ok c.fit_end
  | 10 => parseSigma prhs c.transient_size c.transient_nr =
      .ok (c.sigma_size, c.sigma_nr, c.sigma_values)
  | _ => True

/-- The check block `k` of the validation stops with `e`, the local
variables set before it having the values they have in `c`. -/
def StageErr (prhs : List MxArray) (c : Checked) (k : Nat) (e : Halt) : Prop :=
  match k with
  | 1 => parseTransient prhs = .error e
  | 2 => parsePrompt prhs c.transient_nr = .error e
  | 3 => parseXInc prhs c.transient_nr = .error e
  | 4 => parseFitStart prhs c.transient_size = .error e
  | 5 => parseFitType prhs = .error e
  | 6 => parseNoiseModel prhs = .error e
  | 7 => parseChiSqTarget prhs = .error e
  | 8 => parseChiSqDelta prhs = .error e
  | 9 => parseFitEnd prhs c.transient_size c.fit_start = .error e
  | 10 => parseSigma prhs c.transient_size c.transient_nr = .error e
  | _ => False

/-- Every check block before block `k` passes, with the values of `c`. -/
def PassedBefore (prhs : List MxArray) (c : Checked) (k : Nat) : Prop :=
  ∀ j, j < k → StageOk prhs c j

/-- Every check block other than block `k` passes, with the values of `c`:
the inputs that block `k` does not look at are valid. -/
def OthersPass (prhs : List MxArray) (c : Checked) (k : Nat) : Prop :=
  ∀ j, j ≠ k → StageOk prhs c j

/-- A call whose transient has 2048 points. -/
def callLongest : List MxArray :=
  [{ cls := .double, m := 2048, n := 1, pr := List.replicate 2048 (.fin 1) },
   dbl 2 1 [1, 0], dbl 1 1 [1 / 4], dbl 1 1 [0]]

/-- The local variables after the validation of `callLongest`. -/
def checkedLongest : Checked :=
  { transient_size := 2048, transient_nr := 1,
    transient_ptr := some (List.replicate 2048 (.fin 1)),
    prompt_size := 2, prompt_nr := 1, prompt_ptr := some [.fin 1, .fin 0],
    prompt_values := some [.fin 1, .fin 0],
    x_inc_nr := 1, x_inc_ptr := some [.fin (1 / 4)], x_inc := some (.fin (1 / 4)),
    fit_start := 0, fit_type := 1, noise_model := 4,
    chi_sq_target := .fin (9227469 / 8388608), chi_sq_delta := .fin (8589935 / 8589934592),
    fit_end := 2047, sigma_size := 0, sigma_nr := 0, sigma_values := some [] }

/-- A call with four inputs whose transient has one point. -/
def callOnePoint : List MxArray :=
  [dbl 1 1 [5], dbl 2 1 [1, 0], dbl 1 1 [1 / 4], dbl 1 1 [0]]

/-- One transient of eight points with `fit_start = 6`, the last but one
index. -/
def callStartLast : List MxArray :=
  [dbl 8 1 [9, 8, 7, 6, 5, 4, 3, 2], dbl 2 1 [1, 0], dbl 1 1 [1 / 4], dbl 1 1 [6]]

/-- The local variables after the validation of `callStartLast`. -/
def checkedStartLast : Checked :=
  { transient_size := 8, transient_nr := 1,
    transient_ptr := some ([9, 8, 7, 6, 5, 4, 3, 2].map Fp.fin),
    prompt_size := 2, prompt_nr := 1, prompt_ptr := some [.fin 1, .fin 0],
    prompt_values := some [.fin 1, .fin 0],
    x_inc_nr := 1, x_inc_ptr := some [.fin (1 / 4)], x_inc := some (.fin (1 / 4)),
    fit_start := 6, fit_type := 1, noise_model := 4,
    chi_sq_target := .fin (9227469 / 8388608), chi_sq_delta := .fin (8589935 / 8589934592),
    fit_end := 7, sigma_size := 0, sigma_nr := 0, sigma_values := some [] }

/-- One transient of eight points with `fit_start = 7`, the last index. -/
def callStartPast : List MxArray :=
  [dbl 8 1 [9, 8, 7, 6, 5, 4, 3, 2], dbl 2 1 [1, 0], dbl 1 1 [1 / 4], dbl 1 1 [7]]

/-- Two transients of eight points with nine inputs: the window from
`fit_start = 2` to `fit_end = 7`, the last index. -/
def callWindow : List MxArray :=
  [dbl 8 2 [9, 8, 7, 6, 5, 4, 3, 2, 19, 18, 17, 16, 15, 14, 13, 12], dbl 2 1 [1, 0],
   dbl 1 1 [1 / 4], dbl 1 1 [2], dbl 1 1 [1], dbl 1 1 [4], dbl 1 1 [2], dbl 1 1 [1 / 4],
   dbl 1 1 [7]]

/-- The local variables after the validation of `callWindow`. -/
def checkedWindow : Checked :=
  { transient_size := 8, transient_nr := 2,
    transient_ptr := some ([9, 8, 7, 6, 5, 4, 3, 2, 19, 18, 17, 16, 15, 14, 13, 12].map Fp.fin),
    prompt_size := 2, prompt_nr := 1, prompt_ptr := some [.fin 1, .fin 0],
    prompt_values := some [.fin 1, .fin 0],
    x_inc_nr := 1, x_inc_ptr := some [.fin (1 / 4)], x_inc := some (.fin (1 / 4)),
    fit_start := 2, fit_type := 1, noise_model := 4,
    chi_sq_target := .fin 2, chi_sq_delta := .fin (1 / 4),
    fit_end := 7, sigma_size := 0, sigma_nr := 0, sigma_values := some [] }

/-- The call `callWindow` with `fit_end = 8`, one past the last index. -/
def callWindowPast : List MxArray :=
  [dbl 8 2 [9, 8, 7, 6, 5, 4, 3, 2, 19, 18, 17, 16, 15, 14, 13, 12], dbl 2 1 [1, 0],
   dbl 1 1 [1 / 4], dbl 1 1 [2], dbl 1 1 [1], dbl 1 1 [4], dbl 1 1 [2], dbl 1 1 [1 / 4],
   dbl 1 1 [8]]

/-- The call `callWindow` with `fit_end = 2`, the value of `fit_start`. -/
def callWindowEmpty : List MxArray :=
  [dbl 8 2 [9, 8, 7, 6, 5, 4, 3, 2, 19, 18, 17, 16, 15, 14, 13, 12], dbl 2 1 [1, 0],
   dbl 1 1 [1 / 4], dbl 1 1 [2], dbl 1 1 [1], dbl 1 1 [4], dbl 1 1 [2], dbl 1 1 [1 / 4],
   dbl 1 1 [2]]

/-- One transient of eight points with six inputs, the noise model 0. -/
def callNoiseZero : List MxArray :=
  [dbl 8 1 [9, 8, 7, 6, 5, 4, 3, 2], dbl 2 1 [1, 0], dbl 1 1 [1 / 4], dbl 1 1 [0],
   dbl 1 1 [1], dbl 1 1 [0]]

/-- One transient of eight points with six inputs, the noise model 6. -/
def callNoiseSix : List MxArray :=
  [dbl 8 1 [9, 8, 7, 6, 5, 4, 3, 2], dbl 2 1 [1, 0], dbl 1 1 [1 / 4], dbl 1 1 [0],
   dbl 1 1 [1], dbl 1 1 [6]]

/-- The call `callSigma` with a prompt of three columns, neither one nor
the number of transients. -/
def callPromptThree : List MxArray :=
  [dbl 4 2 [9, 7, 5, 3, 19, 17, 15, 13], dbl 2 3 [1, 0, 1, 0, 1, 0], dbl 1 1 [1 / 4],
   dbl 1 1 [0]]

/-- The call `callSigma` with a sigma of three rows, neither zero nor the
length of the transients. -/
def callSigmaShort : List MxArray :=
  [dbl 4 2 [9, 7, 5, 3, 19, 17, 15, 13], dbl 2 1 [1, 0], dbl 1 1 [1 / 4], dbl 1 1 [0],
   dbl 1 1 [1], dbl 1 1 [1], dbl 1 1 [2], dbl 1 1 [1 / 4], dbl 1 1 [3],
   dbl 3 2 [1, 1, 1, 2, 2, 2]]

/-- The local variables after the validation of `callSigma`. -/
def checkedSigma : Checked :=
  { transient_size := 4, transient_nr := 2,
    transient_ptr := some ([9, 7, 5, 3, 19, 17, 15, 13].map Fp.fin),
    prompt_size := 2, prompt_nr := 1, prompt_ptr := some [.fin 1, .fin 0],
    prompt_values := some [.fin 1, .fin 0],
    x_inc_nr := 1, x_inc_ptr := some [.fin (1 / 4)], x_inc := some (.fin (1 / 4)),
    fit_start := 0, fit_type := 1, noise_model := 1,
    chi_sq_target := .fin 2, chi_sq_delta := .fin (1 / 4),
    fit_end := 3, sigma_size := 4, sigma_nr := 2,
    sigma_values := some [.fin 1, .fin 1, .fin 1, .fin 1] }

/-- The call `callBroad` with three time increments for two transients. -/
def callXIncThree : List MxArray :=
  [dbl 4 2 [9, 7, 5, 3, 19, 17, 15, 13], dbl 2 2 [1, 0, 2, 1],
   dbl 1 3 [1 / 4, 1 / 2, 1], dbl 1 1 [0]]

/-- One transient of eight points with seven inputs, `chi_sq_target = 1`. -/
def callTargetOne : List MxArray :=
  [dbl 8 1 [9, 8, 7, 6, 5, 4, 3, 2], dbl 2 1 [1, 0], dbl 1 1 [1 / 4], dbl 1 1 [0],
   dbl 1 1 [1], dbl 1 1 [4], dbl 1 1 [1]]

/-- One transient of eight points with seven inputs,
`chi_sq_target = 15 / 16`. -/
def callTargetLow : List MxArray :=
  [dbl 8 1 [9, 8, 7, 6, 5, 4, 3, 2], dbl 2 1 [1, 0], dbl 1 1 [1 / 4], dbl 1 1 [0],
   dbl 1 1 [1], dbl 1 1 [4], dbl 1 1 [15 / 16]]

/-- One transient of eight points with eight inputs, `chi_sq_delta = 0`. -/
def callDeltaZero : List MxArray :=
  [dbl 8 1 [9, 8, 7, 6, 5, 4, 3, 2], dbl 2 1 [1, 0], dbl 1 1 [1 / 4], dbl 1 1 [0],
   dbl 1 1 [1], dbl 1 1 [4], dbl 1 1 [2], dbl 1 1 [0]]

/-- One transient of eight points with eight inputs,
`chi_sq_delta = 1 / 2`. -/
def callDeltaHalf : List MxArray :=
  [dbl 8 1 [9, 8, 7, 6, 5, 4, 3, 2], dbl 2 1 [1, 0], dbl 1 1 [1 / 4], dbl 1 1 [0],
   dbl 1 1 [1], dbl 1 1 [4], dbl 1 1 [2], dbl 1 1 [1 / 2]]

/-- The local variables after the validation of `callDeltaZero`. -/
def checkedDeltaZero : Checked :=
  { transient_size := 8, transient_nr := 1,
    transient_ptr := some ([9, 8, 7, 6, 5, 4, 3, 2].map Fp.fin),
    prompt_size := 2, prompt_nr := 1, prompt_ptr := some [.fin 1, .fin 0],
    prompt_values := some [.fin 1, .fin 0],
    x_inc_nr := 1, x_inc_ptr := some [.fin (1 / 4)], x_inc := some (.fin (1 / 4)),
    fit_start := 0, fit_type := 1, noise_model := 4,
    chi_sq_target := .fin 2, chi_sq_delta := .fin 0,
    fit_end := 7, sigma_size := 0, sigma_nr := 0, sigma_values := some [] }

/-- One transient of eight points with five inputs, `fit_type = 4`, the
stretched exponential. -/
def callStretched : List MxArray :=
  [dbl 8 1 [9, 8, 7, 6, 5, 4, 3, 2], dbl 2 1 [1, 0], dbl 1 1 [1 / 4], dbl 1 1 [0],
   dbl 1 1 [4]]

/-- One transient of eight points with four inputs, the time increment of
class `single`. -/
def callXIncSingle : List MxArray :=
  [dbl 8 1 [9, 8, 7, 6, 5, 4, 3, 2], dbl 2 1 [1, 0],
   { cls := .single, m := 1, n := 1, pr := [.fin (1 / 4)] }, dbl 1 1 [0]]

/-! ## Lemmas on the outputs -/

theorem Out.holds_create (rows cols : Nat) : (Out.create rows cols).Holds rows cols [] := by
  simp [Out.Holds, Out.create, mxCreateDoubleMatrix]

theorem Out.holds_put {o : Out} {rows cols : Nat} {vals : List Fp} (v : Fp)
    (h : o.Holds rows cols vals) (hlt : vals.length < rows * cols) :
    (o.put v).Holds rows cols (vals ++ [v]) := by
  obtain ⟨ht, hn, hw⟩ := h
  obtain ⟨k, hk⟩ : ∃ k, rows * cols - vals.length = k + 1 :=
    ⟨rows * cols - vals.length - 1, by omega⟩
  refine ⟨?_, ?_, ?_⟩
  · have hk2 : rows * cols - (vals.length + 1) = k := by omega
    simp [Out.put, ht, hn, hk, hk2, List.replicate_succ]
  · simp [Out.put, hn]
  · simp [Out.put, hn, hw, List.range_succ]

theorem Out.holds_putAll {rows cols : Nat} (vs : List Fp) :
    ∀ {o : Out} {vals : List Fp}, o.Holds rows cols vals →
      vals.length + vs.length ≤ rows * cols → (o.putAll vs).Holds rows cols (vals ++ vs) := by
  induction vs with
  | nil => intro o vals h _; simpa [Out.putAll] using h
  | cons v vs ih =>
      intro o vals h hle
      have h1 := Out.holds_put v h (by simp at hle; omega)
      have h2 := ih h1 (by simp at hle ⊢; omega)
      simpa [Out.putAll] using h2

theorem length_flatMap_range {α : Type} (g : Nat → List α) (w : Nat)
    (hg : ∀ i, (g i).length = w) (k : Nat) :
    ((List.range k).flatMap g).length = k * w := by
  induction k with
  | zero => simp
  | succ k ih => simp [List.range_succ, List.flatMap_append, ih, hg, Nat.succ_mul]

theorem getElem?_flatMap_range {α : Type} (g : Nat → List α) (w : Nat)
    (hg : ∀ i, (g i).length = w) {n i j : Nat} (hi : i < n) (hj : j < w) :
    ((List.range n).flatMap g)[w * i + j]? = (g i)[j]? := by
  induction n with
  | zero => omega
  | succ n ih =>
      rw [List.range_succ, List.flatMap_append]
      have hlen := length_flatMap_range g w hg n
      by_cases hin : i < n
      · have hlt : w * i + j < ((List.range n).flatMap g).length := by
          rw [hlen]
          calc w * i + j < w * i + w := by omega
            _ = (i + 1) * w := by ring
            _ ≤ n * w := Nat.mul_le_mul_right w hin
        rw [List.getElem?_append_left hlt]
        exact ih hin
      · have hi2 : i = n := by omega
        subst hi2
        have hge : ((List.range i).flatMap g).length ≤ w * i + j := by
          rw [hlen, Nat.mul_comm]; omega
        rw [List.getElem?_append_right hge, hlen]
        have : w * i + j - i * w = j := by rw [Nat.mul_comm]; omega
        simp [this]

theorem Out.holds_full {o : Out} {rows cols : Nat} {col : Nat → List Fp}
    (h : o.Holds rows cols ((List.range cols).flatMap col))
    (hw : ∀ i, (col i).length = rows) :
    o.tab = some { rows := rows, cols := cols, data := (List.range cols).flatMap col } ∧
    o.writes = List.range (rows * cols) := by
  have hlen := length_flatMap_range col rows hw cols
  obtain ⟨ht, _, hwr⟩ := h
  rw [hlen, Nat.mul_comm cols rows] at ht hwr
  simpa using And.intro ht hwr

/-! ## The loop over the transients -/

theorem initParams_old {fit_type : Int} {n : Nat} (hp : nParam fit_type = some n)
    (z a tau : Fp) (old : Option (List Fp)) :
    initParams fit_type z a tau old = initParams fit_type z a tau none := by
  unfold nParam at hp
  unfold initParams
  split_ifs at hp ⊢ <;> rfl

theorem carried_step {α : Type} (k nr : Nat) (g : Nat → α) (init cur : α)
    (h : cur = if k > 1 ∧ nr > 1 then g (k - 1) else init) :
    (if k > 0 ∧ nr > 1 then g k else cur) = (if k > 0 ∧ nr > 1 then g k else init) := by
  subst h
  by_cases h1 : k > 0 ∧ nr > 1
  · simp [h1]
  · have h2 : ¬ (k > 1 ∧ nr > 1) := fun h => h1 ⟨by omega, h.2⟩
    simp [h1, h2]

theorem Out.putAll_put (o : Out) (vs : List Fp) (v : Fp) :
    (o.putAll vs).put v = o.putAll (vs ++ [v]) := by
  simp [Out.putAll, List.foldl_append]

theorem Out.holds_column {o : Out} {rows cols k : Nat} {col : Nat → List Fp}
    (h : o.Holds rows cols ((List.range k).flatMap col))
    (hw : ∀ i, (col i).length = rows) (hk : k < cols) :
    (o.putAll (col k)).Holds rows cols ((List.range (k + 1)).flatMap col) := by
  have hlen := length_flatMap_range col rows hw k
  have hcap : ((List.range k).flatMap col).length + (col k).length ≤ rows * cols := by
    rw [hlen, hw]
    calc k * rows + rows = rows * (k + 1) := by ring
      _ ≤ rows * cols := Nat.mul_le_mul_left rows hk
  have := Out.holds_putAll (col k) h hcap
  simpa [List.range_succ, List.flatMap_append] using this

theorem Out.holdsIf_column {requested : Prop} {o o2 : Out} {rows cols k : Nat}
    {col : Nat → List Fp}
    (h : Out.HoldsIf requested o rows cols ((List.range k).flatMap col))
    (hw : ∀ i, (col i).length = rows) (hk : k < cols)
    (h1 : requested → o2 = o.putAll (col k)) (h2 : ¬ requested → o2 = o) :
    Out.HoldsIf requested o2 rows cols ((List.range (k + 1)).flatMap col) := by
  constructor
  · intro hr
    rw [h1 hr]
    exact Out.holds_column (h.1 hr) hw hk
  · intro hr
    rw [h2 hr]
    exact h.2 hr

theorem markFree_snd (n : Nat) : (markFree n).2 = n := by
  induction n with
  | zero => rfl
  | succ n ih => simp [markFree, ih]

theorem fitStep_inv {E : Engines} {c : Checked} {nlhs : Int} {n_param : Nat}
    {log0 : List Event} {k : Nat} {f : Frame}
    (hp : nParam c.fit_type = some n_param)
    (hU : ¬ (k > 0 ∧ c.sigma_nr > 1 ∧ feed sigma_ptr c.sigma_size k = none))
    (h : LoopInv E c nlhs n_param log0 k f) (hk : k < c.transient_nr) :
    LoopInv E c nlhs n_param log0 (k + 1) (fitStep E c nlhs n_param f k) := by
  have hg : ¬ (f.status = .undefined ∨
      (k > 0 ∧ c.sigma_nr > 1 ∧ feed sigma_ptr c.sigma_size k = none)) := by
    rintro (h1 | h1)
    · rw [h.status] at h1; exact absurd h1 (by decide)
    · exact hU h1
  have hP := carried_step k c.prompt_nr (fun i => feed c.prompt_ptr c.prompt_size i)
    c.prompt_values f.prompt_values h.prompt
  have hS := carried_step k c.sigma_nr (fun i => feed sigma_ptr c.sigma_size i)
    c.sigma_values f.sigma_values h.sigma
  have hX := carried_step k c.x_inc_nr (fun i => (readAt c.x_inc_ptr i).map Fp.toFloat)
    c.x_inc f.x_inc h.xinc
  simp only at hP hS hX
  refine ⟨?_, ?_, ?_, ?_, ?_, ?_, ?_, ?_, ?_⟩
  · unfold fitStep; rw [if_neg hg]
  · unfold fitStep; rw [if_neg hg]; simpa using hP
  · unfold fitStep; rw [if_neg hg]; simpa using hS
  · unfold fitStep; rw [if_neg hg]; simpa using hX
  · have hlog : (fitStep E c nlhs n_param f k).log = f.log ++ iterLog E c n_param k := by
      unfold fitStep; rw [if_neg hg]
      simp only [iterLog, rldArgsAt, lmaArgsAt, rldAt, matrixAt, promptAt, sigmaAt,
        xIncAt, hP, hS, hX, initParams_old hp _ _ _ f.params]
    rw [hlog, h.log]
    simp [List.range_succ, List.flatMap_append]
  · have hcol : (fitStep E c nlhs n_param f k).LMA_param =
        f.LMA_param.putAll (lmaColumn E c n_param k) := by
      unfold fitStep; rw [if_neg hg]
      simp only [lmaColumn, lmaAt, rldArgsAt, lmaArgsAt, rldAt, matrixAt, promptAt,
        sigmaAt, xIncAt, hP, hS, hX, initParams_old hp _ _ _ f.params, Out.putAll_put]
    rw [hcol]
    exact Out.holds_column h.lmaParam (fun i => by simp [lmaColumn]) hk
  · refine Out.holdsIf_column h.rldParam (fun i => by simp [rldColumn]) hk ?_ ?_
    · intro hr
      unfold fitStep; rw [if_neg hg]
      simp only [rldColumn, rldArgsAt, rldAt, promptAt, sigmaAt, xIncAt, hP, hS, hX,
        if_pos hr, Out.putAll, List.foldl]
    · intro hr
      unfold fitStep; rw [if_neg hg]
      simp only [if_neg hr]
  · refine Out.holdsIf_column h.lmaFit (fun i => by simp [lmaFitColumn]) hk ?_ ?_
    · intro hr
      unfold fitStep; rw [if_neg hg]
      simp only [lmaFitColumn, lmaAt, rldArgsAt, lmaArgsAt, rldAt, matrixAt, promptAt,
        sigmaAt, xIncAt, hP, hS, hX, initParams_old hp _ _ _ f.params, if_pos hr]
    · intro hr
      unfold fitStep; rw [if_neg hg]
      simp only [if_neg hr]
  · refine Out.holdsIf_column h.rldFit (fun i => by simp [rldFitColumn]) hk ?_ ?_
    · intro hr
      unfold fitStep; rw [if_neg hg]
      simp only [rldFitColumn, rldArgsAt, rldAt, promptAt, sigmaAt, xIncAt, hP, hS, hX,
        if_pos hr]
    · intro hr
      unfold fitStep; rw [if_neg hg]
      simp only [if_neg hr]

theorem startFrame_inv (E : Engines) (c : Checked) (nlhs : Int) (n_param : Nat)
    (log : List Event) :
    LoopInv E c nlhs n_param (startFrame c nlhs n_param log).log 0
      (startFrame c nlhs n_param log) := by
  refine ⟨rfl, by simp [startFrame], by simp [startFrame], by simp [startFrame], by simp,
    ?_, ?_, ?_, ?_⟩
  · simpa [startFrame] using Out.holds_create (n_param + 1) c.transient_nr
  · constructor
    · intro hr; simpa [startFrame, hr] using Out.holds_create 3 c.transient_nr
    · intro hr; simp [startFrame, hr]
  · constructor
    · intro hr; simpa [startFrame, hr] using Out.holds_create c.transient_size c.transient_nr
    · intro hr; simp [startFrame, hr]
  · constructor
    · intro hr; simpa [startFrame, hr] using Out.holds_create c.transient_size c.transient_nr
    · intro hr; simp [startFrame, hr]

theorem foldl_fitStep_inv {E : Engines} {c : Checked} {nlhs : Int} {n_param : Nat}
    {log0 : List Event} {f0 : Frame} (hp : nParam c.fit_type = some n_param)
    (hs : c.sigma_nr > 1 → c.sigma_size = 0)
    (h0 : LoopInv E c nlhs n_param log0 0 f0) :
    ∀ k, k ≤ c.transient_nr →
      LoopInv E c nlhs n_param log0 k ((List.range k).foldl (fitStep E c nlhs n_param) f0) := by
  intro k
  induction k with
  | zero => intro _; simpa using h0
  | succ k ih =>
      intro hk
      rw [List.range_succ, List.foldl_append]
      refine fitStep_inv hp ?_ (ih (by omega)) (by omega)
      rintro ⟨_, h2, h3⟩
      rw [hs h2] at h3
      exact absurd h3 (by simp [feed, feedFrom])

theorem fitLoop_inv (E : Engines) (c : Checked) (nlhs : Int) {n_param : Nat}
    (log : List Event) (hp : nParam c.fit_type = some n_param)
    (hs : c.sigma_nr > 1 → c.sigma_size = 0) :
    LoopInv E c nlhs n_param (startFrame c nlhs n_param log).log c.transient_nr
      (fitLoop E c nlhs n_param (startFrame c nlhs n_param log)) :=
  foldl_fitStep_inv hp hs (startFrame_inv E c nlhs n_param log) c.transient_nr (Nat.le_refl _)

/-! ## What an accepted call has passed -/

theorem bind_ok {α β : Type} {x : Except Halt α} {g : α → Except Halt β} {b : β}
    (h : x >>= g = .ok b) : ∃ a, x = .ok a ∧ g a = .ok b := by
  cases x with
  | error e => simp [bind, Except.bind] at h
  | ok a => exact ⟨a, rfl, h⟩

theorem parse_ok {prhs : List MxArray} {c : Checked} (h : parse prhs = .ok c) :
    parseTransient prhs = .ok (c.transient_size, c.transient_nr, c.transient_ptr) ∧
    parsePrompt prhs c.transient_nr =
      .ok (c.prompt_size, c.prompt_nr, c.prompt_ptr, c.prompt_values) ∧
    parseXInc prhs c.transient_nr = .ok (c.x_inc_nr, c.x_inc_ptr, c.x_inc) ∧
    parseFitStart prhs c.transient_size = .ok c.fit_start ∧
    parseFitType prhs = .ok c.fit_type ∧
    parseNoiseModel prhs = .ok c.noise_model ∧
    parseChiSqTarget prhs = .ok c.chi_sq_target ∧
    parseChiSqDelta prhs = .ok c.chi_sq_delta ∧
    parseFitEnd prhs c.transient_size c.fit_start = .ok c.fit_end ∧
    parseSigma prhs c.transient_size c.transient_nr =
      .ok (c.sigma_size, c.sigma_nr, c.sigma_values) := by
  unfold parse at h
  obtain ⟨⟨a1, a2, a3⟩, h1, h⟩ := bind_ok h
  obtain ⟨⟨b1, b2, b3, b4⟩, h2, h⟩ := bind_ok h
  obtain ⟨⟨c1, c2, c3⟩, h3, h⟩ := bind_ok h
  obtain ⟨d, h4, h⟩ := bind_ok h
  obtain ⟨e, h5, h⟩ := bind_ok h
  obtain ⟨f, h6, h⟩ := bind_ok h
  obtain ⟨g, h7, h⟩ := bind_ok h
  obtain ⟨i, h8, h⟩ := bind_ok h
  obtain ⟨j, h9, h⟩ := bind_ok h
  obtain ⟨⟨k1, k2, k3⟩, h10, h⟩ := bind_ok h
  simp only [pure, Except.pure, Except.ok.injEq] at h
  subst h
  exact ⟨h1, h2, h3, h4, h5, h6, h7, h8, h9, h10⟩

theorem parse_of_stages {prhs : List MxArray} {c : Checked}
    (h1 : parseTransient prhs = .ok (c.transient_size, c.transient_nr, c.transient_ptr))
    (h2 : parsePrompt prhs c.transient_nr =
      .ok (c.prompt_size, c.prompt_nr, c.prompt_ptr, c.prompt_values))
    (h3 : parseXInc prhs c.transient_nr = .ok (c.x_inc_nr, c.x_inc_ptr, c.x_inc))
    (h4 : parseFitStart prhs c.transient_size = .ok c.fit_start)
    (h5 : parseFitType prhs = .ok c.fit_type)
    (h6 : parseNoiseModel prhs = .ok c.noise_model)
    (h7 : parseChiSqTarget prhs = .ok c.chi_sq_target)
    (h8 : parseChiSqDelta prhs = .ok c.chi_sq_delta)
    (h9 : parseFitEnd prhs c.transient_size c.fit_start = .ok c.fit_end)
    (h10 : parseSigma prhs c.transient_size c.transient_nr =
      .ok (c.sigma_size, c.sigma_nr, c.sigma_values)) :
    parse prhs = .ok c := by
  simp [parse, h1, h2, h3, h4, h5, h6, h7, h8, h9, h10, bind, Except.bind, pure, Except.pure]

theorem rejectIf_ok {b : Bool} {msg : Msg} {u : Unit} : rejectIf b msg = .ok u ↔ b = false := by
  cases b <;> simp [rejectIf]

theorem arg_ok {prhs : List MxArray} {k : Nat} {a : MxArray} :
    arg prhs k = .ok a ↔ prhs[k]? = some a := by
  unfold arg
  cases h : prhs[k]? <;> simp

theorem parseTransient_ok {prhs : List MxArray} {size nr : Nat} {ptr : Option (List Fp)}
    (h : parseTransient prhs = .ok (size, nr, ptr)) :
    ∃ a, prhs[0]? = some a ∧ size = a.m ∧ nr = a.n ∧ ptr = some a.pr ∧
      a.cls = MxClass.double ∧ 2 ≤ a.m ∧ a.m ≤ 2048 ∧ 1 ≤ a.n := by
  unfold parseTransient at h
  obtain ⟨a, ha, h⟩ := bind_ok h
  obtain ⟨_, h1, h⟩ := bind_ok h
  obtain ⟨_, h2, h⟩ := bind_ok h
  obtain ⟨_, h3, h⟩ := bind_ok h
  obtain ⟨_, h4, h⟩ := bind_ok h
  rw [rejectIf_ok] at h1 h2 h3 h4
  simp only [pure, Except.pure, Except.ok.injEq, Prod.mk.injEq] at h
  simp only [mxGetM, mxGetN, mxIsDouble, decide_eq_false_iff_not, Bool.not_eq_false',
    decide_eq_true_eq] at h1 h2 h3 h4
  refine ⟨a, arg_ok.1 ha, h.1.symm, h.2.1.symm, ?_, h4, by omega, by omega, by omega⟩
  rw [← h.2.2]
  simp [mxGetPr, mxIsDouble, h4]

theorem parsePrompt_ok {prhs : List MxArray} {transient_nr size nr : Nat}
    {ptr vals : Option (List Fp)}
    (h : parsePrompt prhs transient_nr = .ok (size, nr, ptr, vals)) :
    ∃ a, prhs[1]? = some a ∧ size = a.m ∧ nr = a.n ∧ ptr = some a.pr ∧
      vals = feed (some a.pr) a.m 0 ∧ a.cls = MxClass.double ∧ 2 ≤ a.m ∧
      (a.n = 1 ∨ a.n = transient_nr) := by
  unfold parsePrompt at h
  obtain ⟨a, ha, h⟩ := bind_ok h
  obtain ⟨_, h1, h⟩ := bind_ok h
  obtain ⟨_, h2, h⟩ := bind_ok h
  obtain ⟨_, h3, h⟩ := bind_ok h
  rw [rejectIf_ok] at h1 h2 h3
  simp only [pure, Except.pure, Except.ok.injEq, Prod.mk.injEq] at h
  simp only [mxGetM, mxGetN, mxIsDouble, decide_eq_false_iff_not, Bool.not_eq_false',
    decide_eq_true_eq, Bool.and_eq_false_iff, decide_not, Bool.not_eq_false'] at h1 h2 h3
  have hpr : mxGetPr a = some a.pr := by simp [mxGetPr, mxIsDouble, h3]
  refine ⟨a, arg_ok.1 ha, h.1.symm, h.2.1.symm, ?_, ?_, h3, by omega, ?_⟩
  · rw [← h.2.2.1, hpr]
  · rw [← h.2.2.2, hpr]; rfl
  · rcases h2 with h2 | h2
    · left; simpa using h2
    · right; simpa using h2

theorem parseXInc_ok {prhs : List MxArray} {transient_nr nr : Nat}
    {ptr : Option (List Fp)} {x : Option Fp}
    (h : parseXInc prhs transient_nr = .ok (nr, ptr, x)) :
    ∃ a, prhs[2]? = some a ∧ nr = a.m * a.n ∧ ptr = mxGetPr a ∧
      x = (readAt (mxGetPr a) 0).map Fp.toFloat ∧
      (a.m * a.n = 1 ∨ a.m * a.n = transient_nr) := by
  unfold parseXInc at h
  obtain ⟨a, ha, h⟩ := bind_ok h
  obtain ⟨_, h1, h⟩ := bind_ok h
  obtain ⟨t, _, h⟩ := bind_ok h
  obtain ⟨_, _, h⟩ := bind_ok h
  rw [rejectIf_ok] at h1
  simp only [pure, Except.pure, Except.ok.injEq, Prod.mk.injEq] at h
  simp only [mxGetNumberOfElements, Bool.and_eq_false_iff, decide_eq_false_iff_not,
    decide_not, Bool.not_eq_false', decide_eq_true_eq] at h1
  refine ⟨a, arg_ok.1 ha, h.1.symm, h.2.1.symm, h.2.2.symm, ?_⟩
  rcases h1 with h1 | h1
  · left; simpa using h1
  · right; simpa using h1

theorem parseFitStart_ok {prhs : List MxArray} {size : Nat} {fit_start : Int}
    (h : parseFitStart prhs size = .ok fit_start) :
    3 < prhs.length ∧ 0 ≤ fit_start ∧ fit_start ≤ (size : Int) - 2 := by
  unfold parseFitStart at h
  obtain ⟨a, ha, h⟩ := bind_ok h
  obtain ⟨_, h1, h⟩ := bind_ok h
  obtain ⟨i, h2, h⟩ := bind_ok h
  obtain ⟨_, h3, h⟩ := bind_ok h
  rw [rejectIf_ok] at h3
  simp only [pure, Except.pure, Except.ok.injEq] at h
  subst h
  simp only [Bool.or_eq_false_iff, decide_eq_false_iff_not] at h3
  have hlen : 3 < prhs.length := by
    have := arg_ok.1 ha
    by_contra hn
    rw [List.getElem?_eq_none (by omega)] at this
    exact absurd this (by simp)
  exact ⟨hlen, by omega, by omega⟩

theorem parseFitType_ok {prhs : List MxArray} {fit_type : Int}
    (h : parseFitType prhs = .ok fit_type) : 1 ≤ fit_type ∧ fit_type ≤ 4 := by
  unfold parseFitType at h
  split_ifs at h
  · obtain ⟨a, ha, h⟩ := bind_ok h
    obtain ⟨_, h1, h⟩ := bind_ok h
    obtain ⟨i, h2, h⟩ := bind_ok h
    obtain ⟨_, h3, h⟩ := bind_ok h
    rw [rejectIf_ok] at h3
    simp only [pure, Except.pure, Except.ok.injEq] at h
    subst h
    simp only [Bool.or_eq_false_iff, decide_eq_false_iff_not] at h3
    omega
  · simp only [pure, Except.pure, Except.ok.injEq] at h
    omega

theorem parseSigma_ok {prhs : List MxArray} {transient_size transient_nr size nr : Nat}
    {vals : Option (List Fp)}
    (h : parseSigma prhs transient_size transient_nr = .ok (size, nr, vals)) :
    (prhs.length ≤ 9 ∧ size = 0 ∧ nr = 0 ∧ vals = some []) ∨
    (9 < prhs.length ∧ ∃ a, prhs[9]? = some a ∧ size = a.m ∧ nr = a.n ∧
      vals = feed (some a.pr) a.m 0 ∧ a.cls = MxClass.double ∧
      (a.n = 0 ∨ a.n = 1 ∨ a.n = transient_nr) ∧ (a.m = 0 ∨ a.m = transient_size)) := by
  unfold parseSigma at h
  split_ifs at h with hlen
  · right
    obtain ⟨a, ha, h⟩ := bind_ok h
    obtain ⟨_, h1, h⟩ := bind_ok h
    obtain ⟨_, h2, h⟩ := bind_ok h
    obtain ⟨_, h3, h⟩ := bind_ok h
    rw [rejectIf_ok] at h1 h2 h3
    simp only [pure, Except.pure, Except.ok.injEq, Prod.mk.injEq] at h
    simp only [mxGetM, mxGetN, mxIsDouble, decide_eq_false_iff_not, Bool.not_eq_false',
      decide_eq_true_eq, Bool.and_eq_false_iff, decide_not] at h1 h2 h3
    have hpr : mxGetPr a = some a.pr := by simp [mxGetPr, mxIsDouble, h3]
    refine ⟨hlen, a, arg_ok.1 ha, h.1.symm, h.2.1.symm, ?_, h3, ?_, ?_⟩
    · rw [← h.2.2, hpr]; rfl
    · rcases h1 with (h1 | h1) | h1
      · left; simpa using h1
      · right; left; simpa using h1
      · right; right; simpa using h1
    · rcases h2 with h2 | h2
      · left; simpa using h2
      · right; simpa using h2
  · left
    simp only [pure, Except.pure, Except.ok.injEq, Prod.mk.injEq] at h
    exact ⟨by omega, h.1.symm, h.2.1.symm, h.2.2.symm⟩

theorem nParam_of_range {fit_type : Int} (h : 1 ≤ fit_type ∧ fit_type ≤ 4) :
    ∃ n, nParam fit_type = some n := by
  have : fit_type = 1 ∨ fit_type = 2 ∨ fit_type = 3 ∨ fit_type = 4 := by omega
  rcases this with h | h | h | h <;> subst h <;> simp [nParam]

theorem inputCountLog_ok {prhs : List MxArray} {c : Checked} (h : parse prhs = .ok c) :
    inputCountLog prhs = [] := by
  have := (parseFitStart_ok (parse_ok h).2.2.2.1).1
  simp [inputCountLog]; omega

theorem nParam_ok {prhs : List MxArray} {c : Checked} (h : parse prhs = .ok c) :
    ∃ n, nParam c.fit_type = some n :=
  nParam_of_range (parseFitType_ok (parse_ok h).2.2.2.2.1)

theorem wellFormed_at {prhs : List MxArray} (hw : ∀ a ∈ prhs, a.WellFormed) {k : Nat}
    {a : MxArray} (ha : prhs[k]? = some a) : a.WellFormed :=
  hw a (List.getElem?_mem ha)

/-! ## What an accepted call does -/

theorem mexFunction_ok (E : Engines) (nlhs : Int) {prhs : List MxArray} {c : Checked}
    {n_param : Nat} (h : parse prhs = .ok c) (hv : c.sigma_values ≠ none)
    (hp : nParam c.fit_type = some n_param) :
    mexFunction E nlhs prhs =
      { status := (fitLoop E c nlhs n_param (startFrame c nlhs n_param [])).status,
        log := (fitLoop E c nlhs n_param (startFrame c nlhs n_param [])).log,
        LMA_param := (fitLoop E c nlhs n_param (startFrame c nlhs n_param [])).LMA_param,
        RLD_param := (fitLoop E c nlhs n_param (startFrame c nlhs n_param [])).RLD_param,
        LMA_fit := (fitLoop E c nlhs n_param (startFrame c nlhs n_param [])).LMA_fit,
        RLD_fit := (fitLoop E c nlhs n_param (startFrame c nlhs n_param [])).RLD_fit } := by
  simp [mexFunction, h, hv, hp, inputCountLog_ok h]

theorem mexFunction_inv (E : Engines) (nlhs : Int) {prhs : List MxArray} {c : Checked}
    {n_param : Nat} (h : parse prhs = .ok c) (hs : SigmaDefined c)
    (hp : nParam c.fit_type = some n_param) :
    (mexFunction E nlhs prhs).status = .returned ∧
    (mexFunction E nlhs prhs).log = (startFrame c nlhs n_param []).log ++
      (List.range c.transient_nr).flatMap (iterLog E c n_param) ∧
    (mexFunction E nlhs prhs).LMA_param.Holds (n_param + 1) c.transient_nr
      ((List.range c.transient_nr).flatMap (lmaColumn E c n_param)) ∧
    Out.HoldsIf (nlhs > 1) (mexFunction E nlhs prhs).RLD_param 3 c.transient_nr
      ((List.range c.transient_nr).flatMap (rldColumn E c)) ∧
    Out.HoldsIf (nlhs > 2) (mexFunction E nlhs prhs).LMA_fit c.transient_size c.transient_nr
      ((List.range c.transient_nr).flatMap (lmaFitColumn E c n_param)) ∧
    Out.HoldsIf (nlhs > 3) (mexFunction E nlhs prhs).RLD_fit c.transient_size c.transient_nr
      ((List.range c.transient_nr).flatMap (rldFitColumn E c)) := by
  have hi := fitLoop_inv E c nlhs [] hp hs.2
  rw [mexFunction_ok E nlhs h hs.1 hp]
  exact ⟨hi.status, hi.log, hi.lmaParam, hi.rldParam, hi.lmaFit, hi.rldFit⟩

theorem rldCalls_flatMap (E : Engines) (c : Checked) (n_param k : Nat) :
    rldCalls ((List.range k).flatMap (iterLog E c n_param)) =
      (List.range k).map (rldArgsAt c) := by
  induction k with
  | zero => rfl
  | succ k ih =>
      simp only [rldCalls] at ih
      simp [rldCalls, List.range_succ, List.flatMap_append, List.filterMap_append, ih, iterLog]

theorem lmaCalls_flatMap (E : Engines) (c : Checked) (n_param k : Nat) :
    lmaCalls ((List.range k).flatMap (iterLog E c n_param)) =
      (List.range k).map (lmaArgsAt E c n_param) := by
  induction k with
  | zero => rfl
  | succ k ih =>
      simp only [lmaCalls] at ih
      simp [lmaCalls, List.range_succ, List.flatMap_append, List.filterMap_append, ih, iterLog]

theorem printed_flatMap (E : Engines) (c : Checked) (n_param k : Nat) :
    printed ((List.range k).flatMap (iterLog E c n_param)) = [] := by
  induction k with
  | zero => rfl
  | succ k ih =>
      simp only [printed] at ih
      simp [printed, List.range_succ, List.flatMap_append, List.filterMap_append, ih, iterLog]

theorem startFrame_log_calls (c : Checked) (nlhs : Int) (n_param : Nat) :
    rldCalls (startFrame c nlhs n_param []).log = [] ∧
    lmaCalls (startFrame c nlhs n_param []).log = [] := by
  constructor <;>
  · simp only [startFrame, rldCalls, lmaCalls]
    split_ifs <;> simp

theorem mexFunction_rldCalls (E : Engines) (nlhs : Int) {prhs : List MxArray} {c : Checked}
    (h : parse prhs = .ok c) (hs : SigmaDefined c) :
    rldCalls (mexFunction E nlhs prhs).log = (List.range c.transient_nr).map (rldArgsAt c) := by
  obtain ⟨n, hp⟩ := nParam_ok h
  rw [(mexFunction_inv E nlhs h hs hp).2.1]
  have := (startFrame_log_calls c nlhs n).1
  unfold rldCalls at this ⊢
  rw [List.filterMap_append, this]
  exact rldCalls_flatMap E c n c.transient_nr

theorem mexFunction_lmaCalls (E : Engines) (nlhs : Int) {prhs : List MxArray} {c : Checked}
    {n_param : Nat} (h : parse prhs = .ok c) (hs : SigmaDefined c)
    (hp : nParam c.fit_type = some n_param) :
    lmaCalls (mexFunction E nlhs prhs).log =
      (List.range c.transient_nr).map (lmaArgsAt E c n_param) := by
  rw [(mexFunction_inv E nlhs h hs hp).2.1]
  have := (startFrame_log_calls c nlhs n_param).2
  unfold lmaCalls at this ⊢
  rw [List.filterMap_append, this]
  exact lmaCalls_flatMap E c n_param c.transient_nr

theorem mexFunction_printed (E : Engines) (nlhs : Int) {prhs : List MxArray} {c : Checked}
    (h : parse prhs = .ok c) (hs : SigmaDefined c) :
    printed (mexFunction E nlhs prhs).log = [] := by
  obtain ⟨n, hp⟩ := nParam_ok h
  rw [(mexFunction_inv E nlhs h hs hp).2.1]
  have h1 : printed (startFrame c nlhs n []).log = [] := by
    simp only [startFrame, printed]
    split_ifs <;> simp
  have h2 := printed_flatMap E c n c.transient_nr
  unfold printed at h1 h2 ⊢
  rw [List.filterMap_append, h1, h2]
  rfl

theorem getElem?_map_range {α : Type} (g : Nat → α) {n i : Nat} (hi : i < n) :
    ((List.range n).map g)[i]? = some (g i) := by
  simp [List.getElem?_map, List.getElem?_range hi]

/-- The calls of the two engines for transient `i` of an accepted call. -/
theorem calls_at (E : Engines) (nlhs : Int) {prhs : List MxArray} {c : Checked}
    {n_param : Nat} (h : parse prhs = .ok c) (hs : SigmaDefined c)
    (hp : nParam c.fit_type = some n_param)
    {i : Nat} (hi : i < c.transient_nr) :
    (rldCalls (mexFunction E nlhs prhs).log)[i]? = some (rldArgsAt c i) ∧
    (lmaCalls (mexFunction E nlhs prhs).log)[i]? = some (lmaArgsAt E c n_param i) := by
  rw [mexFunction_rldCalls E nlhs h hs, mexFunction_lmaCalls E nlhs h hs hp]
  exact ⟨getElem?_map_range _ hi, getElem?_map_range _ hi⟩

/-- Nothing happens any more in a call that has ended. -/
theorem fitStep_halted (E : Engines) (c : Checked) (nlhs : Int) (n_param : Nat) {f : Frame}
    (h : f.status = .undefined) (k : Nat) : fitStep E c nlhs n_param f k = f := by
  unfold fitStep
  rw [if_pos (Or.inl h)]
  cases f
  simp_all

/-- The reload of the sigma through `sigma_ptr` ends the call. -/
theorem fitStep_undefined (E : Engines) (c : Checked) (nlhs : Int) (n_param : Nat)
    (f : Frame) {k : Nat}
    (hU : k > 0 ∧ c.sigma_nr > 1 ∧ feed sigma_ptr c.sigma_size k = none) :
    fitStep E c nlhs n_param f k = { f with status := .undefined } := by
  unfold fitStep
  rw [if_pos (Or.inr hU)]

theorem foldl_fitStep_halted (E : Engines) (c : Checked) (nlhs : Int) (n_param : Nat)
    {f : Frame} (h : f.status = .undefined) (l : List Nat) :
    l.foldl (fitStep E c nlhs n_param) f = f := by
  induction l with
  | nil => rfl
  | cons k l ih => rw [List.foldl_cons, fitStep_halted E c nlhs n_param h k, ih]

/-- An accepted call whose load of the sigma (lines 351 to 354) reads outside
the array: the behaviour is undefined before anything is created or fitted. -/
theorem sigma_load_undefined (E : Engines) (nlhs : Int) {prhs : List MxArray} {c : Checked}
    (h : parse prhs = .ok c) (hv : c.sigma_values = none) :
    mexFunction E nlhs prhs = Run.stopped .undefined [] := by
  simp [mexFunction, h, hv, inputCountLog_ok h]

/-- An accepted call whose sigma has more than one column and at least one
row: there are then at least two transients, the first is fitted, and the
reload of the sigma for the second (lines 478 to 482) reads through
`sigma_ptr`, which was never set.  The behaviour is undefined from there:
each engine has been called once, for the first transient, and is not called
for any other. -/
theorem sigma_batch_undefined (E : Engines) (nlhs : Int) {prhs : List MxArray} {c : Checked}
    {n_param : Nat} (h : parse prhs = .ok c) (hv : c.sigma_values ≠ none)
    (hp : nParam c.fit_type = some n_param) (hn : c.sigma_nr > 1) (hm : c.sigma_size > 0) :
    c.transient_nr > 1 ∧
    (mexFunction E nlhs prhs).status = .undefined ∧
    (mexFunction E nlhs prhs).log =
      (startFrame c nlhs n_param []).log ++ iterLog E c n_param 0 ∧
    rldCalls (mexFunction E nlhs prhs).log = [rldArgsAt c 0] ∧
    lmaCalls (mexFunction E nlhs prhs).log = [lmaArgsAt E c n_param 0] := by
  have hN : c.transient_nr > 1 := by
    rcases parseSigma_ok (parse_ok h).2.2.2.2.2.2.2.2.2 with
      ⟨_, _, hnr, _⟩ | ⟨_, a, _, _, hnr, _, _, hcol, _⟩
    · omega
    · omega
  obtain ⟨m, hm2⟩ : ∃ m, c.transient_nr = m + 2 := ⟨c.transient_nr - 2, by omega⟩
  obtain ⟨sz, hsz⟩ : ∃ sz, c.sigma_size = sz + 1 := ⟨c.sigma_size - 1, by omega⟩
  have h1 := @fitStep_inv E c nlhs n_param _ 0 _ hp
    (by omega : ¬ (0 > 0 ∧ c.sigma_nr > 1 ∧ feed sigma_ptr c.sigma_size 0 = none))
    (startFrame_inv E c nlhs n_param []) (by omega)
  have hfeed : feed sigma_ptr c.sigma_size 1 = none := by rw [hsz]; rfl
  have h2 : fitStep E c nlhs n_param (fitStep E c nlhs n_param (startFrame c nlhs n_param []) 0) 1
      = { fitStep E c nlhs n_param (startFrame c nlhs n_param []) 0 with
          status := .undefined } :=
    fitStep_undefined E c nlhs n_param _ ⟨by omega, hn, hfeed⟩
  have hrange : List.range (m + 2) = 0 :: 1 :: (List.range m).map (fun i => i + 2) := by
    rw [List.range_succ_eq_map, List.range_succ_eq_map]
    simp [Function.comp_def]
  have hrun : fitLoop E c nlhs n_param (startFrame c nlhs n_param []) =
      { fitStep E c nlhs n_param (startFrame c nlhs n_param []) 0 with
        status := .undefined } := by
    unfold fitLoop
    rw [hm2, hrange, List.foldl_cons, List.foldl_cons, h2]
    exact foldl_fitStep_halted E c nlhs n_param rfl _
  have hlog : (mexFunction E nlhs prhs).log =
      (startFrame c nlhs n_param []).log ++ iterLog E c n_param 0 := by
    have : (mexFunction E nlhs prhs).log =
        (fitLoop E c nlhs n_param (startFrame c nlhs n_param [])).log := by
      simp [mexFunction, h, hv, hp, inputCountLog_ok h]
    rw [this, hrun]
    show (fitStep E c nlhs n_param (startFrame c nlhs n_param []) 0).log = _
    rw [h1.log]
    have hr1 : List.range (0 + 1) = [0] := rfl
    rw [hr1]
    simp
  have hst : (mexFunction E nlhs prhs).status = .undefined := by
    have : (mexFunction E nlhs prhs).status =
        (fitLoop E c nlhs n_param (startFrame c nlhs n_param [])).status := by
      simp [mexFunction, h, hv, hp, inputCountLog_ok h]
    rw [this, hrun]
  have hr1 : List.range 1 = [0] := rfl
  refine ⟨hN, hst, hlog, ?_, ?_⟩
  · rw [hlog]
    have h0 := (startFrame_log_calls c nlhs n_param).1
    have hk := rldCalls_flatMap E c n_param 1
    rw [hr1] at hk
    simp only [List.flatMap_cons, List.flatMap_nil, List.append_nil, List.map_cons,
      List.map_nil] at hk
    unfold rldCalls at h0 hk ⊢
    rw [List.filterMap_append, h0, hk]
    rfl
  · rw [hlog]
    have h0 := (startFrame_log_calls c nlhs n_param).2
    have hk := lmaCalls_flatMap E c n_param 1
    rw [hr1] at hk
    simp only [List.flatMap_cons, List.flatMap_nil, List.append_nil, List.map_cons,
      List.map_nil] at hk
    unfold lmaCalls at h0 hk ⊢
    rw [List.filterMap_append, h0, hk]
    rfl

theorem lmaColumn_length (E : Engines) (c : Checked) (n_param i : Nat) :
    (lmaColumn E c n_param i).length = n_param + 1 := by
  simp [lmaColumn]

theorem divF64_zero_not_fin (x : Fp) (q : ℚ) : Fp.divF64 x (Fp.ofIntF64 0) ≠ .fin q := by
  have h0 : Fp.ofIntF64 0 = .fin 0 := by simp [Fp.ofIntF64, roundF64, roundBin]
  rw [h0]
  cases x with
  | fin y => by_cases hy : y = 0 <;> simp [Fp.divF64, hy]
  | inf s => simp [Fp.divF64]
  | nan => simp [Fp.divF64]

/-! ## The buffers of each fit -/

theorem feedFrom_some (d : List Fp) :
    ∀ (k base : Nat), base + k ≤ d.length →
      feedFrom (some d) base k =
        some ((List.range k).map (fun r => (d.getD (base + r) (.fin 0)).toFloat)) := by
  intro k
  induction k with
  | zero => intro base _; rfl
  | succ k ih =>
      intro base hle
      have hb : base < d.length := by omega
      have h1 : readAt (some d) base = some d[base] := by
        simp [readAt, List.getElem?_eq_getElem hb]
      have h2 := ih (base + 1) (by omega)
      simp only [feedFrom, h1, h2]
      rw [List.range_succ_eq_map]
      simp [List.getD_eq_getElem?_getD, List.getElem?_eq_getElem hb, Nat.add_assoc,
        Nat.add_comm 1]

theorem feed_column {a : MxArray} (hw : a.WellFormed) {i : Nat} (hi : i < a.n) :
    feed (some a.pr) a.m i = some ((a.column i).map Fp.toFloat) := by
  have hle : a.m * i + a.m ≤ a.pr.length := by
    rw [hw]
    calc a.m * i + a.m = a.m * (i + 1) := by ring
      _ ≤ a.m * a.n := Nat.mul_le_mul_left _ hi
  rw [feed, feedFrom_some a.pr a.m (a.m * i) hle]
  simp [MxArray.column, Nat.add_comm]

theorem feed_whole (l : List Fp) : feed (some l) l.length 0 = some (l.map Fp.toFloat) := by
  rw [feed, feedFrom_some l l.length (l.length * 0) (by simp)]
  congr 1
  apply List.ext_getElem
  · simp
  · intro k h1 h2
    simp only [List.length_map, List.length_range] at h1
    simp [List.getD_eq_getElem?_getD, List.getElem?_eq_getElem h1]

theorem column_length (a : MxArray) (i : Nat) : (a.column i).length = a.m := by
  simp [MxArray.column]

/-- The buffers of transient `i` in a valid call, in terms of the inputs. -/
theorem inputs_at {prhs : List MxArray} {c : Checked} (h : Valid prhs c) {i : Nat}
    (hi : i < c.transient_nr) :
    ∃ a0 a1 a2, prhs[0]? = some a0 ∧ prhs[1]? = some a1 ∧ prhs[2]? = some a2 ∧
      feed c.transient_ptr c.transient_size i = some ((a0.column i).map Fp.toFloat) ∧
      promptAt c i = some ((a1.column (if a1.n = 1 then 0 else i)).map Fp.toFloat) ∧
      xIncAt c i =
        some (a2.pr.getD (if a2.m * a2.n = 1 then 0 else i) (.fin 0)).toFloat := by
  obtain ⟨a0, h0, hs0, hn0, hp0, _, _, _, hN⟩ := parseTransient_ok (parse_ok h.1).1
  obtain ⟨a1, h1, hs1, hn1, hp1, hv1, _, _, hb1⟩ := parsePrompt_ok (parse_ok h.1).2.1
  obtain ⟨a2, h2, hn2, hp2, hx2, hb2⟩ := parseXInc_ok (parse_ok h.1).2.2.1
  have w0 := wellFormed_at h.2.1 h0
  have w1 := wellFormed_at h.2.1 h1
  have w2 := wellFormed_at h.2.1 h2
  have hd2 : mxGetPr a2 = some a2.pr := by
    have : a2.cls = MxClass.double := by simpa [h2] using h.2.2.1
    simp [mxGetPr, mxIsDouble, this]
  rw [hn0] at hb1 hb2 hi
  have hread : ∀ j, j < a2.m * a2.n →
      readAt (some a2.pr) j = some (a2.pr.getD j (.fin 0)) := by
    intro j hj
    have : j < a2.pr.length := by rw [w2]; exact hj
    simp [readAt, List.getD_eq_getElem?_getD, List.getElem?_eq_getElem this]
  refine ⟨a0, a1, a2, h0, h1, h2, ?_, ?_, ?_⟩
  · rw [hp0, hs0]
    exact feed_column w0 hi
  · unfold promptAt
    rw [hp1, hs1, hn1, hv1]
    by_cases hone : a1.n = 1
    · have : ¬ (i > 0 ∧ a1.n > 1) := by omega
      rw [if_neg this, if_pos hone]
      exact feed_column w1 (by omega)
    · have hn : a1.n = a0.n := by omega
      rw [if_neg hone]
      by_cases hi0 : i > 0
      · rw [if_pos ⟨hi0, by omega⟩]
        exact feed_column w1 (by omega)
      · have : i = 0 := by omega
        subst this
        rw [if_neg (by omega)]
        exact feed_column w1 (by omega)
  · unfold xIncAt
    rw [hp2, hn2, hx2, hd2]
    by_cases hone : a2.m * a2.n = 1
    · have : ¬ (i > 0 ∧ a2.m * a2.n > 1) := by omega
      rw [if_neg this, if_pos hone, hread 0 (by omega)]
      rfl
    · have hn : a2.m * a2.n = a0.n := by omega
      rw [if_neg hone]
      by_cases hi0 : i > 0
      · rw [if_pos ⟨hi0, by omega⟩, hread i (by omega)]
        rfl
      · have : i = 0 := by omega
        subst this
        rw [if_neg (by omega), hread 0 (by omega)]
        rfl

theorem feedFrom_none (d : List Fp) :
    ∀ (k base : Nat), 0 < k → d.length < base + k → feedFrom (some d) base k = none := by
  intro k
  induction k with
  | zero => intro base h; omega
  | succ k ih =>
      intro base _ hlen
      by_cases hb : base < d.length
      · have h1 : readAt (some d) base = some d[base] := by
          simp [readAt, List.getElem?_eq_getElem hb]
        have h2 := ih (base + 1) (by omega) (by omega)
        simp only [feedFrom, h1, h2]
      · have h1 : readAt (some d) base = none := by
          simp [readAt, List.getElem?_eq_none (by omega : d.length ≤ base)]
        simp only [feedFrom, h1]

/-- For the arrays of the host, the reads of the sigma of an accepted call
stay inside an array if and only if the sigma is absent or has no row, or
has one column. -/
theorem sigmaDefined_iff {prhs : List MxArray} {c : Checked} (h : parse prhs = .ok c)
    (hw : ∀ a ∈ prhs, a.WellFormed) :
    SigmaDefined c ↔ c.sigma_size = 0 ∨ c.sigma_nr = 1 := by
  rcases parseSigma_ok (parse_ok h).2.2.2.2.2.2.2.2.2 with
    ⟨_, hz, hnr, hv⟩ | ⟨_, a, ha, hz, hnr, hv, _, hn, _⟩
  · constructor
    · intro _; exact Or.inl hz
    · intro _
      refine ⟨by rw [hv]; simp, fun _ => hz⟩
  · have w := wellFormed_at hw ha
    constructor
    · rintro ⟨h1, h2⟩
      by_contra hc
      have hm : 0 < a.m := by omega
      have hn1 : a.n ≠ 1 := by omega
      by_cases h0 : a.n = 0
      · apply h1
        rw [hv, feed]
        apply feedFrom_none _ _ _ hm
        rw [w, h0]; omega
      · have := h2 (by omega)
        omega
    · rintro (h1 | h1)
      · refine ⟨?_, fun _ => h1⟩
        rw [hv, ← hz, h1]
        simp [feed, feedFrom]
      · refine ⟨?_, fun h2 => by omega⟩
        rw [hv, feed_column w (by omega : 0 < a.n)]
        simp

/-- The sigma curve both engines are called with in a valid call, for a
sigma input `a`: its column when it has one column, for every transient, and
a curve of no element when it has no row. -/
theorem sigma_passed (E : Engines) (nlhs : Int) (prhs : List MxArray) (c : Checked)
    (h : Valid prhs c) (a : MxArray) (ha : prhs[9]? = some a)
    (i : Nat) (hi : i < c.transient_nr) :
    ∃ ra la, (rldCalls (mexFunction E nlhs prhs).log)[i]? = some ra ∧
      (lmaCalls (mexFunction E nlhs prhs).log)[i]? = some la ∧ la.sig = ra.sig ∧
      (a.m = 0 ∨ a.n = 1) ∧
      (a.n = 1 → ra.sig = some ((a.column 0).map Fp.toFloat)) ∧
      (a.m = 0 → ra.sig = some []) := by
  obtain ⟨p, hp⟩ := nParam_ok h.1
  obtain ⟨hr, hl⟩ := calls_at E nlhs h.1 h.2.2.2 hp hi
  have hlen : 9 < prhs.length := by
    by_contra hn
    rw [List.getElem?_eq_none (by omega)] at ha
    exact absurd ha (by simp)
  have hdef := (sigmaDefined_iff h.1 h.2.1).1 h.2.2.2
  rcases parseSigma_ok (parse_ok h.1).2.2.2.2.2.2.2.2.2 with hs | ⟨_, b, hb, hsz, hnr, hv, _, _, _⟩
  · omega
  · have hab : b = a := by rw [hb] at ha; exact Option.some.inj ha
    subst hab
    have w := wellFormed_at h.2.1 hb
    refine ⟨_, _, hr, hl, rfl, by omega, ?_, ?_⟩
    · intro h1
      show sigmaAt c i = _
      unfold sigmaAt
      rw [if_neg (by omega), hv]
      exact feed_column w (by omega)
    · intro h1
      show sigmaAt c i = _
      unfold sigmaAt
      rw [hsz, h1, hv, h1]
      split_ifs <;> simp [feed, feedFrom]

/-! ## A batch with a shared prompt against one call for each transient -/

/-- The local variables after the validation of the call for transient `i`
alone, from those of the batch. -/
theorem single_call_valid {prhs : List MxArray} {c : Checked} (h : Valid prhs c)
    (hshared : c.prompt_nr = 1) (hsig : c.sigma_nr ≤ 1) (i : Nat) :
    ∃ a0 a2, prhs[0]? = some a0 ∧ prhs[2]? = some a2 ∧
      c.transient_size = a0.m ∧ Valid (singleCall prhs i) (c.single a0 a2 i) := by
  obtain ⟨s1, s2, s3, s4, s5, s6, s7, s8, s9, s10⟩ := parse_ok h.1
  obtain ⟨a0, h0, hs0, hn0, hp0, hc0, hlo, hhi, hN⟩ := parseTransient_ok s1
  obtain ⟨a1, h1, hs1, hn1, hp1, hv1, hc1, hm1, hb1⟩ := parsePrompt_ok s2
  obtain ⟨a2, h2, hn2, hp2, hx2, hb2⟩ := parseXInc_ok s3
  have hd2 : a2.cls = MxClass.double := by simpa [h2] using h.2.2.1
  have hlen := (parseFitStart_ok s4).1
  obtain ⟨b0, b1, b2, rest, hprhs⟩ : ∃ b0 b1 b2 rest, prhs = b0 :: b1 :: b2 :: rest := by
    match prhs, hlen with
    | b0 :: b1 :: b2 :: rest, _ => exact ⟨b0, b1, b2, rest, rfl⟩
  subst hprhs
  have e0 : b0 = a0 := by simpa using h0
  have e1 : b1 = a1 := by simpa using h1
  have e2 : b2 = a2 := by simpa using h2
  subst e0 e1 e2
  refine ⟨b0, b2, h0, h2, hs0, ?_, ?_, ?_, h.2.2.2⟩
  · apply parse_of_stages <;> simp only [Checked.single]
    · have hA : ¬ b0.m < 2 := by omega
      have hB : ¬ 2048 < b0.m := by omega
      simp [singleCall, parseTransient, arg, rejectIf, mxGetM, mxGetN, mxIsDouble, mxGetPr,
        mxGetClassName, hc0, hs0, hA, hB, bind, Except.bind, pure, Except.pure]
    · have hn : b1.n = 1 := by rw [← hn1]; exact hshared
      have hA : ¬ b1.m < 2 := by omega
      simp [singleCall, parsePrompt, arg, rejectIf, mxGetM, mxGetN, mxIsDouble, mxGetPr,
        mxGetClassName, hc1, hs1, hn1, hp1, hv1, hn, hA, bind, Except.bind, pure, Except.pure]
    · simp [singleCall, parseXInc, arg, rejectIf, mxGetNumberOfElements, mxIsDouble, mxGetPr,
        mxGetClassName, hc0, hd2, readAt, bind, Except.bind, pure, Except.pure]
    · rw [← s4]
      simp [singleCall, parseFitStart, arg]
    · rw [← s5]
      simp [singleCall, parseFitType, arg]
    · rw [← s6]
      simp [singleCall, parseNoiseModel, arg]
    · rw [← s7]
      simp [singleCall, parseChiSqTarget, arg]
    · rw [← s8]
      simp [singleCall, parseChiSqDelta, arg]
    · rw [← s9]
      simp [singleCall, parseFitEnd, arg]
    · rcases parseSigma_ok s10 with ⟨hl, hz, hnr, hv⟩ | ⟨hl, a9, h9, hz, hnr, hv, hc9, hb9, hm9⟩
      · simp only [List.length_cons] at hl
        simp [singleCall, parseSigma, hz, hnr, hv, pure, Except.pure]
        omega
      · have hn9 : a9.n = 0 ∨ a9.n = 1 := by omega
        simp only [List.length_cons] at hl
        have hl2 : 9 < rest.length + 1 + 1 + 1 := hl
        have h9b : rest[6]? = some a9 := by simpa using h9
        simp only [singleCall, parseSigma, List.length_cons, if_pos hl2, arg,
          List.getElem?_cons_succ, h9b, bind, Except.bind, pure, Except.pure, rejectIf,
          mxGetN, mxGetM, mxIsDouble, mxGetPr, hc9, hz, hnr, hv]
        rcases hn9 with h | h <;> rcases hm9 with h3 | h3 <;> simp [h, h3, hs0]
  · intro a ha
    simp only [singleCall, List.mem_cons] at ha
    rcases ha with rfl | rfl | rfl | ha
    · simp [MxArray.WellFormed, MxArray.column]
    · exact h.2.1 _ (by simp)
    · simp [MxArray.WellFormed]
    · exact h.2.1 _ (by simp [ha])
  · simp [singleCall, hd2]

/-- In a valid batch with one shared prompt and a sigma input that is absent
or has at most one column, the rapid engine is called for transient `i` with
the arguments it is called with in the call for that transient alone, and so
the estimate `(z, a, tau)` stored for the transient is the same in both. -/
theorem single_call_rapid_estimate (E : Engines) (nlhs : Int) {prhs : List MxArray}
    {c : Checked} (h : Valid prhs c) (hshared : c.prompt_nr = 1) (hsig : c.sigma_nr ≤ 1)
    {i : Nat} (hi : i < c.transient_nr) :
    ∃ c1 ra, Valid (singleCall prhs i) c1 ∧ c1.transient_nr = 1 ∧
      (rldCalls (mexFunction E nlhs prhs).log)[i]? = some ra ∧
      rldCalls (mexFunction E nlhs (singleCall prhs i)).log = [ra] ∧
      (nlhs > 1 → ∃ t t1, (mexFunction E nlhs prhs).RLD_param.tab = some t ∧
        (mexFunction E nlhs (singleCall prhs i)).RLD_param.tab = some t1 ∧
        t1.rows = 3 ∧ t1.cols = 1 ∧ t1.data.length = 3 ∧
        ∀ j, j < 3 → t1.data[j]? = t.data[3 * i + j]?) := by
  obtain ⟨a0, a2, h0, h2, hs0, hv⟩ := single_call_valid h hshared hsig i
  obtain ⟨b0, b1, b2, g0, g1, g2, hy, hin, hx⟩ := inputs_at h hi
  have e0 : b0 = a0 := by rw [g0] at h0; exact Option.some.inj h0
  have e2 : b2 = a2 := by rw [g2] at h2; exact Option.some.inj h2
  subst e0 e2
  have hy1 : feed (some (b0.column i)) c.transient_size 0 =
      feed c.transient_ptr c.transient_size i := by
    rw [hy, hs0, ← column_length b0 i]
    exact feed_whole _
  have hx1 : xIncAt (c.single b0 b2 i) 0 = xIncAt c i := by
    rw [hx]; simp [xIncAt, Checked.single]
  have hp1 : promptAt (c.single b0 b2 i) 0 = promptAt c i := by
    simp [promptAt, Checked.single, hshared]
  have hs1 : sigmaAt (c.single b0 b2 i) 0 = sigmaAt c i := by
    have : ¬ (i > 0 ∧ c.sigma_nr > 1) := by omega
    simp [sigmaAt, Checked.single, this]
  have hargs : rldArgsAt (c.single b0 b2 i) 0 = rldArgsAt c i := by
    unfold rldArgsAt
    rw [hx1, hp1, hs1]
    simp only [Checked.single, hy1]
  obtain ⟨p, hp⟩ := nParam_ok h.1
  refine ⟨_, _, hv, rfl, (calls_at E nlhs h.1 h.2.2.2 hp hi).1, ?_, ?_⟩
  · rw [mexFunction_rldCalls E nlhs hv.1 hv.2.2.2, ← hargs]
    rfl
  · intro hn
    obtain ⟨_, _, _, k1, _⟩ := mexFunction_inv E nlhs h.1 h.2.2.2 hp
    obtain ⟨_, _, _, k2, _⟩ := @mexFunction_inv E nlhs _ _ p hv.1 hv.2.2.2 hp
    have f1 := Out.holds_full (k1.1 hn) (fun i => by simp [rldColumn])
    have f2 := Out.holds_full (k2.1 hn) (fun i => by simp [rldColumn])
    have hr1 : List.range 1 = [0] := rfl
    refine ⟨_, _, f1.1, f2.1, rfl, rfl,
      length_flatMap_range _ 3 (fun i => by simp [rldColumn]) 1, ?_⟩
    intro j hj
    show ((List.range 1).flatMap (rldColumn E (c.single b0 b2 i)))[j]? =
      ((List.range c.transient_nr).flatMap (rldColumn E c))[3 * i + j]?
    rw [getElem?_flatMap_range _ 3 (fun i => by simp [rldColumn]) hi hj, hr1]
    simp only [List.flatMap_cons, List.flatMap_nil, List.append_nil, rldColumn, rldAt, hargs]

/-! ## The example calls are valid -/

theorem valid_callTiny : Valid callTiny checkedTiny :=
  ⟨by decide!, by decide, by decide, by decide!⟩

/-- C4, as the code behaves: `callTiny` (two points, `fit_end - fit_start - p
= -2`) and `callFour` (four points, `fit_end - fit_start - p = 0`) pass the
validation, nothing is printed, the call returns with `plhs[0]` created, and
the entry for the reduced chi-square is the chi-square 9 divided by `-2`,
respectively by `0`. -/
theorem C4_counterexample :
    (parse callTiny).toBool = true ∧
    (mexFunction exampleEngines 1 callTiny).status = .returned ∧
    printed (mexFunction exampleEngines 1 callTiny).log = [] ∧
    (mexFunction exampleEngines 1 callTiny).LMA_param.tab.map Table.data =
      some [.fin 10, .fin 11, .fin 12, .fin (-9 / 2)] ∧
    (parse callFour).toBool = true ∧
    (mexFunction exampleEngines 1 callFour).status = .returned ∧
    printed (mexFunction exampleEngines 1 callFour).log = [] ∧
    (mexFunction exampleEngines 1 callFour).LMA_param.tab.map Table.data =
      some [.fin 10, .fin 11, .fin 12, .inf false] := by
  refine ⟨by decide!, by decide!, by decide!, by decide!, by decide!, by decide!,
    by decide!, by decide!⟩

/-- C4, amended: a valid call (`Valid`: the sigma is absent, has no row or
has one column) in which `fit_end - fit_start - p` is zero or negative is
fitted like any other.  Nothing is printed, the call returns, and
for every transient the last entry of its column of `plhs[0]` is the
chi-square of the iterative engine divided, as a `double`, by that number;
when the number is zero the entry is an infinity or NaN.  (The code draws no
line at zero: the same holds of a positive number.) -/
theorem C4_no_guard (E : Engines) (nlhs : Int) (prhs : List MxArray) (c : Checked) (p : Nat)
    (h : Valid prhs c) (hp : nParam c.fit_type = some p)
    (_hd : c.fit_end - c.fit_start - (p : Int) ≤ 0) (i : Nat) (hi : i < c.transient_nr) :
    (mexFunction E nlhs prhs).status = .returned ∧
    printed (mexFunction E nlhs prhs).log = [] ∧
    ∃ la t, (lmaCalls (mexFunction E nlhs prhs).log)[i]? = some la ∧
      (mexFunction E nlhs prhs).LMA_param.tab = some t ∧
      t.data[(p + 1) * i + p]? = some (Fp.divF64 (E.lma la).chisq.toDouble
        (Fp.ofIntF64 (c.fit_end - c.fit_start - (p : Int)))) ∧
      (c.fit_end - c.fit_start - (p : Int) = 0 →
        ∀ q, t.data[(p + 1) * i + p]? ≠ some (.fin q)) := by
  have hl := (calls_at E nlhs h.1 h.2.2.2 hp hi).2
  obtain ⟨hs, _, h0, _⟩ := mexFunction_inv E nlhs h.1 h.2.2.2 hp
  have hfull := Out.holds_full h0 (lmaColumn_length E c p)
  have hentry : ((List.range c.transient_nr).flatMap (lmaColumn E c p))[(p + 1) * i + p]? =
      some (Fp.divF64 (E.lma (lmaArgsAt E c p i)).chisq.toDouble
        (Fp.ofIntF64 (c.fit_end - c.fit_start - (p : Int)))) := by
    rw [getElem?_flatMap_range _ _ (lmaColumn_length E c p) hi (by omega)]
    simp [lmaColumn, lmaAt, markFree_snd]
  refine ⟨hs, mexFunction_printed E nlhs h.1 h.2.2.2, _, _, hl, hfull.1, hentry, ?_⟩
  intro hz q hq
  have : ((List.range c.transient_nr).flatMap (lmaColumn E c p))[(p + 1) * i + p]? =
      some (.fin q) := hq
  rw [hentry, hz] at this
  exact divF64_zero_not_fin _ q (Option.some.inj this)

/-- C4 amended, at `callTiny`: the denominator is `1 - 0 - 3 = -2`, the call
returns without a message and the stored value is `9 / -2`. -/
theorem C4_no_guard_witness :
    Valid callTiny checkedTiny ∧ nParam checkedTiny.fit_type = some 3 ∧
    checkedTiny.fit_end - checkedTiny.fit_start - ((3 : Nat) : Int) ≤ 0 ∧
    0 < checkedTiny.transient_nr ∧
    (mexFunction exampleEngines 1 callTiny).status = .returned ∧
    printed (mexFunction exampleEngines 1 callTiny).log = [] ∧
    ∃ t, (mexFunction exampleEngines 1 callTiny).LMA_param.tab = some t ∧
      t.data[3]? = some (.fin (-9 / 2)) := by
  obtain ⟨hs, hpr, la, t, _, ht, he, _⟩ :=
    C4_no_guard exampleEngines 1 callTiny checkedTiny 3 valid_callTiny (by decide)
      (by decide) 0 (by decide)
  refine ⟨valid_callTiny, by decide, by decide, by decide, hs, hpr, t, ht, ?_⟩
  have he2 : t.data[3]? = _ := he
  rw [he2]
  simp only [exampleEngines]
  decide!

/-! ## C5: a batch against one call for each transient -/

/-- C5, as the code behaves.  `callSigma` is a batch of two transients with
one shared prompt and a sigma curve for each transient; `callSigmaSecond` is
the call for its second transient alone.  Both pass the validation.  The
single call returns: the rapid engine is called with the sigma `2, 2, 2, 2`
and, with engines whose estimate `z` is the first element of the sigma they
are given, the estimate stored is `2, 1000, 2`.  The batch does not return:
after the first transient the sigma of the second is read through the
pointer that was never set, the behaviour is undefined, the rapid engine is
not called for the second transient, and the only entries of `plhs[1]`
stored to are those of the first. -/
theorem C5_batch_differs_from_single_call :
    (parse callSigma).toBool = true ∧ (parse callSigmaSecond).toBool = true ∧
    (mexFunction sigmaEngines 2 callSigmaSecond).status = .returned ∧
    (rldCalls (mexFunction sigmaEngines 2 callSigmaSecond).log).map RldArgs.sig =
      [some [.fin 2, .fin 2, .fin 2, .fin 2]] ∧
    (mexFunction sigmaEngines 2 callSigmaSecond).RLD_param.tab.map Table.data =
      some [.fin 2, .fin 1000, .fin 2] ∧
    (mexFunction sigmaEngines 2 callSigma).status = .undefined ∧
    (rldCalls (mexFunction sigmaEngines 2 callSigma).log).map RldArgs.sig =
      [some [.fin 1, .fin 1, .fin 1, .fin 1]] ∧
    (rldCalls (mexFunction sigmaEngines 2 callSigma).log)[1]? = none ∧
    (mexFunction sigmaEngines 2 callSigma).RLD_param.writes = [0, 1, 2] := by
  refine ⟨by decide!, by decide!, by decide!, by decide!, by decide!, by decide!, by decide!,
    by decide!, by decide!⟩

/-! ## C6: the sigma of each fit -/

/-- C6, as the code behaves.  In `callSigmaShared` the sigma has one column
and each of the five fits gets it.  In `callSigma` the sigma has two columns:
the first fit gets the first, `1, 1, 1, 1`; the second column, `2, 2, 2, 2`,
is never handed to an engine, because the read for the second fit goes
through the pointer that was never set: the behaviour is undefined there and
neither engine is called a second time. -/
theorem C6_sigma_second_column_not_read :
    (rldCalls (mexFunction exampleEngines 1 callSigmaShared).log).map RldArgs.sig =
      List.replicate 5 (some [.fin 3, .fin 4]) ∧
    (parse callSigma).toBool = true ∧
    (mexFunction exampleEngines 1 callSigma).status = .undefined ∧
    (rldCalls (mexFunction exampleEngines 1 callSigma).log).map RldArgs.sig =
      [some [.fin 1, .fin 1, .fin 1, .fin 1]] ∧
    (lmaCalls (mexFunction exampleEngines 1 callSigma).log).map LmaArgs.sig =
      [some [.fin 1, .fin 1, .fin 1, .fin 1]] ∧
    (callSigma[9]?.map (fun a => (a.column 1).map Fp.toFloat)) =
      some [.fin 2, .fin 2, .fin 2, .fin 2] := by
  refine ⟨by decide!, by decide!, by decide!, by decide!, by decide!, by decide!⟩

/-! ## C7: the transient, the prompt and the time increment of each fit -/

/-- C9: when a check of the validation fails, with the text `msg`, the call
returns right after printing that text: the log holds nothing but texts, the
last of them `msg`, so no engine is called and no output is created, and the
four outputs are left unset. -/
theorem C9_rejected_call_does_nothing (E : Engines) (nlhs : Int) (prhs : List MxArray)
    (msg : Msg) (h : parse prhs = .error (.rejected msg)) :
    (mexFunction E nlhs prhs).status = .returned ∧
    (mexFunction E nlhs prhs).log = inputCountLog prhs ++ [.print msg] ∧
    rldCalls (mexFunction E nlhs prhs).log = [] ∧
    lmaCalls (mexFunction E nlhs prhs).log = [] ∧
    created (mexFunction E nlhs prhs).log = [] ∧
    (mexFunction E nlhs prhs).LMA_param = Out.unset ∧
    (mexFunction E nlhs prhs).RLD_param = Out.unset ∧
    (mexFunction E nlhs prhs).LMA_fit = Out.unset ∧
    (mexFunction E nlhs prhs).RLD_fit = Out.unset := by
  have hrun : mexFunction E nlhs prhs =
      Run.stopped .returned (inputCountLog prhs ++ [.print msg]) := by
    simp [mexFunction, h]
  rw [hrun]
  refine ⟨rfl, rfl, ?_, ?_, ?_, rfl, rfl, rfl, rfl⟩ <;>
  · simp only [Run.stopped, inputCountLog, rldCalls, lmaCalls, created]
    split_ifs <;> simp

/-- C9 at a transient of 2049 points: the call is rejected for its length
and does nothing else. -/
theorem C9_rejected_call_does_nothing_witness :
    parse callTooLong = .error (.rejected (.transientTooLong 2049)) ∧
    (mexFunction exampleEngines 4 callTooLong).log = [.print (.transientTooLong 2049)] ∧
    (mexFunction exampleEngines 4 callTooLong).LMA_param.tab = none := by
  have hp : parse callTooLong = .error (.rejected (.transientTooLong 2049)) := by decide
  obtain ⟨_, hlog, _, _, _, ho, _⟩ :=
    C9_rejected_call_does_nothing exampleEngines 4 callTooLong _ hp
  refine ⟨hp, ?_, ?_⟩
  · rw [hlog]; rfl
  · rw [ho]; rfl

/-! ## C10: fewer than four inputs -/

/-- C10, as the code behaves: the block that reports fewer than four inputs
has no `return`.  With three inputs of which the first is a transient of one
point, the text on the number of inputs is followed by the text on the
length of `transient_values`, which was read for it; with three inputs that
are as asked, the validation goes on to `prhs[3]`, which the caller did not
pass. -/
theorem C10_missing_return :
    (mexFunction exampleEngines 1 callThree).log =
      [.print .needFourInputs, .print (.transientTooShort 1)] ∧
    (mexFunction exampleEngines 1 callThreeGood).status = .undefined ∧
    (mexFunction exampleEngines 1 callThreeGood).log = [.print .needFourInputs] := by
  refine ⟨by decide, by decide!, by decide!⟩

/-! ## The order of the checks -/

theorem parse_iff_stages {prhs : List MxArray} {c : Checked} :
    parse prhs = .ok c ↔ ∀ k, StageOk prhs c k := by
  constructor
  · intro h k
    obtain ⟨h1, h2, h3, h4, h5, h6, h7, h8, h9, h10⟩ := parse_ok h
    match k with
    | 0 => trivial
    | 1 => exact h1
    | 2 => exact h2
    | 3 => exact h3
    | 4 => exact h4
    | 5 => exact h5
    | 6 => exact h6
    | 7 => exact h7
    | 8 => exact h8
    | 9 => exact h9
    | 10 => exact h10
    | _ + 11 => trivial
  · intro h
    exact parse_of_stages (h 1) (h 2) (h 3) (h 4) (h 5) (h 6) (h 7) (h 8) (h 9) (h 10)

theorem parse_iff_of_others {prhs : List MxArray} {c : Checked} {k : Nat}
    (h : OthersPass prhs c k) : parse prhs = .ok c ↔ StageOk prhs c k := by
  rw [parse_iff_stages]
  constructor
  · intro h1; exact h1 k
  · intro h1 j
    by_cases hj : j = k
    · rw [hj]; exact h1
    · exact h j hj

theorem passedBefore_of_others {prhs : List MxArray} {c : Checked} {k : Nat}
    (h : OthersPass prhs c k) : PassedBefore prhs c k :=
  fun j hj => h j (by omega)

theorem passedBefore_of_parse {prhs : List MxArray} {c : Checked} (h : parse prhs = .ok c)
    (k : Nat) : PassedBefore prhs c k :=
  fun j _ => parse_iff_stages.1 h j

theorem parse_error_at {prhs : List MxArray} {c : Checked} {k : Nat} {e : Halt}
    (hb : PassedBefore prhs c k) (he : StageErr prhs c k e) : parse prhs = .error e := by
  match k, hb, he with
  | 1, _, he =>
      have he : parseTransient prhs = .error e := he
      simp [parse, he, bind, Except.bind]
  | 2, hb, he =>
      have h1 : parseTransient prhs = _ := hb 1 (by omega)
      have he : parsePrompt prhs c.transient_nr = .error e := he
      simp [parse, h1, he, bind, Except.bind]
  | 3, hb, he =>
      have h1 : parseTransient prhs = _ := hb 1 (by omega)
      have h2 : parsePrompt prhs c.transient_nr = _ := hb 2 (by omega)
      have he : parseXInc prhs c.transient_nr = .error e := he
      simp [parse, h1, h2, he, bind, Except.bind]
  | 4, hb, he =>
      have h1 : parseTransient prhs = _ := hb 1 (by omega)
      have h2 : parsePrompt prhs c.transient_nr = _ := hb 2 (by omega)
      have h3 : parseXInc prhs c.transient_nr = _ := hb 3 (by omega)
      have he : parseFitStart prhs c.transient_size = .error e := he
      simp [parse, h1, h2, h3, he, bind, Except.bind]
  | 5, hb, he =>
      have h1 : parseTransient prhs = _ := hb 1 (by omega)
      have h2 : parsePrompt prhs c.transient_nr = _ := hb 2 (by omega)
      have h3 : parseXInc prhs c.transient_nr = _ := hb 3 (by omega)
      have h4 : parseFitStart prhs c.transient_size = _ := hb 4 (by omega)
      have he : parseFitType prhs = .error e := he
      simp [parse, h1, h2, h3, h4, he, bind, Except.bind]
  | 6, hb, he =>
      have h1 : parseTransient prhs = _ := hb 1 (by omega)
      have h2 : parsePrompt prhs c.transient_nr = _ := hb 2 (by omega)
      have h3 : parseXInc prhs c.transient_nr = _ := hb 3 (by omega)
      have h4 : parseFitStart prhs c.transient_size = _ := hb 4 (by omega)
      have h5 : parseFitType prhs = _ := hb 5 (by omega)
      have he : parseNoiseModel prhs = .error e := he
      simp [parse, h1, h2, h3, h4, h5, he, bind, Except.bind]
  | 7, hb, he =>
      have h1 : parseTransient prhs = _ := hb 1 (by omega)
      have h2 : parsePrompt prhs c.transient_nr = _ := hb 2 (by omega)
      have h3 : parseXInc prhs c.transient_nr = _ := hb 3 (by omega)
      have h4 : parseFitStart prhs c.transient_size = _ := hb 4 (by omega)
      have h5 : parseFitType prhs = _ := hb 5 (by omega)
      have h6 : parseNoiseModel prhs = _ := hb 6 (by omega)
      have he : parseChiSqTarget prhs = .error e := he
      simp [parse, h1, h2, h3, h4, h5, h6, he, bind, Except.bind]
  | 8, hb, he =>
      have h1 : parseTransient prhs = _ := hb 1 (by omega)
      have h2 : parsePrompt prhs c.transient_nr = _ := hb 2 (by omega)
      have h3 : parseXInc prhs c.transient_nr = _ := hb 3 (by omega)
      have h4 : parseFitStart prhs c.transient_size = _ := hb 4 (by omega)
      have h5 : parseFitType prhs = _ := hb 5 (by omega)
      have h6 : parseNoiseModel prhs = _ := hb 6 (by omega)
      have h7 : parseChiSqTarget prhs = _ := hb 7 (by omega)
      have he : parseChiSqDelta prhs = .error e := he
      simp [parse, h1, h2, h3, h4, h5, h6, h7, he, bind, Except.bind]
  | 9, hb, he =>
      have h1 : parseTransient prhs = _ := hb 1 (by omega)
      have h2 : parsePrompt prhs c.transient_nr = _ := hb 2 (by omega)
      have h3 : parseXInc prhs c.transient_nr = _ := hb 3 (by omega)
      have h4 : parseFitStart prhs c.transient_size = _ := hb 4 (by omega)
      have h5 : parseFitType prhs = _ := hb 5 (by omega)
      have h6 : parseNoiseModel prhs = _ := hb 6 (by omega)
      have h7 : parseChiSqTarget prhs = _ := hb 7 (by omega)
      have h8 : parseChiSqDelta prhs = _ := hb 8 (by omega)
      have he : parseFitEnd prhs c.transient_size c.fit_start = .error e := he
      simp [parse, h1, h2, h3, h4, h5, h6, h7, h8, he, bind, Except.bind]
  | 10, hb, he =>
      have h1 : parseTransient prhs = _ := hb 1 (by omega)
      have h2 : parsePrompt prhs c.transient_nr = _ := hb 2 (by omega)
      have h3 : parseXInc prhs c.transient_nr = _ := hb 3 (by omega)
      have h4 : parseFitStart prhs c.transient_size = _ := hb 4 (by omega)
      have h5 : parseFitType prhs = _ := hb 5 (by omega)
      have h6 : parseNoiseModel prhs = _ := hb 6 (by omega)
      have h7 : parseChiSqTarget prhs = _ := hb 7 (by omega)
      have h8 : parseChiSqDelta prhs = _ := hb 8 (by omega)
      have h9 : parseFitEnd prhs c.transient_size c.fit_start = _ := hb 9 (by omega)
      have he : parseSigma prhs c.transient_size c.transient_nr = .error e := he
      simp [parse, h1, h2, h3, h4, h5, h6, h7, h8, h9, he, bind, Except.bind]
  | 0, _, he => exact absurd he (by simp [StageErr])
  | _ + 11, _, he => exact absurd he (by simp [StageErr])

/-! ## C11: the shape of the transients -/

theorem parse_error_of_transient {prhs : List MxArray} {e : Halt}
    (h : parseTransient prhs = .error e) : parse prhs = .error e := by
  simp [parse, h, bind, Except.bind]

/-- What the checks of lines 49 to 78 do with a `transient_values` of class
`double`. -/
theorem parseTransient_double {prhs : List MxArray} {a : MxArray} (ha : prhs[0]? = some a)
    (hd : a.cls = MxClass.double) :
    parseTransient prhs =
      if a.m < 2 then .error (.rejected (.transientTooShort a.m))
      else if a.m > 2048 then .error (.rejected (.transientTooLong a.m))
      else if a.n < 1 then .error (.rejected (.transientEmpty a.n))
      else .ok (a.m, a.n, some a.pr) := by
  have harg : arg prhs 0 = .ok a := arg_ok.2 ha
  simp only [parseTransient, harg, rejectIf, mxGetM, mxGetN, mxIsDouble, mxGetPr, hd,
    bind, Except.bind, pure, Except.pure]
  split_ifs <;> simp_all

/-- C11: a `transient_values` of class `double` with `n` rows and `N`
columns passes the checks of its block if and only if `2 <= n <= 2048` and
`N >= 1`.  When it does not, the validation rejects the call.  When the other
blocks of checks pass, the validation accepts the call if and only if
`2 <= n <= 2048` and `N >= 1`; and every accepted call has such a shape. -/
theorem C11_transient_shape (prhs : List MxArray) (a : MxArray) (c : Checked)
    (ha : prhs[0]? = some a) (hd : a.cls = MxClass.double) :
    ((∃ r, parseTransient prhs = .ok r) ↔ 2 ≤ a.m ∧ a.m ≤ 2048 ∧ 1 ≤ a.n) ∧
    (¬ (2 ≤ a.m ∧ a.m ≤ 2048 ∧ 1 ≤ a.n) → ∃ msg, parse prhs = .error (.rejected msg)) ∧
    (OthersPass prhs c 1 → c.transient_size = a.m → c.transient_nr = a.n →
      c.transient_ptr = some a.pr →
      (parse prhs = .ok c ↔ 2 ≤ a.m ∧ a.m ≤ 2048 ∧ 1 ≤ a.n)) ∧
    (parse prhs = .ok c → c.transient_size = a.m ∧ c.transient_nr = a.n ∧
      2 ≤ a.m ∧ a.m ≤ 2048 ∧ 1 ≤ a.n) := by
  have hst := parseTransient_double ha hd
  refine ⟨?_, ?_, ?_, ?_⟩
  · rw [hst]
    split_ifs <;> simp <;> omega
  · intro hn
    by_cases h1 : a.m < 2
    · exact ⟨_, parse_error_of_transient (by rw [hst, if_pos h1])⟩
    · by_cases h2 : a.m > 2048
      · exact ⟨_, parse_error_of_transient (by rw [hst, if_neg h1, if_pos h2])⟩
      · by_cases h3 : a.n < 1
        · exact ⟨_, parse_error_of_transient (by rw [hst, if_neg h1, if_neg h2, if_pos h3])⟩
        · exact absurd ⟨by omega, by omega, by omega⟩ hn
  · intro ho h1 h2 h3
    rw [parse_iff_of_others ho]
    show parseTransient prhs = .ok (c.transient_size, c.transient_nr, c.transient_ptr) ↔ _
    rw [hst, h1, h2, h3]
    split_ifs <;> simp <;> omega
  · intro hp
    obtain ⟨b, hb, hs, hn, _, _, h1, h2, h3⟩ := parseTransient_ok (parse_ok hp).1
    have : b = a := by rw [hb] at ha; exact Option.some.inj ha
    subst this
    exact ⟨hs, hn, h1, h2, h3⟩

/-- C11 at the bounds: a transient of 2048 points is accepted, one of 2049
points and one of a single point are rejected. -/
theorem C11_transient_shape_witness :
    (∃ r, parseTransient callLongest = .ok r) ∧ parse callLongest = .ok checkedLongest ∧
    (∃ msg, parse callTooLong = .error (.rejected msg)) ∧
    (∃ msg, parse callOnePoint = .error (.rejected msg)) := by
  refine ⟨?_, by decide!, ?_, ?_⟩
  · exact (C11_transient_shape callLongest
      { cls := .double, m := 2048, n := 1, pr := List.replicate 2048 (.fin 1) }
      checkedLongest rfl rfl).1.2 (by decide)
  · exact (C11_transient_shape callTooLong
      { cls := .double, m := 2049, n := 1, pr := List.replicate 2049 (.fin 1) }
      checkedLongest rfl rfl).2.1 (by decide)
  · exact (C11_transient_shape callOnePoint (dbl 1 1 [5]) checkedLongest rfl rfl).2.1
      (by decide)

/-! ## C12: the start of the window -/

theorem toInt_intCast (k : Int) (h1 : -2147483648 ≤ k) (h2 : k ≤ 2147483647) :
    (Fp.fin (k : ℚ)).toInt = some k := by
  simp [Fp.toInt, h1, h2]

theorem scalarInt_eq {a : MxArray} {d : Fp} {k : Int} (hd : mxGetScalar a = some d)
    (hk : d.toInt = some k) : scalarInt a = .ok k := by
  simp [scalarInt, hd, hk]

/-- What the checks of lines 148 to 164 do with a `fit_start` of one element
that converts to the `int` `k`. -/
theorem parseFitStart_scalar {prhs : List MxArray} {a : MxArray} {d : Fp} {k : Int}
    (n : Nat) (ha : prhs[3]? = some a) (h1 : mxGetNumberOfElements a = 1)
    (hd : mxGetScalar a = some d) (hk : d.toInt = some k) :
    parseFitStart prhs n =
      if k < 0 ∨ k > (n : Int) - 2 then .error (.rejected (.fitStartRange ((n : Int) - 2) k))
      else .ok k := by
  have harg : arg prhs 3 = .ok a := arg_ok.2 ha
  simp only [parseFitStart, harg, rejectIf, h1, scalarInt_eq hd hk, bind, Except.bind, pure,
    Except.pure]
  split_ifs <;> simp_all

/-- C12: a `fit_start` of one element that converts to the `int` `k` (an
integer in the range of `int` converts to itself) passes the checks of its
block if and only if `0 <= k <= n - 2`, `n` being the length of the
transients.  When it does not and the blocks before it pass, the validation
rejects the call with the text on `fit_start`.  When the other blocks of
checks pass, the validation accepts the call if and only if
`0 <= k <= n - 2`; and every accepted call has such a `fit_start`. -/
theorem C12_fit_start_range (prhs : List MxArray) (a : MxArray) (c : Checked) (d : Fp)
    (k : Int) (ha : prhs[3]? = some a) (h1 : mxGetNumberOfElements a = 1)
    (hd : mxGetScalar a = some d) (hk : d.toInt = some k) :
    ((∃ r, parseFitStart prhs c.transient_size = .ok r) ↔
      0 ≤ k ∧ k ≤ (c.transient_size : Int) - 2) ∧
    (PassedBefore prhs c 4 → ¬ (0 ≤ k ∧ k ≤ (c.transient_size : Int) - 2) →
      parse prhs = .error (.rejected (.fitStartRange ((c.transient_size : Int) - 2) k))) ∧
    (OthersPass prhs c 4 → c.fit_start = k →
      (parse prhs = .ok c ↔ 0 ≤ k ∧ k ≤ (c.transient_size : Int) - 2)) ∧
    (parse prhs = .ok c → c.fit_start = k ∧ 0 ≤ k ∧ k ≤ (c.transient_size : Int) - 2) ∧
    (∀ j : Int, -2147483648 ≤ j → j ≤ 2147483647 → (Fp.fin (j : ℚ)).toInt = some j) := by
  have hst := parseFitStart_scalar c.transient_size ha h1 hd hk
  refine ⟨?_, ?_, ?_, ?_, toInt_intCast⟩
  · rw [hst]
    split_ifs with h <;> simp <;> omega
  · intro hb hn
    apply parse_error_at hb
    show parseFitStart prhs c.transient_size = _
    rw [hst, if_pos (by omega)]
  · intro ho hf
    rw [parse_iff_of_others ho]
    show parseFitStart prhs c.transient_size = .ok c.fit_start ↔ _
    rw [hst, hf]
    split_ifs with h <;> simp <;> omega
  · intro hp
    have h4 : parseFitStart prhs c.transient_size = .ok c.fit_start := (parse_ok hp).2.2.2.1
    rw [hst] at h4
    split_ifs at h4 with h
    simp only [Except.ok.injEq] at h4
    exact ⟨h4.symm, by omega, by omega⟩

/-- C12 at the bounds, for transients of eight points: `fit_start = 6` is
accepted and `fit_start = 7` is rejected. -/
theorem C12_fit_start_range_witness :
    parse callStartLast = .ok checkedStartLast ∧
    parse callStartPast = .error (.rejected (.fitStartRange 6 7)) := by
  have hok : parse callStartLast = .ok checkedStartLast := by decide!
  refine ⟨hok, ?_⟩
  have h := (C12_fit_start_range callStartPast (dbl 1 1 [7]) checkedStartLast (.fin 7) 7
    rfl rfl rfl (by decide!)).2.1
  refine h ?_ (by decide)
  intro j hj
  have hj : j = 0 ∨ j = 1 ∨ j = 2 ∨ j = 3 := by omega
  rcases hj with h | h | h | h <;> subst h
  · trivial
  · show parseTransient callStartPast = _; decide!
  · show parsePrompt callStartPast _ = _; decide!
  · show parseXInc callStartPast _ = _; decide!

/-! ## C13: the end of the window -/

theorem length_of_getElem? {prhs : List MxArray} {k : Nat} {a : MxArray}
    (ha : prhs[k]? = some a) : k < prhs.length := by
  by_contra hn
  rw [List.getElem?_eq_none (by omega)] at ha
  exact absurd ha (by simp)

/-- What the checks of lines 284 to 303 do with a `fit_end` of one element
that converts to the `int` `k`. -/
theorem parseFitEnd_scalar {prhs : List MxArray} {a : MxArray} {d : Fp} {k : Int}
    (n : Nat) (fit_start : Int) (ha : prhs[8]? = some a)
    (h1 : mxGetNumberOfElements a = 1) (hd : mxGetScalar a = some d)
    (hk : d.toInt = some k) :
    parseFitEnd prhs n fit_start =
      if k ≤ fit_start ∨ k ≥ (n : Int) then
        .error (.rejected (.fitEndRange (fit_start + 1) ((n : Int) - 1) k))
      else .ok k := by
  have harg : arg prhs 8 = .ok a := arg_ok.2 ha
  have hlen : prhs.length > 8 := length_of_getElem? ha
  simp only [parseFitEnd, if_pos hlen, harg, rejectIf, h1, scalarInt_eq hd hk, bind,
    Except.bind, pure, Except.pure]
  split_ifs <;> simp_all

theorem parseFitEnd_omitted {prhs : List MxArray} (n : Nat) (fit_start : Int)
    (h : prhs.length ≤ 8) : parseFitEnd prhs n fit_start = .ok ((n : Int) - 1) := by
  simp [parseFitEnd, Nat.not_lt.2 h, pure, Except.pure]

theorem parseFitEnd_ok {prhs : List MxArray} {n : Nat} {fit_start fit_end : Int}
    (h : parseFitEnd prhs n fit_start = .ok fit_end) :
    (prhs.length ≤ 8 ∧ fit_end = (n : Int) - 1) ∨
    (8 < prhs.length ∧ fit_start < fit_end ∧ fit_end ≤ (n : Int) - 1) := by
  unfold parseFitEnd at h
  split_ifs at h with hlen
  · right
    obtain ⟨a, ha, h⟩ := bind_ok h
    obtain ⟨_, h1, h⟩ := bind_ok h
    obtain ⟨i, h2, h⟩ := bind_ok h
    obtain ⟨_, h3, h⟩ := bind_ok h
    rw [rejectIf_ok] at h3
    simp only [pure, Except.pure, Except.ok.injEq] at h
    subst h
    simp only [Bool.or_eq_false_iff, decide_eq_false_iff_not] at h3
    exact ⟨hlen, by omega, by omega⟩
  · left
    simp only [pure, Except.pure, Except.ok.injEq] at h
    exact ⟨by omega, h.symm⟩

/-- The window of an accepted call. -/
theorem window_ok {prhs : List MxArray} {c : Checked} (h : parse prhs = .ok c) :
    0 ≤ c.fit_start ∧ c.fit_start ≤ (c.transient_size : Int) - 2 ∧
    c.fit_start < c.fit_end ∧ c.fit_end ≤ (c.transient_size : Int) - 1 := by
  obtain ⟨_, h1, h2⟩ := parseFitStart_ok (parse_ok h).2.2.2.1
  rcases parseFitEnd_ok (parse_ok h).2.2.2.2.2.2.2.2.1 with ⟨_, h3⟩ | ⟨_, h3, h4⟩
  · exact ⟨h1, h2, by omega, by omega⟩
  · exact ⟨h1, h2, h3, h4⟩

/-- C13: a supplied `fit_end` of one element that converts to the `int` `k`
passes the checks of its block if and only if `fit_start < k <= n - 1`; when
it does not and the blocks before it pass, the validation rejects the call
with the text on `fit_end`; when the other blocks pass, the validation
accepts the call if and only if `fit_start < k <= n - 1`.  Without a ninth
input `fit_end` is `n - 1`.  In every accepted call
`0 <= fit_start <= n - 2` and `fit_start < fit_end <= n - 1`, and, when the
reads of the sigma stay inside an array (`SigmaDefined`), these are the
`fit_start` and `fit_end` both engines are called with for every transient. -/
theorem C13_fit_end_range (prhs : List MxArray) (c : Checked) :
    (∀ a d k, prhs[8]? = some a → mxGetNumberOfElements a = 1 → mxGetScalar a = some d →
      d.toInt = some k →
      ((∃ r, parseFitEnd prhs c.transient_size c.fit_start = .ok r) ↔
        c.fit_start < k ∧ k ≤ (c.transient_size : Int) - 1) ∧
      (PassedBefore prhs c 9 → ¬ (c.fit_start < k ∧ k ≤ (c.transient_size : Int) - 1) →
        parse prhs = .error (.rejected
          (.fitEndRange (c.fit_start + 1) ((c.transient_size : Int) - 1) k))) ∧
      (OthersPass prhs c 9 → c.fit_end = k →
        (parse prhs = .ok c ↔ c.fit_start < k ∧ k ≤ (c.transient_size : Int) - 1))) ∧
    (prhs.length ≤ 8 →
      parseFitEnd prhs c.transient_size c.fit_start = .ok ((c.transient_size : Int) - 1)) ∧
    (parse prhs = .ok c →
      (prhs.length ≤ 8 → c.fit_end = (c.transient_size : Int) - 1) ∧
      0 ≤ c.fit_start ∧ c.fit_start ≤ (c.transient_size : Int) - 2 ∧
      c.fit_start < c.fit_end ∧ c.fit_end ≤ (c.transient_size : Int) - 1 ∧
      ∀ (E : Engines) (nlhs : Int) (i : Nat), SigmaDefined c → i < c.transient_nr →
        ∃ ra la, (rldCalls (mexFunction E nlhs prhs).log)[i]? = some ra ∧
          (lmaCalls (mexFunction E nlhs prhs).log)[i]? = some la ∧
          ra.fit_start = c.fit_start ∧ ra.fit_end = c.fit_end ∧
          la.fit_start = c.fit_start ∧ la.fit_end = c.fit_end ∧ la.ndata = c.transient_size) := by
  refine ⟨?_, parseFitEnd_omitted _ _, ?_⟩
  · intro a d k ha h1 hd hk
    have hst := parseFitEnd_scalar c.transient_size c.fit_start ha h1 hd hk
    refine ⟨?_, ?_, ?_⟩
    · rw [hst]
      split_ifs with h <;> simp <;> omega
    · intro hb hn
      apply parse_error_at hb
      show parseFitEnd prhs c.transient_size c.fit_start = _
      rw [hst, if_pos (by omega)]
    · intro ho hf
      rw [parse_iff_of_others ho]
      show parseFitEnd prhs c.transient_size c.fit_start = .ok c.fit_end ↔ _
      rw [hst, hf]
      split_ifs with h <;> simp <;> omega
  · intro hp
    obtain ⟨w1, w2, w3, w4⟩ := window_ok hp
    refine ⟨?_, w1, w2, w3, w4, ?_⟩
    · intro hlen
      have := (parse_ok hp).2.2.2.2.2.2.2.2.1
      rw [parseFitEnd_omitted _ _ hlen] at this
      exact (Except.ok.inj this).symm
    · intro E nlhs i hs hi
      obtain ⟨p, hpp⟩ := nParam_ok hp
      obtain ⟨hr, hl⟩ := calls_at E nlhs hp hs hpp hi
      exact ⟨_, _, hr, hl, rfl, rfl, rfl, rfl, rfl⟩

/-- C13 for transients of eight points and `fit_start = 2`: `fit_end = 7` is
accepted and both engines get the window from 2 to 7; `fit_end = 8` and
`fit_end = 2` are rejected; without the input, `fit_end` is 7. -/
theorem C13_fit_end_range_witness :
    parse callWindow = .ok checkedWindow ∧
    (rldCalls (mexFunction exampleEngines 1 callWindow).log).map
      (fun ra => (ra.fit_start, ra.fit_end)) = [(2, 7), (2, 7)] ∧
    parse callWindowPast = .error (.rejected (.fitEndRange 3 7 8)) ∧
    parse callWindowEmpty = .error (.rejected (.fitEndRange 3 7 2)) ∧
    parseFitEnd callDouble 8 0 = .ok 7 := by
  have hok : parse callWindow = .ok checkedWindow := by decide!
  refine ⟨hok, by decide!, ?_, ?_, ?_⟩
  · have h := ((C13_fit_end_range callWindowPast checkedWindow).1 (dbl 1 1 [8]) (.fin 8) 8
      rfl rfl rfl (by decide!)).2.1
    refine h ?_ (by decide)
    intro j hj
    have := passedBefore_of_parse hok 9 j hj
    have hj : j = 0 ∨ j = 1 ∨ j = 2 ∨ j = 3 ∨ j = 4 ∨ j = 5 ∨ j = 6 ∨ j = 7 ∨ j = 8 := by
      omega
    rcases hj with h | h | h | h | h | h | h | h | h <;> subst h <;> exact this
  · have h := ((C13_fit_end_range callWindowEmpty checkedWindow).1 (dbl 1 1 [2]) (.fin 2) 2
      rfl rfl rfl (by decide!)).2.1
    refine h ?_ (by decide)
    intro j hj
    have := passedBefore_of_parse hok 9 j hj
    have hj : j = 0 ∨ j = 1 ∨ j = 2 ∨ j = 3 ∨ j = 4 ∨ j = 5 ∨ j = 6 ∨ j = 7 ∨ j = 8 := by
      omega
    rcases hj with h | h | h | h | h | h | h | h | h <;> subst h <;> exact this
  · exact (C13_fit_end_range callDouble checkedDouble).2.1 (by decide)

/-! ## C14: the noise model -/

/-- What the checks of lines 207 to 225 do with a `noise_model` of one
element that converts to the `int` `k`. -/
theorem parseNoiseModel_scalar {prhs : List MxArray} {a : MxArray} {d : Fp} {k : Int}
    (ha : prhs[5]? = some a) (h1 : mxGetNumberOfElements a = 1)
    (hd : mxGetScalar a = some d) (hk : d.toInt = some k) :
    parseNoiseModel prhs =
      if k < 1 ∨ k > 6 then .error (.rejected (.noiseModelRange k)) else .ok k := by
  have harg : arg prhs 5 = .ok a := arg_ok.2 ha
  have hlen : prhs.length > 5 := length_of_getElem? ha
  simp only [parseNoiseModel, if_pos hlen, harg, rejectIf, h1, scalarInt_eq hd hk, bind,
    Except.bind, pure, Except.pure]
  split_ifs <;> simp_all

/-- The noise model the engines are called with: a supplied selector `k` is
accepted if and only if `1 <= k <= 6`, and is then handed to both engines as
it is; without a sixth input the engines get 4. -/
theorem noise_model_passed (prhs : List MxArray) (c : Checked) :
    (∀ a d k, prhs[5]? = some a → mxGetNumberOfElements a = 1 → mxGetScalar a = some d →
      d.toInt = some k →
      ((∃ r, parseNoiseModel prhs = .ok r) ↔ 1 ≤ k ∧ k ≤ 6) ∧
      (PassedBefore prhs c 6 → ¬ (1 ≤ k ∧ k ≤ 6) →
        parse prhs = .error (.rejected (.noiseModelRange k))) ∧
      (parse prhs = .ok c → c.noise_model = k)) ∧
    (prhs.length ≤ 5 → parse prhs = .ok c → c.noise_model = 4) ∧
    (parse prhs = .ok c → SigmaDefined c →
      ∀ (E : Engines) (nlhs : Int) (i : Nat), i < c.transient_nr →
      ∃ ra la, (rldCalls (mexFunction E nlhs prhs).log)[i]? = some ra ∧
        (lmaCalls (mexFunction E nlhs prhs).log)[i]? = some la ∧
        ra.noise = c.noise_model ∧ la.noise = c.noise_model) := by
  refine ⟨?_, ?_, ?_⟩
  · intro a d k ha h1 hd hk
    have hst := parseNoiseModel_scalar ha h1 hd hk
    refine ⟨?_, ?_, ?_⟩
    · rw [hst]
      split_ifs with h <;> simp <;> omega
    · intro hb hn
      apply parse_error_at hb
      show parseNoiseModel prhs = _
      rw [hst, if_pos (by omega)]
    · intro hp
      have h6 : parseNoiseModel prhs = .ok c.noise_model := (parse_ok hp).2.2.2.2.2.1
      rw [hst] at h6
      split_ifs at h6 with h
      exact (Except.ok.inj h6).symm
  · intro hlen hp
    have h6 : parseNoiseModel prhs = .ok c.noise_model := (parse_ok hp).2.2.2.2.2.1
    simp only [parseNoiseModel, Nat.not_lt.2 hlen, if_false, pure, Except.pure] at h6
    exact (Except.ok.inj h6).symm
  · intro hp hs E nlhs i hi
    obtain ⟨p, hpp⟩ := nParam_ok hp
    obtain ⟨hr, hl⟩ := calls_at E nlhs hp hs hpp hi
    exact ⟨_, _, hr, hl, rfl, rfl⟩

/-- C14, as the code behaves: the selector 0, which the list of lines 200 to
205 gives to the constant noise model, is rejected with the text on
`noise_model`; the selector 6, which that list gives to no model, is accepted
and handed to both engines; without the input the engines get 4. -/
theorem C14_noise_model_off_by_one :
    parse callNoiseZero = .error (.rejected (.noiseModelRange 0)) ∧
    (parse callNoiseSix).toBool = true ∧
    (rldCalls (mexFunction exampleEngines 1 callNoiseSix).log).map RldArgs.noise = [6] ∧
    (lmaCalls (mexFunction exampleEngines 1 callNoiseSix).log).map LmaArgs.noise = [6] ∧
    (rldCalls (mexFunction exampleEngines 1 callTiny).log).map RldArgs.noise = [4] := by
  refine ⟨by decide!, by decide!, by decide!, by decide!, by decide!⟩

/-! ## C15: the shapes of the prompts, the time increment and the sigma -/

/-- What the checks of lines 88 to 109 do with a `prompt_values` of class
`double`. -/
theorem parsePrompt_double {prhs : List MxArray} {a : MxArray} (nr : Nat)
    (ha : prhs[1]? = some a) (hd : a.cls = MxClass.double) :
    parsePrompt prhs nr =
      if a.m < 2 then .error (.rejected (.promptTooShort a.m))
      else if a.n ≠ 1 ∧ a.n ≠ nr then .error (.rejected (.promptCount a.n))
      else .ok (a.m, a.n, some a.pr, feed (some a.pr) a.m 0) := by
  have harg : arg prhs 1 = .ok a := arg_ok.2 ha
  simp only [parsePrompt, harg, rejectIf, mxGetM, mxGetN, mxIsDouble, mxGetPr, hd,
    bind, Except.bind, pure, Except.pure]
  split_ifs <;> simp_all

/-- What the checks of lines 122 to 139 do with an `x_inc`, the
`transient_values` being of class `double`. -/
theorem parseXInc_count {prhs : List MxArray} {a t : MxArray} (nr : Nat)
    (ha : prhs[2]? = some a) (ht : prhs[0]? = some t) (hd : t.cls = MxClass.double) :
    parseXInc prhs nr =
      if a.m * a.n ≠ 1 ∧ a.m * a.n ≠ nr then .error (.rejected (.xIncCount (a.m * a.n)))
      else .ok (a.m * a.n, mxGetPr a, (readAt (mxGetPr a) 0).map Fp.toFloat) := by
  have harg : arg prhs 2 = .ok a := arg_ok.2 ha
  have harg0 : arg prhs 0 = .ok t := arg_ok.2 ht
  simp only [parseXInc, harg, harg0, rejectIf, mxGetNumberOfElements, mxIsDouble, hd,
    bind, Except.bind, pure, Except.pure]
  split_ifs <;> simp_all

/-- What the checks of lines 316 to 345 do with a `sigma_values` of class
`double`. -/
theorem parseSigma_double {prhs : List MxArray} {a : MxArray} (size nr : Nat)
    (ha : prhs[9]? = some a) (hd : a.cls = MxClass.double) :
    parseSigma prhs size nr =
      if a.n ≠ 0 ∧ a.n ≠ 1 ∧ a.n ≠ nr then .error (.rejected (.sigmaCount a.n))
      else if a.m ≠ 0 ∧ a.m ≠ size then .error (.rejected (.sigmaSize a.m))
      else .ok (a.m, a.n, feed (some a.pr) a.m 0) := by
  have harg : arg prhs 9 = .ok a := arg_ok.2 ha
  have hlen : prhs.length > 9 := length_of_getElem? ha
  simp only [parseSigma, if_pos hlen, harg, rejectIf, mxGetM, mxGetN, mxIsDouble, mxGetPr,
    hd, bind, Except.bind, pure, Except.pure]
  split_ifs <;> simp_all

/-- C15, with `n` the length and `N` the number of the transients.  A
`prompt_values` of class `double` passes the checks of its block if and only
if it has at least 2 rows and 1 or `N` columns.  An `x_inc` passes the checks
of its block if and only if it has 1 or `N` elements.  A supplied
`sigma_values` of class `double` passes the checks of its block if and only
if it has 0, 1 or `N` columns and 0 or `n` rows.  For each of the three: when
it does not pass and the blocks before it pass, the validation rejects the
call; when the other blocks pass, the validation accepts the call if and only
if the shape is as said. -/
theorem C15_broadcast_shapes (prhs : List MxArray) (c : Checked) :
    (∀ a, prhs[1]? = some a → a.cls = MxClass.double →
      ((∃ r, parsePrompt prhs c.transient_nr = .ok r) ↔
        2 ≤ a.m ∧ (a.n = 1 ∨ a.n = c.transient_nr)) ∧
      (PassedBefore prhs c 2 → ¬ (2 ≤ a.m ∧ (a.n = 1 ∨ a.n = c.transient_nr)) →
        ∃ msg, parse prhs = .error (.rejected msg)) ∧
      (OthersPass prhs c 2 → c.prompt_size = a.m → c.prompt_nr = a.n →
        c.prompt_ptr = some a.pr → c.prompt_values = feed (some a.pr) a.m 0 →
        (parse prhs = .ok c ↔ 2 ≤ a.m ∧ (a.n = 1 ∨ a.n = c.transient_nr)))) ∧
    (∀ a t, prhs[2]? = some a → prhs[0]? = some t → t.cls = MxClass.double →
      ((∃ r, parseXInc prhs c.transient_nr = .ok r) ↔
        (a.m * a.n = 1 ∨ a.m * a.n = c.transient_nr)) ∧
      (PassedBefore prhs c 3 → ¬ (a.m * a.n = 1 ∨ a.m * a.n = c.transient_nr) →
        parse prhs = .error (.rejected (.xIncCount (a.m * a.n)))) ∧
      (OthersPass prhs c 3 → c.x_inc_nr = a.m * a.n → c.x_inc_ptr = mxGetPr a →
        c.x_inc = (readAt (mxGetPr a) 0).map Fp.toFloat →
        (parse prhs = .ok c ↔ (a.m * a.n = 1 ∨ a.m * a.n = c.transient_nr)))) ∧
    (∀ a, prhs[9]? = some a → a.cls = MxClass.double →
      ((∃ r, parseSigma prhs c.transient_size c.transient_nr = .ok r) ↔
        (a.n = 0 ∨ a.n = 1 ∨ a.n = c.transient_nr) ∧ (a.m = 0 ∨ a.m = c.transient_size)) ∧
      (PassedBefore prhs c 10 →
        ¬ ((a.n = 0 ∨ a.n = 1 ∨ a.n = c.transient_nr) ∧ (a.m = 0 ∨ a.m = c.transient_size)) →
        ∃ msg, parse prhs = .error (.rejected msg)) ∧
      (OthersPass prhs c 10 → c.sigma_size = a.m → c.sigma_nr = a.n →
        c.sigma_values = feed (some a.pr) a.m 0 →
        (parse prhs = .ok c ↔
          (a.n = 0 ∨ a.n = 1 ∨ a.n = c.transient_nr) ∧
            (a.m = 0 ∨ a.m = c.transient_size)))) := by
  refine ⟨?_, ?_, ?_⟩
  · intro a ha hd
    have hst := parsePrompt_double c.transient_nr ha hd
    refine ⟨?_, ?_, ?_⟩
    · rw [hst]
      split_ifs with h1 h2 <;> simp <;> omega
    · intro hb hn
      by_cases h1 : a.m < 2
      · exact ⟨_, parse_error_at hb (k := 2) (by
          show parsePrompt prhs c.transient_nr = _
          rw [hst, if_pos h1])⟩
      · have h2 : a.n ≠ 1 ∧ a.n ≠ c.transient_nr := by
          constructor <;> intro h <;> exact hn ⟨by omega, by simp [h]⟩
        exact ⟨_, parse_error_at hb (k := 2) (by
          show parsePrompt prhs c.transient_nr = _
          rw [hst, if_neg h1, if_pos h2])⟩
    · intro ho e1 e2 e3 e4
      rw [parse_iff_of_others ho]
      show parsePrompt prhs c.transient_nr = .ok _ ↔ _
      rw [hst, e1, e2, e3, e4]
      split_ifs with h1 h2 <;> simp <;> omega
  · intro a t ha ht hd
    have hst := parseXInc_count c.transient_nr ha ht hd
    generalize a.m * a.n = q at hst ⊢
    refine ⟨?_, ?_, ?_⟩
    · rw [hst]
      split_ifs with h1 <;> simp <;> omega
    · intro hb hn
      apply parse_error_at hb
      show parseXInc prhs c.transient_nr = _
      rw [hst, if_pos (by omega)]
    · intro ho e1 e2 e3
      rw [parse_iff_of_others ho]
      show parseXInc prhs c.transient_nr = .ok _ ↔ _
      rw [hst, e1, e2, e3]
      split_ifs with h1 <;> simp <;> omega
  · intro a ha hd
    have hst := parseSigma_double c.transient_size c.transient_nr ha hd
    refine ⟨?_, ?_, ?_⟩
    · rw [hst]
      split_ifs with h1 h2 <;> simp <;> omega
    · intro hb hn
      by_cases h1 : a.n ≠ 0 ∧ a.n ≠ 1 ∧ a.n ≠ c.transient_nr
      · exact ⟨_, parse_error_at hb (k := 10) (by
          show parseSigma prhs c.transient_size c.transient_nr = _
          rw [hst, if_pos h1])⟩
      · have h2 : a.m ≠ 0 ∧ a.m ≠ c.transient_size := by
          constructor <;> intro h <;> exact hn ⟨by omega, by simp [h]⟩
        exact ⟨_, parse_error_at hb (k := 10) (by
          show parseSigma prhs c.transient_size c.transient_nr = _
          rw [hst, if_neg h1, if_pos h2])⟩
    · intro ho e1 e2 e3
      rw [parse_iff_of_others ho]
      show parseSigma prhs c.transient_size c.transient_nr = .ok _ ↔ _
      rw [hst, e1, e2, e3]
      split_ifs with h1 h2 <;> simp <;> omega

/-- C15 for two transients of four points: a prompt of two columns, two time
increments and a sigma of two columns and four rows are accepted; a prompt of
three columns, three time increments and a sigma of three rows are
rejected. -/
theorem C15_broadcast_shapes_witness :
    parse callBroad = .ok checkedBroad ∧ parse callSigma = .ok checkedSigma ∧
    (∃ msg, parse callPromptThree = .error (.rejected msg)) ∧
    parse callXIncThree = .error (.rejected (.xIncCount 3)) ∧
    (∃ msg, parse callSigmaShort = .error (.rejected msg)) := by
  have h1 : parse callBroad = .ok checkedBroad := by decide!
  have h2 : parse callSigma = .ok checkedSigma := by decide!
  refine ⟨h1, h2, ?_, ?_, ?_⟩
  · refine ((C15_broadcast_shapes callPromptThree checkedBroad).1
      (dbl 2 3 [1, 0, 1, 0, 1, 0]) rfl rfl).2.1 ?_ (by decide)
    intro j hj
    have := passedBefore_of_parse h1 2 j hj
    have hj : j = 0 ∨ j = 1 := by omega
    rcases hj with h | h <;> subst h <;> exact this
  · refine ((C15_broadcast_shapes callXIncThree checkedBroad).2.1
      (dbl 1 3 [1 / 4, 1 / 2, 1]) (dbl 4 2 [9, 7, 5, 3, 19, 17, 15, 13]) rfl rfl rfl).2.1
      ?_ (by decide)
    intro j hj
    have := passedBefore_of_parse h1 3 j hj
    have hj : j = 0 ∨ j = 1 ∨ j = 2 := by omega
    rcases hj with h | h | h <;> subst h <;> exact this
  · refine ((C15_broadcast_shapes callSigmaShort checkedSigma).2.2
      (dbl 3 2 [1, 1, 1, 2, 2, 2]) rfl rfl).2.1 ?_ (by decide)
    intro j hj
    have := passedBefore_of_parse h2 10 j hj
    have hj : j = 0 ∨ j = 1 ∨ j = 2 ∨ j = 3 ∨ j = 4 ∨ j = 5 ∨ j = 6 ∨ j = 7 ∨ j = 8 ∨
        j = 9 := by omega
    rcases hj with h | h | h | h | h | h | h | h | h | h <;> subst h <;> exact this

/-! ## C16: the two targets of the convergence -/

theorem ofIntF32_one : Fp.ofIntF32 1 = .fin 1 := by decide!

theorem ofIntF32_zero : Fp.ofIntF32 0 = .fin 0 := by decide!

theorem litD_half : litD (1 / 2) = .fin (1 / 2) := by decide!

theorem scalarFloat_eq {a : MxArray} {d : Fp} (hd : mxGetScalar a = some d) :
    scalarFloat a = .ok d.toFloat := by
  simp [scalarFloat, hd]

/-- What the checks of lines 232 to 249 do with a `chi_sq_target` of one
element whose `float` value is the rational `r`. -/
theorem parseChiSqTarget_scalar {prhs : List MxArray} {a : MxArray} {d : Fp} {r : ℚ}
    (ha : prhs[6]? = some a) (h1 : mxGetNumberOfElements a = 1)
    (hd : mxGetScalar a = some d) (hr : d.toFloat = .fin r) :
    parseChiSqTarget prhs =
      if r < 1 then .error (.rejected (.chiSqTargetRange (.fin r))) else .ok (.fin r) := by
  have harg : arg prhs 6 = .ok a := arg_ok.2 ha
  have hlen : prhs.length > 6 := length_of_getElem? ha
  simp only [parseChiSqTarget, if_pos hlen, harg, rejectIf, h1, scalarFloat_eq hd, hr,
    ofIntF32_one, Fp.lt, bind, Except.bind, pure, Except.pure]
  split_ifs <;> simp_all

/-- What the checks of lines 257 to 276 do with a `chi_sq_delta` of one
element whose `float` value is the rational `r`. -/
theorem parseChiSqDelta_scalar {prhs : List MxArray} {a : MxArray} {d : Fp} {r : ℚ}
    (ha : prhs[7]? = some a) (h1 : mxGetNumberOfElements a = 1)
    (hd : mxGetScalar a = some d) (hr : d.toFloat = .fin r) :
    parseChiSqDelta prhs =
      if r < 0 ∨ 1 / 2 ≤ r then .error (.rejected (.chiSqDeltaRange (.fin r)))
      else .ok (.fin r) := by
  have harg : arg prhs 7 = .ok a := arg_ok.2 ha
  have hlen : prhs.length > 7 := length_of_getElem? ha
  have hb : (decide (r < 0) || !decide (r < 1 / 2)) = decide (r < 0 ∨ 1 / 2 ≤ r) := by
    by_cases h : r < 0 ∨ 1 / 2 ≤ r
    · rw [decide_eq_true h]
      rcases h with h | h
      · rw [decide_eq_true h]; rfl
      · rw [decide_eq_false (not_lt.2 h)]; cases decide (r < 0) <;> rfl
    · rw [decide_eq_false h]
      have h0 : ¬ r < 0 := fun h0 => h (Or.inl h0)
      have h2 : r < 1 / 2 := lt_of_not_le (fun h2 => h (Or.inr h2))
      rw [decide_eq_false h0, decide_eq_true h2]; rfl
  have hne : decide ((1 : Nat) ≠ 1) = false := by decide
  simp only [parseChiSqDelta, if_pos hlen, harg, rejectIf, h1, scalarFloat_eq hd, hr,
    ofIntF32_zero, litD_half, Fp.lt, Fp.ge, Fp.toDouble, hb, hne, bind, Except.bind, pure,
    Except.pure]
  by_cases h : r < 0 ∨ 1 / 2 ≤ r
  · simp only [decide_eq_true h, if_pos h, if_true]
    rfl
  · simp only [decide_eq_false h, if_neg h]
    rfl

theorem default_chi_sq_target : (litD (11 / 10)).toFloat = .fin (9227469 / 8388608) := by
  decide!

/-- C16: a `chi_sq_target` of one element whose `float` value is the
rational `r` passes the checks of its block if and only if `1 <= r`, and a
`chi_sq_delta` of one element whose `float` value is `r` passes the checks
of its block if and only if `0 <= r < 1 / 2`.  When the value is out of its
range and the blocks before it pass, the validation rejects the call with
the text on that input.  When the other blocks of checks pass, the
validation accepts the call if and only if the value is in its range.
Without a seventh input `chi_sq_target` is the `float` nearest to 1.1. -/
theorem C16_convergence_targets (prhs : List MxArray) (c : Checked) :
    (∀ a d r, prhs[6]? = some a → mxGetNumberOfElements a = 1 → mxGetScalar a = some d →
      d.toFloat = .fin r →
      ((∃ v, parseChiSqTarget prhs = .ok v) ↔ 1 ≤ r) ∧
      (PassedBefore prhs c 7 → ¬ 1 ≤ r →
        parse prhs = .error (.rejected (.chiSqTargetRange (.fin r)))) ∧
      (OthersPass prhs c 7 → c.chi_sq_target = .fin r → (parse prhs = .ok c ↔ 1 ≤ r)) ∧
      (parse prhs = .ok c → c.chi_sq_target = .fin r ∧ 1 ≤ r)) ∧
    (prhs.length ≤ 6 → parse prhs = .ok c →
      c.chi_sq_target = (litD (11 / 10)).toFloat ∧
      c.chi_sq_target = .fin (9227469 / 8388608)) ∧
    (∀ a d r, prhs[7]? = some a → mxGetNumberOfElements a = 1 → mxGetScalar a = some d →
      d.toFloat = .fin r →
      ((∃ v, parseChiSqDelta prhs = .ok v) ↔ 0 ≤ r ∧ r < 1 / 2) ∧
      (PassedBefore prhs c 8 → ¬ (0 ≤ r ∧ r < 1 / 2) →
        parse prhs = .error (.rejected (.chiSqDeltaRange (.fin r)))) ∧
      (OthersPass prhs c 8 → c.chi_sq_delta = .fin r →
        (parse prhs = .ok c ↔ 0 ≤ r ∧ r < 1 / 2)) ∧
      (parse prhs = .ok c → c.chi_sq_delta = .fin r ∧ 0 ≤ r ∧ r < 1 / 2)) := by
  refine ⟨?_, ?_, ?_⟩
  · intro a d r ha h1 hd hr
    have hst := parseChiSqTarget_scalar ha h1 hd hr
    refine ⟨?_, ?_, ?_, ?_⟩
    · rw [hst]
      split_ifs with h
      · simp only [exists_false, false_iff, not_le]; exact h
      · simp only [Except.ok.injEq, exists_eq', true_iff]; exact not_lt.1 h
    · intro hb hn
      apply parse_error_at hb
      show parseChiSqTarget prhs = _
      rw [hst, if_pos (not_le.1 hn)]
    · intro ho hf
      rw [parse_iff_of_others ho]
      show parseChiSqTarget prhs = .ok c.chi_sq_target ↔ _
      rw [hst, hf]
      split_ifs with h
      · simp only [false_iff, not_le]; exact h
      · simp only [true_iff]; exact not_lt.1 h
    · intro hp
      have h7 : parseChiSqTarget prhs = .ok c.chi_sq_target := (parse_ok hp).2.2.2.2.2.2.1
      rw [hst] at h7
      split_ifs at h7 with h
      exact ⟨(Except.ok.inj h7).symm, not_lt.1 h⟩
  · intro hlen hp
    have h7 : parseChiSqTarget prhs = .ok c.chi_sq_target := (parse_ok hp).2.2.2.2.2.2.1
    simp only [parseChiSqTarget, Nat.not_lt.2 hlen, if_false, pure, Except.pure] at h7
    have h := (Except.ok.inj h7).symm
    exact ⟨h, h.trans default_chi_sq_target⟩
  · intro a d r ha h1 hd hr
    have hst := parseChiSqDelta_scalar ha h1 hd hr
    have hiff : ¬ (r < 0 ∨ 1 / 2 ≤ r) ↔ 0 ≤ r ∧ r < 1 / 2 := by
      rw [not_or, not_lt, not_le]
    refine ⟨?_, ?_, ?_, ?_⟩
    · rw [hst]
      split_ifs with h
      · simp only [exists_false, false_iff]; exact fun h2 => hiff.2 h2 h
      · simp only [Except.ok.injEq, exists_eq', true_iff]; exact hiff.1 h
    · intro hb hn
      apply parse_error_at hb
      show parseChiSqDelta prhs = _
      rw [hst, if_pos (by_contra fun h => hn (hiff.1 h))]
    · intro ho hf
      rw [parse_iff_of_others ho]
      show parseChiSqDelta prhs = .ok c.chi_sq_delta ↔ _
      rw [hst, hf]
      split_ifs with h
      · simp only [false_iff]; exact fun h2 => hiff.2 h2 h
      · simp only [true_iff]; exact hiff.1 h
    · intro hp
      have h8 : parseChiSqDelta prhs = .ok c.chi_sq_delta := (parse_ok hp).2.2.2.2.2.2.2.1
      rw [hst] at h8
      split_ifs at h8 with h
      exact ⟨(Except.ok.inj h8).symm, hiff.1 h⟩

/-- C16 at the bounds, for one transient of eight points: the targets 1 and
0 are accepted, `chi_sq_target = 15 / 16` and `chi_sq_delta = 1 / 2` are
rejected, and a `double` just below 1 is the `float` 1. -/
theorem C16_convergence_targets_witness :
    (parse callTargetOne).toBool = true ∧
    parse callTargetLow = .error (.rejected (.chiSqTargetRange (.fin (15 / 16)))) ∧
    parse callDeltaZero = .ok checkedDeltaZero ∧
    parse callDeltaHalf = .error (.rejected (.chiSqDeltaRange (.fin (1 / 2)))) ∧
    (Fp.fin (1 - 1 / 2 ^ 30)).toFloat = .fin 1 := by
  have hok : parse callDeltaZero = .ok checkedDeltaZero := by decide!
  refine ⟨by decide!, ?_, hok, ?_, by decide!⟩
  · have h := ((C16_convergence_targets callTargetLow checkedDeltaZero).1 (dbl 1 1 [15 / 16])
      (.fin (15 / 16)) (15 / 16) rfl rfl rfl (by decide!)).2.1
    refine h ?_ (by norm_num)
    intro j hj
    have hj : j = 0 ∨ j = 1 ∨ j = 2 ∨ j = 3 ∨ j = 4 ∨ j = 5 ∨ j = 6 := by omega
    rcases hj with h | h | h | h | h | h | h <;> subst h
    · trivial
    · show parseTransient callTargetLow = _; decide!
    · show parsePrompt callTargetLow _ = _; decide!
    · show parseXInc callTargetLow _ = _; decide!
    · show parseFitStart callTargetLow _ = _; decide!
    · show parseFitType callTargetLow = _; decide!
    · show parseNoiseModel callTargetLow = _; decide!
  · have h := ((C16_convergence_targets callDeltaHalf checkedDeltaZero).2.2 (dbl 1 1 [1 / 2])
      (.fin (1 / 2)) (1 / 2) rfl rfl rfl (by decide!)).2.1
    refine h ?_ (by norm_num)
    intro j hj
    have hj : j = 0 ∨ j = 1 ∨ j = 2 ∨ j = 3 ∨ j = 4 ∨ j = 5 ∨ j = 6 ∨ j = 7 := by omega
    rcases hj with h | h | h | h | h | h | h | h <;> subst h
    · trivial
    · show parseTransient callDeltaHalf = _; decide!
    · show parsePrompt callDeltaHalf _ = _; decide!
    · show parseXInc callDeltaHalf _ = _; decide!
    · show parseFitStart callDeltaHalf _ = _; decide!
    · show parseFitType callDeltaHalf = _; decide!
    · show parseNoiseModel callDeltaHalf = _; decide!
    · show parseChiSqTarget callDeltaHalf = _; decide!

/-! ## C17: the fit function of the iterative engine -/

/-- The fit function the iterative engine is called with: line 556 sets
`fitfunc` to `GCI_multiexp_tau` for every transient, whatever the model. -/
theorem fitfunc_passed (E : Engines) (nlhs : Int) {prhs : List MxArray} {c : Checked}
    (h : parse prhs = .ok c) (hs : SigmaDefined c) {i : Nat} (hi : i < c.transient_nr) :
    ∃ la, (lmaCalls (mexFunction E nlhs prhs).log)[i]? = some la ∧
      la.fitfunc = some .GCI_multiexp_tau := by
  obtain ⟨p, hp⟩ := nParam_ok h
  exact ⟨_, (calls_at E nlhs h hs hp hi).2, rfl⟩

/-- C17, as the code behaves: for the stretched exponential, `fit_type = 4`,
the first `switch` sets `fitfunc` to `GCI_stretchedexp`, and the iterative
engine is still called with `GCI_multiexp_tau`, with the four parameters of
the stretched exponential. -/
theorem C17_stretched_fit_function_not_passed :
    (parse callStretched).toOption.map Checked.fit_type = some 4 ∧
    fitfuncBefore 4 = some .GCI_stretchedexp ∧
    (lmaCalls (mexFunction exampleEngines 1 callStretched).log).map LmaArgs.fitfunc =
      [some .GCI_multiexp_tau] ∧
    (lmaCalls (mexFunction exampleEngines 1 callStretched).log).map LmaArgs.nparam = [4] ∧
    (lmaCalls (mexFunction exampleEngines 1 callStretched).log).map LmaArgs.param =
      [some [.fin 0, .fin 1000, .fin 2, .fin (3 / 2)]] := by
  refine ⟨by decide!, by decide!, by decide!, by decide!, by decide!⟩

/-! ## C18: the default of chi_sq_delta -/

/-- The `chi_sq_delta` of a call with fewer than eight inputs: the `float`
nearest to 0.001, which the iterative engine is called with for every
transient. -/
theorem default_chi_sq_delta (E : Engines) (nlhs : Int) {prhs : List MxArray} {c : Checked}
    (h : parse prhs = .ok c) (hs : SigmaDefined c) (hlen : prhs.length ≤ 7) :
    c.chi_sq_delta = (litD (1 / 1000)).toFloat ∧
    ∀ i, i < c.transient_nr →
      ∃ la, (lmaCalls (mexFunction E nlhs prhs).log)[i]? = some la ∧
        la.chisq_delta = (litD (1 / 1000)).toFloat := by
  have h8 : parseChiSqDelta prhs = .ok c.chi_sq_delta := (parse_ok h).2.2.2.2.2.2.2.1
  simp only [parseChiSqDelta, Nat.not_lt.2 hlen, if_false, pure, Except.pure] at h8
  have hd := (Except.ok.inj h8).symm
  refine ⟨hd, fun i hi => ?_⟩
  obtain ⟨p, hp⟩ := nParam_ok h
  exact ⟨_, (calls_at E nlhs h hs hp hi).2, hd⟩

/-- C18, as the code behaves: a call with four inputs has the iterative
engine called with the `float` nearest to 0.001, which is 8589935 / 2 ^ 33,
not with the `float` nearest to 0.01, the default that lines 18 and 255
give. -/
theorem C18_default_chi_sq_delta_differs :
    (lmaCalls (mexFunction exampleEngines 1 callTiny).log).map LmaArgs.chisq_delta =
      [(litD (1 / 1000)).toFloat] ∧
    (litD (1 / 1000)).toFloat = .fin (8589935 / 8589934592) ∧
    (litD (1 / 100)).toFloat = .fin (5368709 / 536870912) ∧
    (lmaCalls (mexFunction exampleEngines 1 callTiny).log).map LmaArgs.chisq_delta ≠
      [(litD (1 / 100)).toFloat] := by
  refine ⟨by decide!, by decide!, by decide!, by decide!⟩

/-! ## Small integers are `float` values -/

theorem valid_callWindow : Valid callWindow checkedWindow :=
  ⟨by decide!, by decide, by decide, by decide!⟩

theorem iterLog_length (E : Engines) (c : Checked) (p i : Nat) : (iterLog E c p i).length = 8 :=
  rfl

/-- The event at place `j` of the fit of transient `i` in the log of an
accepted call. -/
theorem log_at (E : Engines) (nlhs : Int) {prhs : List MxArray} {c : Checked} {p : Nat}
    (h : parse prhs = .ok c) (hs : SigmaDefined c) (hp : nParam c.fit_type = some p)
    {i j : Nat}
    (hi : i < c.transient_nr) (hj : j < 8) :
    (mexFunction E nlhs prhs).log[(startFrame c nlhs p []).log.length + 8 * i + j]? =
      (iterLog E c p i)[j]? := by
  rw [(mexFunction_inv E nlhs h hs hp).2.1, Nat.add_assoc,
    List.getElem?_append_right (Nat.le_add_right _ _), Nat.add_sub_cancel_left]
  exact getElem?_flatMap_range _ 8 (iterLog_length E c p) hi hj

/-- C20, as the code behaves: in the call `callWindow`, whose window runs
from `fit_start = 2` to `fit_end = 7`, the three matrices handed to the
iterative engine have 7 rows and 7 columns, not 5 and 5. -/
theorem C20_counterexample :
    Valid callWindow checkedWindow ∧
    checkedWindow.fit_end - checkedWindow.fit_start = 5 ∧
    (lmaCalls (mexFunction exampleEngines 1 callWindow).log).map
      (fun la => (la.covar.nrows, la.covar.ncols)) = [(7, 7), (7, 7)] ∧
    (lmaCalls (mexFunction exampleEngines 1 callWindow).log).map
      (fun la => (la.alpha.nrows, la.alpha.ncols)) = [(7, 7), (7, 7)] ∧
    (lmaCalls (mexFunction exampleEngines 1 callWindow).log).map
      (fun la => (la.erraxes.nrows, la.erraxes.ncols)) = [(7, 7), (7, 7)] := by
  refine ⟨valid_callWindow, by decide, by decide!, by decide!, by decide!⟩

/-- C20, amended: in every valid call (`Valid`: the sigma is absent, has no
row or has one column) and for every transient `i`, the three matrices handed to the iterative engine have `fit_end` rows and `fit_end`
columns and are those of transient `i`.  What the call does after the outputs
are created is, transient after transient, eight steps: the three matrices
are allocated, the rapid engine is called, the iterative engine is called
with the three matrices, and the three matrices are released; the matrices
of transient `i` are so released before those of the next are allocated. -/
theorem C20_scratch_matrices (E : Engines) (nlhs : Int) (prhs : List MxArray) (c : Checked)
    (h : Valid prhs c) (i : Nat) (hi : i < c.transient_nr) :
    ∃ p la b, nParam c.fit_type = some p ∧
      (lmaCalls (mexFunction E nlhs prhs).log)[i]? = some la ∧
      la.covar = { nrows := c.fit_end, ncols := c.fit_end, fits := i, place := 0 } ∧
      la.alpha = { nrows := c.fit_end, ncols := c.fit_end, fits := i, place := 1 } ∧
      la.erraxes = { nrows := c.fit_end, ncols := c.fit_end, fits := i, place := 2 } ∧
      (mexFunction E nlhs prhs).log = (startFrame c nlhs p []).log ++
        (List.range c.transient_nr).flatMap (iterLog E c p) ∧
      b = (startFrame c nlhs p []).log.length + 8 * i ∧
      (mexFunction E nlhs prhs).log[b]? = some (.alloc la.covar) ∧
      (mexFunction E nlhs prhs).log[b + 1]? = some (.alloc la.alpha) ∧
      (mexFunction E nlhs prhs).log[b + 2]? = some (.alloc la.erraxes) ∧
      (mexFunction E nlhs prhs).log[b + 4]? = some (.lma la) ∧
      (mexFunction E nlhs prhs).log[b + 5]? = some (.free la.covar) ∧
      (mexFunction E nlhs prhs).log[b + 6]? = some (.free la.alpha) ∧
      (mexFunction E nlhs prhs).log[b + 7]? = some (.free la.erraxes) := by
  obtain ⟨p, hp⟩ := nParam_ok h.1
  obtain ⟨_, hl⟩ := calls_at E nlhs h.1 h.2.2.2 hp hi
  refine ⟨p, _, _, hp, hl, rfl, rfl, rfl, (mexFunction_inv E nlhs h.1 h.2.2.2 hp).2.1, rfl,
    ?_, ?_, ?_, ?_, ?_, ?_, ?_⟩
  · exact log_at E nlhs h.1 h.2.2.2 hp hi (by omega : 0 < 8)
  · exact log_at E nlhs h.1 h.2.2.2 hp hi (by omega : 1 < 8)
  · exact log_at E nlhs h.1 h.2.2.2 hp hi (by omega : 2 < 8)
  · exact log_at E nlhs h.1 h.2.2.2 hp hi (by omega : 4 < 8)
  · exact log_at E nlhs h.1 h.2.2.2 hp hi (by omega : 5 < 8)
  · exact log_at E nlhs h.1 h.2.2.2 hp hi (by omega : 6 < 8)
  · exact log_at E nlhs h.1 h.2.2.2 hp hi (by omega : 7 < 8)

/-- C20 at the second transient of `callWindow`, called for one output: the
covariance matrix of 7 rows and 7 columns is allocated at step 9 of the call
and released at step 14. -/
theorem C20_scratch_matrices_witness :
    Valid callWindow checkedWindow ∧ 1 < checkedWindow.transient_nr ∧
    (mexFunction exampleEngines 1 callWindow).log[9]? =
      some (.alloc { nrows := 7, ncols := 7, fits := 1, place := 0 }) ∧
    (mexFunction exampleEngines 1 callWindow).log[14]? =
      some (.free { nrows := 7, ncols := 7, fits := 1, place := 0 }) := by
  refine ⟨valid_callWindow, by decide, ?_⟩
  obtain ⟨p, la, b, hp, _, h0, _, _, _, hb, ha, _, _, _, hf, _⟩ :=
    C20_scratch_matrices exampleEngines 1 callWindow checkedWindow valid_callWindow 1
      (by decide)
  have hp3 : p = 3 := by
    have : nParam checkedWindow.fit_type = some 3 := by decide
    rw [this] at hp
    exact (Option.some.inj hp).symm
  subst hp3
  have hb9 : b = 9 := by rw [hb]; decide
  subst hb9
  rw [h0] at ha hf
  exact ⟨ha, hf⟩

/-! ## C21: one call of each engine for each transient -/

/-- The block of `x_inc` (lines 122 to 141), reached after the block of the
transients has passed, stops a call only with the text on the number of
elements: the test of line 134 looks at `transient_values`, which is of
class `double` by then. -/
theorem parseXInc_error {prhs : List MxArray} {nr : Nat} {r : Nat × Nat × Option (List Fp)}
    {e : Halt} (h1 : parseTransient prhs = .ok r) (he : parseXInc prhs nr = .error e) :
    e = .undefined ∨ ∃ k, e = .rejected (.xIncCount k) := by
  obtain ⟨t, ht, _, _, _, hd, _⟩ := parseTransient_ok h1
  cases ha : prhs[2]? with
  | none =>
      left
      have harg : arg prhs 2 = .error .undefined := by simp [arg, ha]
      simp only [parseXInc, harg, bind, Except.bind] at he
      exact (Except.error.inj he).symm
  | some a =>
      right
      rw [parseXInc_count nr ha ht hd] at he
      split_ifs at he
      exact ⟨_, (Except.error.inj he).symm⟩

/-- An accepted call whose `x_inc` is not of class `double`: nothing is
printed, the call returns, and every fit is made with an indeterminate time
increment. -/
theorem x_inc_class_not_tested (E : Engines) (nlhs : Int) {prhs : List MxArray}
    {c : Checked} {a : MxArray} (h : parse prhs = .ok c) (hs : SigmaDefined c)
    (ha : prhs[2]? = some a) (hc : a.cls ≠ MxClass.double) :
    c.x_inc_ptr = none ∧ c.x_inc = none ∧
    (mexFunction E nlhs prhs).status = .returned ∧
    printed (mexFunction E nlhs prhs).log = [] ∧
    ∀ i, i < c.transient_nr →
      ∃ ra la, (rldCalls (mexFunction E nlhs prhs).log)[i]? = some ra ∧
        (lmaCalls (mexFunction E nlhs prhs).log)[i]? = some la ∧
        ra.xincr = none ∧ la.xincr = none := by
  obtain ⟨b, hb, _, hptr, hx, _⟩ := parseXInc_ok (parse_ok h).2.2.1
  have hba : b = a := Option.some.inj (hb.symm.trans ha)
  subst hba
  have hpr : mxGetPr b = none := by simp [mxGetPr, mxIsDouble, hc]
  rw [hpr] at hptr hx
  have hx : c.x_inc = none := hx
  obtain ⟨p, hp⟩ := nParam_ok h
  refine ⟨hptr, hx, (mexFunction_inv E nlhs h hs hp).1, mexFunction_printed E nlhs h hs, ?_⟩
  intro i hi
  obtain ⟨hr, hl⟩ := calls_at E nlhs h hs hp hi
  have hxi : xIncAt c i = none := by
    unfold xIncAt
    split_ifs
    · rw [hptr]; rfl
    · exact hx
  exact ⟨_, _, hr, hl, hxi, hxi⟩

/-- C22, as the code behaves: the call `callXIncSingle`, whose `x_inc` is of
class `single` and whose other inputs are as asked, is accepted.  Nothing is
printed, the call returns with `plhs[0]` filled, and both engines are called
with an indeterminate time increment. -/
theorem C22_x_inc_class_not_checked :
    (callXIncSingle[2]?.map MxArray.cls) = some MxClass.single ∧
    (parse callXIncSingle).toBool = true ∧
    (mexFunction exampleEngines 1 callXIncSingle).status = .returned ∧
    printed (mexFunction exampleEngines 1 callXIncSingle).log = [] ∧
    (rldCalls (mexFunction exampleEngines 1 callXIncSingle).log).map RldArgs.xincr = [none] ∧
    (lmaCalls (mexFunction exampleEngines 1 callXIncSingle).log).map LmaArgs.xincr = [none] ∧
    (mexFunction exampleEngines 1 callXIncSingle).LMA_param.tab.map Table.data =
      some [.fin 10, .fin 11, .fin 12, .fin (9 / 4)] := by
  refine ⟨by decide, by decide!, by decide!, by decide!, by decide!, by decide!, by decide!⟩

/-! ## C23: the two tables of fitted curves -/

end SlimCurve
